import Mathlib

/-!
# Trotter-Suzuki solver: domain decomposition, state reductions and quadrant merging

A shallow embedding of `src/common.cpp`.

* C `int` values are mathematical integers (`Int`); `size_t` values are natural numbers
  (`Nat`).  No wrap-around is modelled: every extent that occurs (`coord * inner + halo`,
  `x + width`, `y + height`) is an index into an allocated buffer and therefore fits the
  machine type.
* A `double *` is a total function from an index to a value, a store `p[i] = v` is a
  function update.  `double` arithmetic is exact arithmetic in a type `K`.
-/

namespace TrotterSuzuki

/-! ## `calculate_borders` -/

/-- The integer the source obtains as `(int)ceil((double)length / (double)dim)`.  For `int`
operands and `dim ≥ 1` the rounded double quotient lies in the same unit interval as the exact
quotient, so the result is the exact integer ceiling. -/
def ceil_div (length dim : Int) : Int := -((-length) / dim)

/-- The four output parameters of `calculate_borders`. -/
structure Borders where
  start : Int
  end_ : Int
  inner_start : Int
  inner_end : Int
  deriving DecidableEq, Repr

/-- Embedding of `calculate_borders(coord, dim, &start, &end, &inner_start, &inner_end, length,
halo, periodic_bound)`; the inputs keep the source order. -/
def calculate_borders (coord dim length halo periodic_bound : Int) : Borders :=
  let inner := ceil_div length dim
  let inner_start := coord * inner
  let start :=
    if periodic_bound ≠ 0 then inner_start - halo
    else (if coord = 0 then 0 else inner_start - halo)
  let end0 := inner_start + (inner + halo)
  let end1 :=
    if end0 > length then (if periodic_bound ≠ 0 then length + halo else length)
    else end0
  let inner_end :=
    if periodic_bound ≠ 0 then end1 - halo
    else (if end1 = length then end1 else end1 - halo)
  { start := start, end_ := end1, inner_start := inner_start, inner_end := inner_end }

/-- Membership of a global index `z` in the half-open inner range of node `coord`. -/
def in_inner (coord dim length halo periodic_bound z : Int) : Prop :=
  (calculate_borders coord dim length halo periodic_bound).inner_start ≤ z ∧
    z < (calculate_borders coord dim length halo periodic_bound).inner_end

instance (coord dim length halo periodic_bound z : Int) :
    Decidable (in_inner coord dim length halo periodic_bound z) := by
  unfold in_inner; infer_instance

/-- The inner ranges of the nodes `0, …, dim-1` are pairwise disjoint and their union is
`[0, length)`. -/
def inner_tiles (dim length halo periodic_bound : Int) : Prop :=
  (∀ c1 c2 z : Int, 0 ≤ c1 → c1 < c2 → c2 < dim →
      ¬ (in_inner c1 dim length halo periodic_bound z ∧
          in_inner c2 dim length halo periodic_bound z)) ∧
  (∀ z : Int, (∃ c : Int, 0 ≤ c ∧ c < dim ∧ in_inner c dim length halo periodic_bound z) ↔
      (0 ≤ z ∧ z < length))

/-- No block boundary `k * inner` that lies strictly inside the axis comes within the halo of
the upper domain edge: `k * inner + halo ≤ length` on a periodic axis, `< length` on a
non-periodic one. -/
def boundary_clear (dim length halo periodic_bound : Int) : Prop :=
  ∀ k : Int, 1 ≤ k → k < dim → k * ceil_div length dim < length →
    if periodic_bound ≠ 0 then k * ceil_div length dim + halo ≤ length
    else k * ceil_div length dim + halo < length

/-! ## Quadrant merger -/

section Merger

variable {α : Type}

/-- Pointer arithmetic on a source: `offset_ptr p n` is `&p[n]`. -/
def offset_ptr (p : Nat → α) (n : Nat) : Nat → α := fun k => p (n + k)

/-- Calling a routine that writes through its `double *` argument with the argument `&mem[n]`:
the callee sees the memory from index `n` on, and what it leaves there is the new content of
`mem` from `n` on; the cells below `n` are out of its reach. -/
def store_at (n : Nat) (callee : (Nat → α) → (Nat → α)) (mem : Nat → α) : Nat → α :=
  fun i => if n ≤ i then callee (offset_ptr mem n) (i - n) else mem i

/-- What a line merge leaves behind: the destination and the counter `dest_x` that the final
`assert(dest_x == x + width)` inspects. -/
@[ext]
structure LineResult (α : Type) where
  dest : Nat → α
  dest_x : Nat

/-- What a quadrant merge leaves behind: both destinations and the counter `dest_y` that the
final `assert(dest_y == y + height)` inspects. -/
@[ext]
structure QuadrantResult (α : Type) where
  dest_real : Nat → α
  dest_imag : Nat → α
  dest_y : Nat

/-- The `while (dest_x < (x + width) - (x + width) % 2)` loop of `merge_line`; `bound` is the
loop limit, `evens_p` and `odds_p` are the offsets of the two read pointers. -/
def merge_line_loop (evens odds : Nat → α) (x bound : Nat)
    (dest_x evens_p odds_p : Nat) (dest : Nat → α) : Nat × Nat × Nat × (Nat → α) :=
  if dest_x < bound then
    let dest1 := Function.update dest (dest_x - x) (evens evens_p)
    let dest2 := Function.update dest1 (dest_x + 1 - x) (odds odds_p)
    merge_line_loop evens odds x bound (dest_x + 2) (evens_p + 1) (odds_p + 1) dest2
  else (dest_x, evens_p, odds_p, dest)
termination_by bound - dest_x
decreasing_by omega

/-- Embedding of `merge_line(evens, odds, x, width, dest)`. -/
def merge_line (evens odds : Nat → α) (x width : Nat) (dest : Nat → α) : LineResult α :=
  let odds_p := x / 2
  let evens_p := x / 2
  let dest_x := x
  let s0 : Nat × Nat × Nat × (Nat → α) :=
    if x % 2 = 1 then
      (dest_x + 1, evens_p, odds_p + 1, Function.update dest (dest_x - x) (odds odds_p))
    else (dest_x, evens_p, odds_p, dest)
  let s1 := merge_line_loop evens odds x ((x + width) - (x + width) % 2) s0.1 s0.2.1 s0.2.2.1
    s0.2.2.2
  if s1.1 < x + width then
    { dest := Function.update s1.2.2.2 (s1.1 - x) (evens s1.2.1), dest_x := s1.1 + 1 }
  else { dest := s1.2.2.2, dest_x := s1.1 }

/-- The `while` loop of `merge_line_to_buffer`; the state carries `buffer_x` as well. -/
def merge_line_to_buffer_loop (evens odds : Nat → α) (bound : Nat)
    (dest_x buffer_x evens_p odds_p : Nat) (dest : Nat → α) :
    Nat × Nat × Nat × Nat × (Nat → α) :=
  if dest_x < bound then
    let dest1 := Function.update dest buffer_x (evens evens_p)
    let dest2 := Function.update dest1 (buffer_x + 1) (odds odds_p)
    merge_line_to_buffer_loop evens odds bound (dest_x + 2) (buffer_x + 2) (evens_p + 1)
      (odds_p + 1) dest2
  else (dest_x, buffer_x, evens_p, odds_p, dest)
termination_by bound - dest_x
decreasing_by omega

/-- Embedding of `merge_line_to_buffer(evens, odds, x, width, dest)`. -/
def merge_line_to_buffer (evens odds : Nat → α) (x width : Nat) (dest : Nat → α) :
    LineResult α :=
  let odds_p := x / 2
  let evens_p := x / 2
  let dest_x := x
  let buffer_x := 0
  let s0 : Nat × Nat × Nat × Nat × (Nat → α) :=
    if x % 2 = 1 then
      (dest_x + 1, buffer_x + 1, evens_p, odds_p + 1, Function.update dest buffer_x (odds odds_p))
    else (dest_x, buffer_x, evens_p, odds_p, dest)
  let s1 := merge_line_to_buffer_loop evens odds ((x + width) - (x + width) % 2) s0.1 s0.2.1
    s0.2.2.1 s0.2.2.2.1 s0.2.2.2.2
  if s1.1 < x + width then
    { dest := Function.update s1.2.2.2.2 s1.2.1 (evens s1.2.2.1), dest_x := s1.1 + 1 }
  else { dest := s1.2.2.2.2, dest_x := s1.1 }

/-- The `while (dest_y < (y + height) - (y + height) % 2)` loop of `get_quadrant_sample`: each
round merges one row from the pair `(…00, …01)` and the next from the pair `(…10, …11)`. -/
def get_quadrant_sample_loop (r00 r01 r10 r11 i00 i01 i10 i11 : Nat → α)
    (src_stride dest_stride x y width bound : Nat)
    (dest_y : Nat) (dest_real dest_imag : Nat → α) : Nat × (Nat → α) × (Nat → α) :=
  if dest_y < bound then
    let re1 := store_at ((dest_y - y) * dest_stride)
      (fun d => (merge_line (offset_ptr r00 ((dest_y / 2) * src_stride))
        (offset_ptr r01 ((dest_y / 2) * src_stride)) x width d).dest) dest_real
    let im1 := store_at ((dest_y - y) * dest_stride)
      (fun d => (merge_line (offset_ptr i00 ((dest_y / 2) * src_stride))
        (offset_ptr i01 ((dest_y / 2) * src_stride)) x width d).dest) dest_imag
    let dest_y1 := dest_y + 1
    let re2 := store_at ((dest_y1 - y) * dest_stride)
      (fun d => (merge_line (offset_ptr r10 ((dest_y1 / 2) * src_stride))
        (offset_ptr r11 ((dest_y1 / 2) * src_stride)) x width d).dest) re1
    let im2 := store_at ((dest_y1 - y) * dest_stride)
      (fun d => (merge_line (offset_ptr i10 ((dest_y1 / 2) * src_stride))
        (offset_ptr i11 ((dest_y1 / 2) * src_stride)) x width d).dest) im1
    get_quadrant_sample_loop r00 r01 r10 r11 i00 i01 i10 i11 src_stride dest_stride x y width
      bound (dest_y1 + 1) re2 im2
  else (dest_y, dest_real, dest_imag)
termination_by bound - dest_y
decreasing_by omega

/-- Embedding of `get_quadrant_sample(r00, r01, r10, r11, i00, i01, i10, i11, src_stride,
dest_stride, x, y, width, height, dest_real, dest_imag)`. -/
def get_quadrant_sample (r00 r01 r10 r11 i00 i01 i10 i11 : Nat → α)
    (src_stride dest_stride x y width height : Nat) (dest_real dest_imag : Nat → α) :
    QuadrantResult α :=
  let dest_y := y
  let s0 : Nat × (Nat → α) × (Nat → α) :=
    if y % 2 = 1 then
      (dest_y + 1,
        (merge_line (offset_ptr r10 ((y / 2) * src_stride))
          (offset_ptr r11 ((y / 2) * src_stride)) x width dest_real).dest,
        (merge_line (offset_ptr i10 ((y / 2) * src_stride))
          (offset_ptr i11 ((y / 2) * src_stride)) x width dest_imag).dest)
    else (dest_y, dest_real, dest_imag)
  let s1 := get_quadrant_sample_loop r00 r01 r10 r11 i00 i01 i10 i11 src_stride dest_stride
    x y width ((y + height) - (y + height) % 2) s0.1 s0.2.1 s0.2.2
  if s1.1 < y + height then
    { dest_real := store_at ((s1.1 - y) * dest_stride)
        (fun d => (merge_line (offset_ptr r00 ((s1.1 / 2) * src_stride))
          (offset_ptr r01 ((s1.1 / 2) * src_stride)) x width d).dest) s1.2.1,
      dest_imag := store_at ((s1.1 - y) * dest_stride)
        (fun d => (merge_line (offset_ptr i00 ((s1.1 / 2) * src_stride))
          (offset_ptr i01 ((s1.1 / 2) * src_stride)) x width d).dest) s1.2.2,
      dest_y := s1.1 }
  else { dest_real := s1.2.1, dest_imag := s1.2.2, dest_y := s1.1 }

/-- The `while` loop of `get_quadrant_sample_to_buffer`; the state carries `buffer_y` as
well. -/
def get_quadrant_sample_to_buffer_loop (r00 r01 r10 r11 i00 i01 i10 i11 : Nat → α)
    (src_stride dest_stride x width bound : Nat)
    (dest_y buffer_y : Nat) (dest_real dest_imag : Nat → α) :
    Nat × Nat × (Nat → α) × (Nat → α) :=
  if dest_y < bound then
    let re1 := store_at (buffer_y * dest_stride)
      (fun d => (merge_line_to_buffer (offset_ptr r00 ((dest_y / 2) * src_stride))
        (offset_ptr r01 ((dest_y / 2) * src_stride)) x width d).dest) dest_real
    let im1 := store_at (buffer_y * dest_stride)
      (fun d => (merge_line_to_buffer (offset_ptr i00 ((dest_y / 2) * src_stride))
        (offset_ptr i01 ((dest_y / 2) * src_stride)) x width d).dest) dest_imag
    let dest_y1 := dest_y + 1
    let buffer_y1 := buffer_y + 1
    let re2 := store_at (buffer_y1 * dest_stride)
      (fun d => (merge_line_to_buffer (offset_ptr r10 ((dest_y1 / 2) * src_stride))
        (offset_ptr r11 ((dest_y1 / 2) * src_stride)) x width d).dest) re1
    let im2 := store_at (buffer_y1 * dest_stride)
      (fun d => (merge_line_to_buffer (offset_ptr i10 ((dest_y1 / 2) * src_stride))
        (offset_ptr i11 ((dest_y1 / 2) * src_stride)) x width d).dest) im1
    get_quadrant_sample_to_buffer_loop r00 r01 r10 r11 i00 i01 i10 i11 src_stride dest_stride
      x width bound (dest_y1 + 1) (buffer_y1 + 1) re2 im2
  else (dest_y, buffer_y, dest_real, dest_imag)
termination_by bound - dest_y
decreasing_by omega

/-- Embedding of `get_quadrant_sample_to_buffer(r00, r01, r10, r11, i00, i01, i10, i11,
src_stride, dest_stride, x, y, width, height, dest_real, dest_imag)`. -/
def get_quadrant_sample_to_buffer (r00 r01 r10 r11 i00 i01 i10 i11 : Nat → α)
    (src_stride dest_stride x y width height : Nat) (dest_real dest_imag : Nat → α) :
    QuadrantResult α :=
  let dest_y := y
  let buffer_y := 0
  let s0 : Nat × Nat × (Nat → α) × (Nat → α) :=
    if y % 2 = 1 then
      (dest_y + 1, buffer_y + 1,
        (merge_line_to_buffer (offset_ptr r10 ((y / 2) * src_stride))
          (offset_ptr r11 ((y / 2) * src_stride)) x width dest_real).dest,
        (merge_line_to_buffer (offset_ptr i10 ((y / 2) * src_stride))
          (offset_ptr i11 ((y / 2) * src_stride)) x width dest_imag).dest)
    else (dest_y, buffer_y, dest_real, dest_imag)
  let s1 := get_quadrant_sample_to_buffer_loop r00 r01 r10 r11 i00 i01 i10 i11 src_stride
    dest_stride x width ((y + height) - (y + height) % 2) s0.1 s0.2.1 s0.2.2.1 s0.2.2.2
  if s1.1 < y + height then
    { dest_real := store_at (s1.2.1 * dest_stride)
        (fun d => (merge_line_to_buffer (offset_ptr r00 ((s1.1 / 2) * src_stride))
          (offset_ptr r01 ((s1.1 / 2) * src_stride)) x width d).dest) s1.2.2.1,
      dest_imag := store_at (s1.2.1 * dest_stride)
        (fun d => (merge_line_to_buffer (offset_ptr i00 ((s1.1 / 2) * src_stride))
          (offset_ptr i01 ((s1.1 / 2) * src_stride)) x width d).dest) s1.2.2.2,
      dest_y := s1.1 }
  else { dest_real := s1.2.2.1, dest_imag := s1.2.2.2, dest_y := s1.1 }

/-- The full-resolution line of the quadrant merger: `full[2m] = evens[m]` and
`full[2m+1] = odds[m]`. -/
def interleaved (evens odds : Nat → α) (n : Nat) : α :=
  if n % 2 = 0 then evens (n / 2) else odds (n / 2)

/-- The element `merge_line` delivers for global column `n` of a request that starts at `x`:
the read pointers start at `x / 2` and only `odds_p` is advanced by the odd-start prologue, so
for odd `x` the even columns are served from one source element earlier. -/
def merge_line_value (evens odds : Nat → α) (x n : Nat) : α :=
  if n % 2 = 0 then evens (n / 2 - x % 2) else odds (n / 2)

/-- One output row of the quadrant merger: row `r` of the request is the line merge of the
pair `(a0, a1)` when the global row `y + r` is even and of the pair `(b0, b1)` when it is odd,
taken at source row `(y + r) / 2`, written at `&dest[r * dest_stride]`. -/
def quadrant_row (a0 a1 b0 b1 : Nat → α) (src_stride dest_stride x y width : Nat)
    (dest : Nat → α) (r : Nat) : Nat → α :=
  store_at (r * dest_stride)
    (fun d => (merge_line
      (offset_ptr (if (y + r) % 2 = 0 then a0 else b0) (((y + r) / 2) * src_stride))
      (offset_ptr (if (y + r) % 2 = 0 then a1 else b1) (((y + r) / 2) * src_stride))
      x width d).dest) dest

end Merger

/-! ## Lattice -/

/-- A `for (int i = lo; i < hi; i++)` loop whose body does not assign `i`: the body runs for
`i = lo, lo+1, …, hi-1` in this order (not at all when `hi ≤ lo`). -/
def for_range {σ : Type} (lo hi : Int) (body : Int → σ → σ) (init : σ) : σ :=
  (List.range (hi - lo).toNat).foldl (fun s (k : Nat) => body (lo + (k : Int)) s) init

/-- What the MPI calls of the `Lattice` constructor return: the size of the communicator
(`MPI_Comm_size`), the rank in the Cartesian communicator (`MPI_Comm_rank`), the node grid
(`MPI_Dims_create`) and this node's coordinates in it (`MPI_Cart_coords`). -/
structure MPIEnv where
  mpi_procs : Int
  mpi_rank : Int
  mpi_dims : Int × Int
  mpi_coords : Int × Int
  deriving DecidableEq, Repr

/-- The values the constructor uses when built without MPI. -/
def MPIEnv.single : MPIEnv :=
  { mpi_procs := 1, mpi_rank := 0, mpi_dims := (1, 1), mpi_coords := (0, 0) }

/-- The data members of `Lattice`; the arrays `periods`, `mpi_dims`, `mpi_coords` of length 2
are pairs (`.1` is index 0, `.2` is index 1). -/
structure Lattice (K : Type) where
  delta_x : K
  delta_y : K
  periods : Int × Int
  mpi_procs : Int
  mpi_rank : Int
  mpi_dims : Int × Int
  mpi_coords : Int × Int
  halo_x : Int
  halo_y : Int
  global_dim_x : Int
  global_dim_y : Int
  start_x : Int
  end_x : Int
  inner_start_x : Int
  inner_end_x : Int
  start_y : Int
  end_y : Int
  inner_start_y : Int
  inner_end_y : Int
  dim_x : Int
  dim_y : Int

set_option linter.dupNamespace false in
/-- Embedding of the constructor `Lattice::Lattice(dim, _delta_x, _delta_y, _periods, omega)`;
`_periods` is `none` for the null pointer, `mpi` holds what the MPI calls return. -/
def Lattice.Lattice {K : Type} [Zero K] [DecidableEq K] (mpi : MPIEnv) (dim : Int)
    (_delta_x _delta_y : K) (_periods : Option (Int × Int)) (omega : K) : Lattice K :=
  let periods : Int × Int :=
    match _periods with
    | none => (0, 0)
    | some q => (q.1, q.2)
  let halo_x : Int := if omega = 0 then 4 else 8
  let halo_y : Int := if omega = 0 then 4 else 8
  let global_dim_x := dim + periods.2 * 2 * halo_x
  let global_dim_y := dim + periods.1 * 2 * halo_y
  let bx := calculate_borders mpi.mpi_coords.2 mpi.mpi_dims.2
    (global_dim_x - 2 * periods.2 * halo_x) halo_x periods.2
  let by_ := calculate_borders mpi.mpi_coords.1 mpi.mpi_dims.1
    (global_dim_y - 2 * periods.1 * halo_y) halo_y periods.1
  { delta_x := _delta_x, delta_y := _delta_y, periods := periods,
    mpi_procs := mpi.mpi_procs, mpi_rank := mpi.mpi_rank, mpi_dims := mpi.mpi_dims,
    mpi_coords := mpi.mpi_coords, halo_x := halo_x, halo_y := halo_y,
    global_dim_x := global_dim_x, global_dim_y := global_dim_y,
    start_x := bx.start, end_x := bx.end_, inner_start_x := bx.inner_start,
    inner_end_x := bx.inner_end,
    start_y := by_.start, end_y := by_.end_, inner_start_y := by_.inner_start,
    inner_end_y := by_.inner_end,
    dim_x := bx.end_ - bx.start, dim_y := by_.end_ - by_.start }

/-! ## State -/

/-- A `std::complex<double>` value, in exact arithmetic over `K`. -/
@[ext]
structure Cplx (K : Type) where
  re : K
  im : K

/-- The data members of `State`: the lattice it was built on, the two buffers and the
ownership flag. -/
structure State (K : Type) where
  grid : Lattice K
  p_real : Int → K
  p_imag : Int → K
  self_init : Bool

/-- Embedding of `State::init_state(ini_state)`. -/
def State.init_state {K : Type} (st : State K)
    (ini_state : Int → Int → Lattice K → Cplx K) : State K :=
  for_range 0 st.grid.dim_y (fun y s =>
    for_range 0 st.grid.dim_x (fun x s1 =>
      let idy := st.grid.start_y + y
      let idx := st.grid.start_x + x
      let tmp := ini_state idx idy st.grid
      { s1 with
        p_real := Function.update s1.p_real (y * st.grid.dim_x + x) tmp.re,
        p_imag := Function.update s1.p_imag (y * st.grid.dim_x + x) tmp.im }) s) st

/-- The receive buffer of `MPI_Allgather(&send, 1, MPI_DOUBLE, sums, 1, MPI_DOUBLE, cartcomm)`
as rank `mpi_rank` sees it: entry `i` is the value rank `i` sent; `peers i` is what the other
ranks contribute. -/
def MPI_Allgather {K : Type} (peers : Int → K) (mpi_rank : Int) (send : K) : Int → K :=
  fun i => if i = mpi_rank then send else peers i

/-- The `if (global)` block that closes every reduction routine (the code is repeated verbatim
in each of them): gather one partial per rank into `sums`, store the own partial in `sums[0]`,
and add up `sums[0 .. mpi_procs)`. -/
def allgather_sum {K : Type} [Zero K] [Add K] (grid : Lattice K) (peers : Int → K)
    (value : K) : K :=
  let sums := MPI_Allgather peers grid.mpi_rank value
  let sums1 := Function.update sums 0 value
  for_range 0 grid.mpi_procs (fun i acc => acc + sums1 i) 0

/-- Embedding of `State::calculate_squared_norm(global)` in the MPI build; `peers` is the
contribution of the other ranks to the all-gather. -/
def State.calculate_squared_norm {K : Type} [Zero K] [Add K] [Mul K] (st : State K)
    (global : Bool) (peers : Int → K) : K :=
  let tile_width := st.grid.end_x - st.grid.start_x
  let norm2 : K :=
    for_range (st.grid.inner_start_y - st.grid.start_y)
      (st.grid.inner_end_y - st.grid.start_y) (fun i acc =>
        for_range (st.grid.inner_start_x - st.grid.start_x)
          (st.grid.inner_end_x - st.grid.start_x) (fun j acc1 =>
            acc1 + (st.p_real (j + i * tile_width) * st.p_real (j + i * tile_width) +
              st.p_imag (j + i * tile_width) * st.p_imag (j + i * tile_width))) acc) 0
  if global then allgather_sum st.grid peers norm2 else norm2

/-! ## Complex arithmetic of the reduction routines -/

namespace Cplx

variable {K : Type} [Field K]

instance : Zero (Cplx K) := ⟨⟨0, 0⟩⟩

instance : Add (Cplx K) := ⟨fun a b => ⟨a.re + b.re, a.im + b.im⟩⟩

instance : Sub (Cplx K) := ⟨fun a b => ⟨a.re - b.re, a.im - b.im⟩⟩

instance : Mul (Cplx K) :=
  ⟨fun a b => ⟨a.re * b.re - a.im * b.im, a.re * b.im + a.im * b.re⟩⟩

/-- The function `conj` of `std::complex`. -/
def conj (a : Cplx K) : Cplx K := ⟨a.re, -a.im⟩

/-- The product `double * complex`. -/
def real_mul (t : K) (a : Cplx K) : Cplx K := ⟨t * a.re, t * a.im⟩

/-- The product `complex * double`. -/
def mul_real (a : Cplx K) (t : K) : Cplx K := ⟨a.re * t, a.im * t⟩

/-- The quotient `complex / double`, in exact arithmetic.  For `t = 0` the components are those
of the division of the field, `x / 0 = 0`, whereas the double division of the code gives NaN
or an infinity; the routines whose value at a zero divisor matters have a variant with the
suffix `_checked` that makes the division partial. -/
def div_real (a : Cplx K) (t : K) : Cplx K := ⟨a.re / t, a.im / t⟩

end Cplx

/-! ## Hamiltonian and the stencil reductions -/

/-- The data members of `Hamiltonian`. -/
structure Hamiltonian (K : Type) where
  grid : Lattice K
  mass : K
  coupling_a : K
  coupling_ab : K
  angular_velocity : K
  rot_coord_x : K
  rot_coord_y : K
  omega : K
  external_pot : Int → K
  self_init : Bool

section Reductions

variable {K : Type}

/-- The local `ini_halo_x` of the reduction routines. -/
def ini_halo_x (grid : Lattice K) : Int := grid.inner_start_x - grid.start_x

/-- The local `ini_halo_y` of the reduction routines. -/
def ini_halo_y (grid : Lattice K) : Int := grid.inner_start_y - grid.start_y

/-- The local `end_halo_x` of the reduction routines. -/
def end_halo_x (grid : Lattice K) : Int := grid.end_x - grid.inner_end_x

/-- The local `end_halo_y` of the reduction routines. -/
def end_halo_y (grid : Lattice K) : Int := grid.end_y - grid.inner_end_y

/-- The local `tile_width` of the reduction routines. -/
def tile_width (grid : Lattice K) : Int := grid.end_x - grid.start_x

/-- First row of the stencil loops:
`i = grid->inner_start_y - grid->start_y + (ini_halo_y == 0)`. -/
def stencil_begin_y (grid : Lattice K) : Int :=
  grid.inner_start_y - grid.start_y + (if ini_halo_y grid = 0 then 1 else 0)

/-- Row limit of the stencil loops:
`i < grid->inner_end_y - grid->start_y - (end_halo_y == 0)`. -/
def stencil_end_y (grid : Lattice K) : Int :=
  grid.inner_end_y - grid.start_y - (if end_halo_y grid = 0 then 1 else 0)

/-- First column of the stencil loops:
`j = grid->inner_start_x - grid->start_x + (ini_halo_x == 0)`. -/
def stencil_begin_x (grid : Lattice K) : Int :=
  grid.inner_start_x - grid.start_x + (if ini_halo_x grid = 0 then 1 else 0)

/-- Column limit of the stencil loops:
`j < grid->inner_end_x - grid->start_x - (end_halo_x == 0)`. -/
def stencil_end_x (grid : Lattice K) : Int :=
  grid.inner_end_x - grid.start_x - (if end_halo_x grid = 0 then 1 else 0)

/-- The global row `y` that the loops with a second counter carry along with `i`: it starts
at `grid->inner_start_y + (ini_halo_y == 0)` and is incremented together with `i`. -/
def global_y (grid : Lattice K) (i : Int) : Int :=
  grid.inner_start_y + (if ini_halo_y grid = 0 then 1 else 0) + (i - stencil_begin_y grid)

/-- The global column `x` that the loops with a second counter carry along with `j`. -/
def global_x (grid : Lattice K) (j : Int) : Int :=
  grid.inner_start_x + (if ini_halo_x grid = 0 then 1 else 0) + (j - stencil_begin_x grid)

/-- The complex number `std::complex<double>(p_real[k], p_imag[k])`. -/
def State.psi (st : State K) (k : Int) : Cplx K := ⟨st.p_real k, st.p_imag k⟩

/-- Agreement of two states on every cell of the `dim_y × dim_x` tile buffer. -/
def agree_on_tile (grid : Lattice K) (st st' : State K) : Prop :=
  ∀ k : Int, 0 ≤ k → k < grid.dim_y * grid.dim_x →
    st.p_real k = st'.p_real k ∧ st.p_imag k = st'.p_imag k

variable [Field K] [DecidableEq K]

/-- The summand of `calculate_kinetic_energy` at the cell `(i, j)`:
`conj(psi_center) * (cost_E * (…))`. -/
def kinetic_term (grid : Lattice K) (state : State K) (hamiltonian : Hamiltonian K)
    (i j : Int) : Cplx K :=
  let tile_width := grid.end_x - grid.start_x
  let cost_E : Cplx K := ⟨-1 / (2 * hamiltonian.mass), 0⟩
  let psi_center := state.psi (i * tile_width + j)
  let psi_up := state.psi ((i - 1) * tile_width + j)
  let psi_down := state.psi ((i + 1) * tile_width + j)
  let psi_right := state.psi (i * tile_width + j + 1)
  let psi_left := state.psi (i * tile_width + j - 1)
  Cplx.conj psi_center * (cost_E * (
    (⟨1 / (grid.delta_x * grid.delta_x), 0⟩ : Cplx K) *
      (psi_right + psi_left - psi_center * ⟨2, 0⟩) +
    (⟨1 / (grid.delta_y * grid.delta_y), 0⟩ : Cplx K) *
      (psi_down + psi_up - psi_center * ⟨2, 0⟩)))

/-- The summand of `calculate_rotational_energy` at the cell `(i, j)`:
`conj(psi_center) * (rot_y * (psi_down - psi_up) - rot_x * (psi_right - psi_left))`. -/
def rotational_term (grid : Lattice K) (state : State K) (hamiltonian : Hamiltonian K)
    (i j : Int) : Cplx K :=
  let tile_width := grid.end_x - grid.start_x
  let cost_rot_x : K := 1 / 2 * hamiltonian.omega * grid.delta_y / grid.delta_x
  let cost_rot_y : K := 1 / 2 * hamiltonian.omega * grid.delta_x / grid.delta_y
  let y := global_y grid i
  let x := global_x grid j
  let psi_center := state.psi (i * tile_width + j)
  let psi_up := state.psi ((i - 1) * tile_width + j)
  let psi_down := state.psi ((i + 1) * tile_width + j)
  let psi_right := state.psi (i * tile_width + j + 1)
  let psi_left := state.psi (i * tile_width + j - 1)
  let rot_x : Cplx K := ⟨0, cost_rot_x * ((y : K) - hamiltonian.rot_coord_y)⟩
  let rot_y : Cplx K := ⟨0, cost_rot_y * ((x : K) - hamiltonian.rot_coord_x)⟩
  Cplx.conj psi_center * (rot_y * (psi_down - psi_up) - rot_x * (psi_right - psi_left))

/-- The summand of the single-state `calculate_total_energy` at the cell `(i, j)`;
`external_pot` is `none` for `NULL`. -/
def total_energy_term (grid : Lattice K) (state : State K) (hamiltonian : Hamiltonian K)
    (hamilt_pot : Int → Int → Lattice K → K) (external_pot : Option (Int → K))
    (i j : Int) : Cplx K :=
  let tile_width := grid.end_x - grid.start_x
  let cost_E : Cplx K := ⟨-1 / (2 * hamiltonian.mass), 0⟩
  let cost_rot_x : K := 1 / 2 * hamiltonian.omega * grid.delta_y / grid.delta_x
  let cost_rot_y : K := 1 / 2 * hamiltonian.omega * grid.delta_x / grid.delta_y
  let y := global_y grid i
  let x := global_x grid j
  let potential_term : Cplx K :=
    match external_pot with
    | none => ⟨hamilt_pot x y grid, 0⟩
    | some pot => ⟨pot (y * grid.global_dim_x + x), 0⟩
  let psi_center := state.psi (i * tile_width + j)
  let psi_up := state.psi ((i - 1) * tile_width + j)
  let psi_down := state.psi ((i + 1) * tile_width + j)
  let psi_right := state.psi (i * tile_width + j + 1)
  let psi_left := state.psi (i * tile_width + j - 1)
  let rot_x : Cplx K := ⟨0, cost_rot_x * ((y : K) - hamiltonian.rot_coord_y)⟩
  let rot_y : Cplx K := ⟨0, cost_rot_y * ((x : K) - hamiltonian.rot_coord_x)⟩
  Cplx.conj psi_center * (cost_E * (
      (⟨1 / (grid.delta_x * grid.delta_x), 0⟩ : Cplx K) *
        (psi_right + psi_left - psi_center * ⟨2, 0⟩) +
      (⟨1 / (grid.delta_y * grid.delta_y), 0⟩ : Cplx K) *
        (psi_down + psi_up - psi_center * ⟨2, 0⟩)) +
    psi_center * potential_term +
    psi_center * psi_center * Cplx.conj psi_center * ⟨1 / 2 * hamiltonian.coupling_a, 0⟩ +
    rot_y * (psi_down - psi_up) - rot_x * (psi_right - psi_left))

/-- Embedding of the single-state `calculate_total_energy(grid, state, hamiltonian, hamilt_pot,
external_pot, norm2, global)`. -/
def calculate_total_energy (grid : Lattice K) (state : State K) (hamiltonian : Hamiltonian K)
    (hamilt_pot : Int → Int → Lattice K → K) (external_pot : Option (Int → K)) (norm2 : K)
    (global : Bool) (peers : Int → K) : K :=
  let norm2 := if norm2 = 0 then state.calculate_squared_norm false peers else norm2
  let sum : Cplx K :=
    for_range (stencil_begin_y grid) (stencil_end_y grid) (fun i acc =>
      for_range (stencil_begin_x grid) (stencil_end_x grid) (fun j acc1 =>
        acc1 + total_energy_term grid state hamiltonian hamilt_pot external_pot i j) acc) 0
  let total_energy := (Cplx.div_real sum norm2).re * grid.delta_x * grid.delta_y
  if global then allgather_sum grid peers total_energy else total_energy

/-- Embedding of `calculate_kinetic_energy(grid, state, hamiltonian, norm2, global)`. -/
def calculate_kinetic_energy (grid : Lattice K) (state : State K) (hamiltonian : Hamiltonian K)
    (norm2 : K) (global : Bool) (peers : Int → K) : K :=
  let norm2 := if norm2 = 0 then state.calculate_squared_norm false peers else norm2
  let sum : Cplx K :=
    for_range (stencil_begin_y grid) (stencil_end_y grid) (fun i acc =>
      for_range (stencil_begin_x grid) (stencil_end_x grid) (fun j acc1 =>
        acc1 + kinetic_term grid state hamiltonian i j) acc) 0
  let kinetic_energy := (Cplx.div_real sum norm2).re * grid.delta_x * grid.delta_y
  if global then allgather_sum grid peers kinetic_energy else kinetic_energy

/-- Embedding of `calculate_rotational_energy(grid, state, hamiltonian, norm2, global)`. -/
def calculate_rotational_energy (grid : Lattice K) (state : State K)
    (hamiltonian : Hamiltonian K) (norm2 : K) (global : Bool) (peers : Int → K) : K :=
  let norm2 := if norm2 = 0 then state.calculate_squared_norm false peers else norm2
  let sum : Cplx K :=
    for_range (stencil_begin_y grid) (stencil_end_y grid) (fun i acc =>
      for_range (stencil_begin_x grid) (stencil_end_x grid) (fun j acc1 =>
        acc1 + rotational_term grid state hamiltonian i j) acc) 0
  let energy_rot := (Cplx.div_real sum norm2).re * grid.delta_x * grid.delta_y
  if global then allgather_sum grid peers energy_rot else energy_rot

/-- The four accumulators of `calculate_mean_momentum`. -/
structure MomentumSums (K : Type) where
  sum_px_mean : Cplx K
  sum_pxpx_mean : Cplx K
  sum_py_mean : Cplx K
  sum_pypy_mean : Cplx K

/-- The four summands of `calculate_mean_momentum` at the cell `(i, j)`, in the order
`sum_px_mean`, `sum_pxpx_mean`, `sum_py_mean`, `sum_pypy_mean`. -/
def momentum_terms (grid : Lattice K) (state : State K) (i j : Int) : MomentumSums K :=
  let tile_width := grid.end_x - grid.start_x
  let psi_center := state.psi (i * tile_width + j)
  let psi_up := state.psi ((i - 1) * tile_width + j)
  let psi_down := state.psi ((i + 1) * tile_width + j)
  let psi_right := state.psi (i * tile_width + j + 1)
  let psi_left := state.psi (i * tile_width + j - 1)
  { sum_px_mean := Cplx.conj psi_center * (psi_right - psi_left),
    sum_py_mean := Cplx.conj psi_center * (psi_up - psi_down),
    sum_pxpx_mean := Cplx.conj psi_center * (psi_right - Cplx.real_mul 2 psi_center + psi_left),
    sum_pypy_mean := Cplx.conj psi_center * (psi_up - Cplx.real_mul 2 psi_center + psi_down) }

/-- Embedding of `calculate_mean_momentum(grid, state, results, norm2)`; the result is the
array `results[0..3]` as a function of the index. -/
def calculate_mean_momentum (grid : Lattice K) (state : State K) (norm2 : K) : Fin 4 → K :=
  let norm2 := if norm2 = 0 then state.calculate_squared_norm false (fun _ => 0) else norm2
  let var_px : Cplx K := ⟨0, -(1 / 2) / grid.delta_x⟩
  let var_py : Cplx K := ⟨0, -(1 / 2) / grid.delta_y⟩
  let sums : MomentumSums K :=
    for_range (stencil_begin_y grid) (stencil_end_y grid) (fun i acc =>
      for_range (stencil_begin_x grid) (stencil_end_x grid) (fun j acc1 =>
        { sum_px_mean := acc1.sum_px_mean + (momentum_terms grid state i j).sum_px_mean,
          sum_py_mean := acc1.sum_py_mean + (momentum_terms grid state i j).sum_py_mean,
          sum_pxpx_mean := acc1.sum_pxpx_mean + (momentum_terms grid state i j).sum_pxpx_mean,
          sum_pypy_mean := acc1.sum_pypy_mean + (momentum_terms grid state i j).sum_pypy_mean })
        acc)
      { sum_px_mean := 0, sum_pxpx_mean := 0, sum_py_mean := 0, sum_pypy_mean := 0 }
  let sum_px_mean := sums.sum_px_mean * var_px
  let sum_py_mean := sums.sum_py_mean * var_py
  let sum_pxpx_mean :=
    Cplx.div_real (Cplx.mul_real sums.sum_pxpx_mean (-1)) (grid.delta_x * grid.delta_x)
  let sum_pypy_mean :=
    Cplx.div_real (Cplx.mul_real sums.sum_pypy_mean (-1)) (grid.delta_y * grid.delta_y)
  let results0 := (Cplx.div_real sum_px_mean norm2).re * grid.delta_x * grid.delta_y
  let results2 := (Cplx.div_real sum_py_mean norm2).re * grid.delta_x * grid.delta_y
  let results1 := (Cplx.div_real sum_pxpx_mean norm2).re * grid.delta_x * grid.delta_y
    - results0 * results0
  let results3 := (Cplx.div_real sum_pypy_mean norm2).re * grid.delta_x * grid.delta_y
    - results2 * results2
  fun k =>
    match k with
    | 0 => results0
    | 1 => results1
    | 2 => results2
    | 3 => results3

end Reductions

/-! ## `State::read_state` and `State::get_phase` -/

section ReadState

variable {K : Type}

/-- The pair of assignments `p_real[k] = real(tmp); p_imag[k] = imag(tmp);`. -/
def State.store (st : State K) (k : Int) (tmp : Cplx K) : State K :=
  { st with
    p_real := Function.update st.p_real k tmp.re,
    p_imag := Function.update st.p_imag k tmp.im }

/-- The block that the "Down band" and the "Upper band" branches of `read_state` share, for
the local row `row` they write to: the copy in the column of the body, the copy in the right
corner and the copy in the left corner. -/
def read_state_band (grid : Lattice K) (in_width row j : Int) (tmp : Cplx K) (s : State K) :
    State K :=
  let a :=
    if (j - grid.start_x) ≥ 0 ∧ (j - grid.start_x) < grid.dim_x then
      s.store (row * grid.dim_x + j - grid.start_x) tmp
    else s
  let b :=
    if j < grid.halo_x ∧ grid.periods.2 ≠ 0 ∧ grid.mpi_coords.2 = grid.mpi_dims.2 - 1 then
      a.store (row * grid.dim_x + j + grid.dim_x - grid.halo_x) tmp
    else a
  if j ≥ in_width - grid.halo_x ∧ grid.periods.2 ≠ 0 ∧ grid.mpi_coords.2 = 0 then
    b.store (row * grid.dim_x + j - (in_width - grid.halo_x)) tmp
  else b

/-- The body of the double loop of `read_state` after `input >> tmp`: the placement of the
value read at input row `i`, column `j` (body, down band, upper band, right band, left
band). -/
def read_state_cell (grid : Lattice K) (in_width in_height i j : Int) (tmp : Cplx K)
    (s : State K) : State K :=
  let s1 :=
    if (i - grid.start_y) ≥ 0 ∧ (i - grid.start_y) < grid.dim_y ∧ (j - grid.start_x) ≥ 0 ∧
        (j - grid.start_x) < grid.dim_x then
      s.store ((i - grid.start_y) * grid.dim_x + j - grid.start_x) tmp
    else s
  let s2 :=
    if i < grid.halo_y ∧ grid.mpi_coords.1 = grid.mpi_dims.1 - 1 ∧ grid.periods.1 ≠ 0 then
      read_state_band grid in_width (i + grid.dim_y - grid.halo_y) j tmp s1
    else s1
  let s3 :=
    if i ≥ in_height - grid.halo_y ∧ grid.periods.1 ≠ 0 ∧ grid.mpi_coords.1 = 0 then
      read_state_band grid in_width (i - (in_height - grid.halo_y)) j tmp s2
    else s2
  let s4 :=
    if j < grid.halo_x ∧ grid.periods.2 ≠ 0 ∧ grid.mpi_coords.2 = grid.mpi_dims.2 - 1 then
      (if (i - grid.start_y) ≥ 0 ∧ (i - grid.start_y) < grid.dim_y then
        s3.store ((i - grid.start_y) * grid.dim_x + j + grid.dim_x - grid.halo_x) tmp
      else s3)
    else s3
  if j ≥ in_width - grid.halo_x ∧ grid.periods.2 ≠ 0 ∧ grid.mpi_coords.2 = 0 then
    (if (i - grid.start_y) ≥ 0 ∧ (i - grid.start_y) < grid.dim_y then
      s4.store ((i - grid.start_y) * grid.dim_x + j - (in_width - grid.halo_x)) tmp
    else s4)
  else s4

/-- Embedding of `State::read_state(file_name, read_offset)`.  The content of the file is the
sequence `input` of the complex values that successive extractions `input >> tmp` deliver;
the loop state carries the number of values extracted so far, and the result is the state
together with the total number of extractions. -/
def State.read_state (st : State K) (input : Nat → Cplx K) (read_offset : Int) :
    State K × Nat :=
  let in_width := st.grid.global_dim_x - 2 * st.grid.periods.2 * st.grid.halo_x
  let in_height := st.grid.global_dim_y - 2 * st.grid.periods.1 * st.grid.halo_y
  let skipped : Nat := for_range 0 read_offset (fun _ pos => pos + 1) 0
  for_range 0 in_height (fun i s =>
    for_range 0 in_width (fun j (s1 : State K × Nat) =>
      (read_state_cell st.grid in_width in_height i j (input s1.2) s1.1, s1.2 + 1)) s)
    (st, skipped)

/-- The value `get_phase` computes for a cell holding `re + i im`; `sqrt` and `acos` are the
functions of the C math library. -/
def phase_of [LinearOrderedField K] (sqrt acos : K → K) (re im : K) : K :=
  let norm := sqrt (re * re + im * im)
  if norm = 0 then 0
  else acos (re / norm) *
    ((((if im > 0 then 1 else 0) - (if im < 0 then 1 else 0) : Int)) : K)

/-- Embedding of `State::get_phase(_phase)`; `_phase` is `none` for the null pointer, in which
case the routine works on a freshly allocated array with the content `fresh`. -/
def State.get_phase [LinearOrderedField K] (sqrt acos : K → K) (st : State K)
    (_phase : Option (Int → K)) (fresh : Int → K) : Int → K :=
  let phase : Int → K :=
    match _phase with
    | none => fresh
    | some q => q
  for_range (st.grid.inner_start_y - st.grid.start_y) (st.grid.inner_end_y - st.grid.start_y)
    (fun j ph =>
      for_range (st.grid.inner_start_x - st.grid.start_x)
        (st.grid.inner_end_x - st.grid.start_x) (fun i ph1 =>
          Function.update ph1 (j * st.grid.dim_x + i)
            (phase_of sqrt acos (st.p_real (j * st.grid.dim_x + i))
              (st.p_imag (j * st.grid.dim_x + i)))) ph) phase

end ReadState

/-- Along one axis, `row` is a local coordinate at which `read_state` stores the value read at
input coordinate `i`: the coordinate of the cell itself (`i - start`, when it falls in the tile),
its image in the upper-end halo band (`i + dim - halo`) or its image in the lower-end halo
band (`i - (len - halo)`), under the guards of the source. -/
def read_state_target (start dim halo len coord dims period i row : Int) : Prop :=
  (i - start ≥ 0 ∧ i - start < dim ∧ row = i - start) ∨
  (i < halo ∧ coord = dims - 1 ∧ period ≠ 0 ∧ row = i + dim - halo) ∨
  (i ≥ len - halo ∧ period ≠ 0 ∧ coord = 0 ∧ row = i - (len - halo))

/-! ## `State::State`, `State::~State` and `State::get_particle_density` -/

section StateLife

variable {K : Type}

/-- Embedding of the destructor `State::~State()`: the pair tells whether `delete p_real` and
whether `delete p_imag` is executed. -/
def State.destructor (st : State K) : Bool × Bool :=
  if st.self_init then (true, true) else (false, false)

/-- Embedding of `State::get_particle_density(_density)`; `_density` is `none` for the null
pointer, in which case the routine works on a freshly allocated array with the content `fresh`.
The routine has no store to a member of the state, which is returned as it was, next to the
array the routine returns. -/
def State.get_particle_density [Add K] [Mul K] (st : State K) (_density : Option (Int → K))
    (fresh : Int → K) : State K × (Int → K) :=
  let density : Int → K :=
    match _density with
    | none => fresh
    | some q => q
  (st,
    for_range (st.grid.inner_start_y - st.grid.start_y) (st.grid.inner_end_y - st.grid.start_y)
      (fun j d =>
        for_range (st.grid.inner_start_x - st.grid.start_x)
          (st.grid.inner_end_x - st.grid.start_x) (fun i d1 =>
            Function.update d1 (j * st.grid.dim_x + i)
              (st.p_real (j * st.grid.dim_x + i) * st.p_real (j * st.grid.dim_x + i) +
                st.p_imag (j * st.grid.dim_x + i) * st.p_imag (j * st.grid.dim_x + i))) d)
      density)

set_option linter.dupNamespace false in
/-- Embedding of the constructor `State::State(_grid, _p_real, _p_imag)`; a null pointer is
`none`, and `fresh_real`, `fresh_imag` are the arrays the two `new double[...]` return. -/
def State.State (_grid : Lattice K) (_p_real _p_imag : Option (Int → K))
    (fresh_real fresh_imag : Int → K) : State K :=
  let a : Bool × (Int → K) :=
    match _p_real with
    | none => (true, fresh_real)
    | some q => (false, q)
  let p_imag : Int → K :=
    match _p_imag with
    | none => fresh_imag
    | some q => q
  { grid := _grid, p_real := a.2, p_imag := p_imag, self_init := a.1 }

end StateLife

/-! ## Mean position and the two-state energies -/

section Moments

variable {K : Type} [Field K] [DecidableEq K]

/-- The four accumulators of `calculate_mean_position`. -/
structure PositionSums (K : Type) where
  sum_x_mean : Cplx K
  sum_xx_mean : Cplx K
  sum_y_mean : Cplx K
  sum_yy_mean : Cplx K

/-- The four summands of `calculate_mean_position` at the cell `(i, j)`. -/
def position_terms (grid : Lattice K) (state : State K) (grid_origin_x grid_origin_y : Int)
    (i j : Int) : PositionSums K :=
  let tile_width := grid.end_x - grid.start_x
  let psi_center := state.psi (i * tile_width + j)
  { sum_x_mean :=
      Cplx.conj psi_center * psi_center * ⟨grid.delta_x * ((j - grid_origin_x : Int) : K), 0⟩,
    sum_y_mean :=
      Cplx.conj psi_center * psi_center * ⟨grid.delta_y * ((i - grid_origin_y : Int) : K), 0⟩,
    sum_xx_mean :=
      Cplx.conj psi_center * psi_center * ⟨grid.delta_x * ((j - grid_origin_x : Int) : K), 0⟩ *
        ⟨grid.delta_x * ((j - grid_origin_x : Int) : K), 0⟩,
    sum_yy_mean :=
      Cplx.conj psi_center * psi_center * ⟨grid.delta_y * ((i - grid_origin_y : Int) : K), 0⟩ *
        ⟨grid.delta_y * ((i - grid_origin_y : Int) : K), 0⟩ }

/-- Embedding of `calculate_mean_position(grid, state, grid_origin_x, grid_origin_y, results,
norm2)`; the result is the array `results[0..3]` as a function of the index. -/
def calculate_mean_position (grid : Lattice K) (state : State K)
    (grid_origin_x grid_origin_y : Int) (norm2 : K) : Fin 4 → K :=
  let norm2 := if norm2 = 0 then state.calculate_squared_norm false (fun _ => 0) else norm2
  let sums : PositionSums K :=
    for_range (stencil_begin_y grid) (stencil_end_y grid) (fun i acc =>
      for_range (stencil_begin_x grid) (stencil_end_x grid) (fun j acc1 =>
        { sum_x_mean := acc1.sum_x_mean +
            (position_terms grid state grid_origin_x grid_origin_y i j).sum_x_mean,
          sum_y_mean := acc1.sum_y_mean +
            (position_terms grid state grid_origin_x grid_origin_y i j).sum_y_mean,
          sum_xx_mean := acc1.sum_xx_mean +
            (position_terms grid state grid_origin_x grid_origin_y i j).sum_xx_mean,
          sum_yy_mean := acc1.sum_yy_mean +
            (position_terms grid state grid_origin_x grid_origin_y i j).sum_yy_mean })
        acc)
      { sum_x_mean := 0, sum_xx_mean := 0, sum_y_mean := 0, sum_yy_mean := 0 }
  let results0 := (Cplx.div_real sums.sum_x_mean norm2).re * grid.delta_x * grid.delta_y
  let results2 := (Cplx.div_real sums.sum_y_mean norm2).re * grid.delta_x * grid.delta_y
  let results1 := (Cplx.div_real sums.sum_xx_mean norm2).re * grid.delta_x * grid.delta_y
    - results0 * results0
  let results3 := (Cplx.div_real sums.sum_yy_mean norm2).re * grid.delta_x * grid.delta_y
    - results2 * results2
  fun k =>
    match k with
    | 0 => results0
    | 1 => results1
    | 2 => results2
    | 3 => results3

/-- The total weight `real(Σ conj(ψ) ψ / norm2) * delta_x * delta_y` that
`calculate_mean_position` gives to the cells its loops visit, `norm2 = 0` standing for the
local squared norm as in the routine. -/
def visited_weight (grid : Lattice K) (state : State K) (norm2 : K) : K :=
  let tile_width := grid.end_x - grid.start_x
  let norm2 := if norm2 = 0 then state.calculate_squared_norm false (fun _ => 0) else norm2
  let sum : Cplx K :=
    for_range (stencil_begin_y grid) (stencil_end_y grid) (fun i acc =>
      for_range (stencil_begin_x grid) (stencil_end_x grid) (fun j acc1 =>
        acc1 + Cplx.conj (state.psi (i * tile_width + j)) * state.psi (i * tile_width + j))
        acc) 0
  (Cplx.div_real sum norm2).re * grid.delta_x * grid.delta_y

/-- The summand of `calculate_rabi_coupling_energy` at the cell `(i, j)`. -/
def rabi_term (grid : Lattice K) (state1 state2 : State K) (omega_r omega_i : K)
    (i j : Int) : Cplx K :=
  let tile_width := grid.end_x - grid.start_x
  let psi_center_a := state1.psi (i * tile_width + j)
  let psi_center_b := state2.psi (i * tile_width + j)
  let omega : Cplx K := ⟨omega_r, omega_i⟩
  Cplx.conj psi_center_a * psi_center_b * omega +
    Cplx.conj psi_center_b * psi_center_a * Cplx.conj omega

/-- Embedding of `calculate_rabi_coupling_energy(grid, state1, state2, omega_r, omega_i,
norm2)`. -/
def calculate_rabi_coupling_energy (grid : Lattice K) (state1 state2 : State K)
    (omega_r omega_i norm2 : K) : K :=
  let norm2 :=
    if norm2 = 0 then
      state1.calculate_squared_norm false (fun _ => 0) +
        state2.calculate_squared_norm false (fun _ => 0)
    else norm2
  let sum : Cplx K :=
    for_range (stencil_begin_y grid) (stencil_end_y grid) (fun i acc =>
      for_range (stencil_begin_x grid) (stencil_end_x grid) (fun j acc1 =>
        acc1 + rabi_term grid state1 state2 omega_r omega_i i j) acc) 0
  (Cplx.div_real sum norm2).re * grid.delta_x * grid.delta_y

/-- The summand of `calculate_ab_energy` at the cell `(i, j)`. -/
def ab_term (grid : Lattice K) (state1 state2 : State K) (coupling_const_ab : K)
    (i j : Int) : Cplx K :=
  let tile_width := grid.end_x - grid.start_x
  let psi_center_a := state1.psi (i * tile_width + j)
  let psi_center_b := state2.psi (i * tile_width + j)
  Cplx.conj psi_center_a * psi_center_a * Cplx.conj psi_center_b * psi_center_b *
    ⟨coupling_const_ab, 0⟩

/-- Embedding of `calculate_ab_energy(grid, state1, state2, coupling_const_ab, norm2)`. -/
def calculate_ab_energy (grid : Lattice K) (state1 state2 : State K)
    (coupling_const_ab norm2 : K) : K :=
  let norm2 :=
    if norm2 = 0 then
      state1.calculate_squared_norm false (fun _ => 0) +
        state2.calculate_squared_norm false (fun _ => 0)
    else norm2
  let sum : Cplx K :=
    for_range (stencil_begin_y grid) (stencil_end_y grid) (fun i acc =>
      for_range (stencil_begin_x grid) (stencil_end_x grid) (fun j acc1 =>
        acc1 + ab_term grid state1 state2 coupling_const_ab i j) acc) 0
  (Cplx.div_real sum norm2).re * grid.delta_x * grid.delta_y

end Moments

/-! ## Construction of the Hamiltonians and their potentials -/

section Potentials

variable {K : Type}

/-- Embedding of `Hamiltonian::initialize_potential(hamiltonian_pot)`. -/
def Hamiltonian.initialize_potential (h : Hamiltonian K)
    (hamiltonian_pot : Int → Int → Lattice K → K) : Hamiltonian K :=
  for_range 0 h.grid.dim_y (fun y s =>
    for_range 0 h.grid.dim_x (fun x s1 =>
      { s1 with
        external_pot :=
          Function.update s1.external_pot (y * h.grid.dim_y + x) (hamiltonian_pot x y h.grid) })
      s) h

set_option linter.dupNamespace false in
/-- Embedding of the constructor `Hamiltonian::Hamiltonian(_grid, _mass, _coupling_a,
_coupling_ab, _angular_velocity, _rot_coord_x, _rot_coord_y, _omega, _external_pot)`.
`DBL_MAX` is the constant of `<cfloat>`; `prior` is the content of the object's storage before
the constructor runs, which a member that no statement assigns keeps; `_external_pot` is
`none` for the null pointer and `fresh` is the array `new double[...]` returns. -/
def Hamiltonian.Hamiltonian [Field K] [DecidableEq K] (DBL_MAX : K) (prior : Hamiltonian K)
    (_grid : Lattice K) (_mass _coupling_a _coupling_ab _angular_velocity _rot_coord_x
      _rot_coord_y _omega : K) (_external_pot : Option (Int → K)) (fresh : Int → K) :
    Hamiltonian K :=
  let h0 : TrotterSuzuki.Hamiltonian K :=
    { prior with
      grid := _grid, mass := _mass, coupling_a := _coupling_a, coupling_ab := _coupling_ab,
      angular_velocity := _angular_velocity, omega := _omega }
  let h1 : TrotterSuzuki.Hamiltonian K :=
    if _rot_coord_x = DBL_MAX then { h0 with rot_coord_x := (h0.grid.dim_x : K) * (1 / 2) }
    else { h0 with rot_coord_y := _rot_coord_y }
  let h2 : TrotterSuzuki.Hamiltonian K :=
    if _rot_coord_y = DBL_MAX then { h1 with rot_coord_y := (h1.grid.dim_y : K) * (1 / 2) }
    else { h1 with rot_coord_y := _rot_coord_y }
  match _external_pot with
  | none => { h2 with external_pot := fresh, self_init := true }
  | some q => { h2 with external_pot := q, self_init := false }

/-- The data members of `Hamiltonian2Component`, a class derived from `Hamiltonian`. -/
structure Hamiltonian2Component (K : Type) extends Hamiltonian K where
  mass_b : K
  coupling_b : K
  omega_r : K
  omega_i : K
  external_pot_b : Int → K

/-- Embedding of `Hamiltonian2Component::initialize_potential_b(hamiltonian_pot)`. -/
def Hamiltonian2Component.initialize_potential_b (h : Hamiltonian2Component K)
    (hamiltonian_pot : Int → Int → Lattice K → K) : Hamiltonian2Component K :=
  for_range 0 h.grid.dim_y (fun y s =>
    for_range 0 h.grid.dim_x (fun x s1 =>
      { s1 with
        external_pot_b :=
          Function.update s1.external_pot_b (y * h.grid.dim_y + x)
            (hamiltonian_pot x y h.grid) })
      s) h

set_option linter.dupNamespace false in
/-- Embedding of the constructor `Hamiltonian2Component::Hamiltonian2Component(_grid, _mass,
_mass_b, _coupling_a, _coupling_ab, _coupling_b, _angular_velocity, _rot_coord_x, _rot_coord_y,
_omega, _omega_r, _omega_i, _external_pot, _external_pot_b)`.  The base constructor is called
with the member `rot_coord_y`, read from the storage `prior` of the object under construction,
in the place of its seventh argument. -/
def Hamiltonian2Component.Hamiltonian2Component [Field K] [DecidableEq K] (DBL_MAX : K)
    (prior : Hamiltonian2Component K) (_grid : Lattice K) (_mass _mass_b _coupling_a
      _coupling_ab _coupling_b _angular_velocity _rot_coord_x _rot_coord_y _omega _omega_r
      _omega_i : K) (_external_pot _external_pot_b : Option (Int → K))
    (fresh fresh_b : Int → K) : Hamiltonian2Component K :=
  let base : TrotterSuzuki.Hamiltonian K :=
    Hamiltonian.Hamiltonian DBL_MAX prior.toHamiltonian _grid _mass _coupling_a _coupling_ab
      _angular_velocity _rot_coord_x prior.rot_coord_y _omega _external_pot fresh
  let h : TrotterSuzuki.Hamiltonian2Component K :=
    { prior with
      toHamiltonian := base, coupling_b := _coupling_b, omega_r := _omega_r,
      omega_i := _omega_i }
  match _external_pot_b with
  | none => { h with external_pot_b := fresh_b, self_init := true }
  | some q => { h with external_pot_b := q, self_init := false }

/-- Embedding of the two-state `calculate_total_energy(grid, state1, state2, hamiltonian,
hamilt_pot_a, hamilt_pot_b, external_pot, norm2, global)`.  `external_pot` is `none` for the
null pointer and otherwise the pair `external_pot[0]`, `external_pot[1]` (each `none` when
null).  The default value of the argument `global` that the calls of `calculate_squared_norm`
and of the single-state `calculate_total_energy` leave out is declared in the header and is
the parameter `global_default`; `DBL_MAX`, `prior` and `fresh` are what the constructor of
`hamiltonian_b` needs, and `peers1`, `peers2` are the contributions of the other ranks to the
all-gathers of the calls on `state1` and on `state2`. -/
def calculate_total_energy_two [Field K] [DecidableEq K] (DBL_MAX : K)
    (prior : Hamiltonian K) (fresh : Int → K) (global_default : Bool) (grid : Lattice K)
    (state1 state2 : State K) (hamiltonian : Hamiltonian2Component K)
    (hamilt_pot_a hamilt_pot_b : Int → Int → Lattice K → K)
    (external_pot : Option (Option (Int → K) × Option (Int → K))) (norm2 : K)
    (_global : Bool) (peers1 peers2 : Int → K) : K :=
  let external_pot : Option (Int → K) × Option (Int → K) :=
    match external_pot with
    | none => (none, none)
    | some q => q
  let sum : K := 0
  let norm2 :=
    if norm2 = 0 then
      state1.calculate_squared_norm global_default peers1 +
        state2.calculate_squared_norm global_default peers2
    else norm2
  let hamiltonian_b : Hamiltonian K :=
    Hamiltonian.Hamiltonian DBL_MAX prior grid hamiltonian.mass_b hamiltonian.coupling_b
      hamiltonian.coupling_ab hamiltonian.angular_velocity hamiltonian.rot_coord_x
      hamiltonian.rot_coord_y hamiltonian.omega (some hamiltonian.external_pot) fresh
  let sum := sum + calculate_total_energy grid state1 hamiltonian.toHamiltonian hamilt_pot_a
    external_pot.1 norm2 global_default peers1
  let sum := sum + calculate_total_energy grid state2 hamiltonian_b hamilt_pot_b
    external_pot.2 norm2 global_default peers2
  let sum := sum + calculate_ab_energy grid state1 state2 hamiltonian.coupling_ab norm2
  let sum := sum + calculate_rabi_coupling_energy grid state1 state2 hamiltonian.omega_r
    hamiltonian.omega_i norm2
  sum

end Potentials

/-! ## Division by the normaliser -/

section PartialDivision

variable {K : Type} [Field K] [DecidableEq K]

end PartialDivision

/-- A state over the integers on the lattice the constructor builds for logical size `dim`
(unit spacing, non-periodic, `omega = 0`) in the MPI environment `mpi`, with zeroed buffers
supplied by the caller. -/
def blank_state (mpi : MPIEnv) (dim : Int) : State Int :=
  { grid := Lattice.Lattice mpi dim 1 1 none 0, p_real := fun _ => 0, p_imag := fun _ => 0,
    self_init := false }

/-! # Theorems -/

/-! ### Facts about the block size -/

theorem ceil_div_mul_ge (length dim : Int) (hd : 1 ≤ dim) :
    length ≤ ceil_div length dim * dim := by
  unfold ceil_div
  have h := Int.ediv_mul_le (-length) (b := dim) (by omega)
  linarith

theorem ceil_div_mul_lt (length dim : Int) (hd : 1 ≤ dim) :
    (ceil_div length dim - 1) * dim < length := by
  unfold ceil_div
  have h := Int.lt_ediv_add_one_mul_self (-length) (b := dim) (by omega)
  linarith

theorem ceil_div_nonneg (length dim : Int) (hl : 0 ≤ length) (hd : 1 ≤ dim) :
    0 ≤ ceil_div length dim := by
  by_contra h
  have h1 : ceil_div length dim ≤ -1 := by omega
  have h2 := ceil_div_mul_ge length dim hd
  have h3 : ceil_div length dim * dim ≤ -1 * dim :=
    mul_le_mul_of_nonneg_right h1 (by omega)
  linarith

theorem ceil_div_pos (length dim : Int) (hl : 0 < length) (hd : 1 ≤ dim) :
    0 < ceil_div length dim := by
  by_contra h
  have h1 : ceil_div length dim ≤ 0 := by omega
  have h2 := ceil_div_mul_ge length dim hd
  have h3 : ceil_div length dim * dim ≤ 0 * dim :=
    mul_le_mul_of_nonneg_right h1 (by omega)
  linarith

/-! ### Closed forms of the inner range -/

theorem inner_start_eq (coord dim length halo pb : Int) :
    (calculate_borders coord dim length halo pb).inner_start = coord * ceil_div length dim :=
  rfl

theorem inner_end_eq (coord dim length halo pb : Int) :
    (calculate_borders coord dim length halo pb).inner_end =
      if pb ≠ 0 then
        (if length < coord * ceil_div length dim + ceil_div length dim + halo then length
         else coord * ceil_div length dim + ceil_div length dim)
      else
        (if length ≤ coord * ceil_div length dim + ceil_div length dim + halo then length
         else coord * ceil_div length dim + ceil_div length dim) := by
  simp only [calculate_borders]
  generalize ceil_div length dim = b
  generalize coord * b = s
  split_ifs <;> omega

/-- When the block boundaries keep clear of the upper edge, a node's inner range ends at the
smaller of its nominal block end and `length`. -/
theorem inner_end_of_clear (coord dim length halo pb : Int) (hl : 0 ≤ length) (hd : 1 ≤ dim)
    (hh : 0 ≤ halo) (hc0 : 0 ≤ coord) (hc1 : coord < dim)
    (hclear : boundary_clear dim length halo pb) :
    (calculate_borders coord dim length halo pb).inner_end =
      min ((coord + 1) * ceil_div length dim) length := by
  rw [inner_end_eq]
  have hb := ceil_div_nonneg length dim hl hd
  have hge := ceil_div_mul_ge length dim hd
  have e : (coord + 1) * ceil_div length dim
      = coord * ceil_div length dim + ceil_div length dim := by ring
  by_cases hlast : coord + 1 < dim
  · have hk := hclear (coord + 1) (by omega) hlast
    rw [e] at hk ⊢
    generalize coord * ceil_div length dim = s at hk ⊢
    generalize ceil_div length dim = b at hk hb ⊢
    by_cases hlt : s + b < length
    · have hk2 := hk hlt
      split_ifs at hk2 ⊢ <;> omega
    · split_ifs <;> omega
  · have hcd : coord + 1 = dim := by omega
    have hfull : length ≤ (coord + 1) * ceil_div length dim := by
      rw [hcd, mul_comm]; exact hge
    rw [e] at hfull ⊢
    generalize coord * ceil_div length dim = s at hfull ⊢
    generalize ceil_div length dim = b at hb hfull ⊢
    split_ifs <;> omega

/-! ### Tiling of the axis (C1) -/

theorem inner_tiles_of_clear (dim length halo pb : Int) (hl : 0 ≤ length) (hd : 1 ≤ dim)
    (hh : 0 ≤ halo) (hclear : boundary_clear dim length halo pb) :
    inner_tiles dim length halo pb := by
  have hb := ceil_div_nonneg length dim hl hd
  have hge := ceil_div_mul_ge length dim hd
  refine ⟨?_, ?_⟩
  · rintro c1 c2 z h0 h12 h2 ⟨⟨_, hz1⟩, ⟨hz2, _⟩⟩
    rw [inner_end_of_clear c1 dim length halo pb hl hd hh h0 (by omega) hclear] at hz1
    rw [inner_start_eq] at hz2
    have hmono : (c1 + 1) * ceil_div length dim ≤ c2 * ceil_div length dim :=
      mul_le_mul_of_nonneg_right (by omega) hb
    have hmin := min_le_left ((c1 + 1) * ceil_div length dim) length
    omega
  · intro z
    constructor
    · rintro ⟨c, hc0, hc1, hs, he⟩
      rw [inner_start_eq] at hs
      rw [inner_end_of_clear c dim length halo pb hl hd hh hc0 hc1 hclear] at he
      have hnn : 0 ≤ c * ceil_div length dim := mul_nonneg hc0 hb
      have hmin := min_le_right ((c + 1) * ceil_div length dim) length
      omega
    · rintro ⟨hz0, hzl⟩
      have hbpos := ceil_div_pos length dim (by omega) hd
      have hq1 := Int.ediv_mul_le z (b := ceil_div length dim) (by omega)
      have hq2 := Int.lt_ediv_add_one_mul_self z hbpos
      have hq0 : 0 ≤ z / ceil_div length dim := Int.ediv_nonneg hz0 hb
      have hqd : z / ceil_div length dim < dim := by
        by_contra hcon
        have h1 : dim * ceil_div length dim ≤ z / ceil_div length dim * ceil_div length dim :=
          mul_le_mul_of_nonneg_right (by omega) hb
        have h2 : dim * ceil_div length dim = ceil_div length dim * dim := mul_comm _ _
        omega
      refine ⟨z / ceil_div length dim, hq0, hqd, ?_, ?_⟩
      · rw [inner_start_eq]; exact hq1
      · rw [inner_end_of_clear _ dim length halo pb hl hd hh hq0 hqd hclear]
        exact lt_min hq2 hzl

section MergerLemmas

variable {α : Type}

/-- Closed form of the `merge_line` loop started at an even distance from its limit. -/
theorem merge_line_loop_spec (evens odds : Nat → α) (x bound : Nat) :
    ∀ (n dest_x evens_p odds_p : Nat) (dest : Nat → α), dest_x + 2 * n = bound → x ≤ dest_x →
      merge_line_loop evens odds x bound dest_x evens_p odds_p dest =
        (bound, evens_p + n, odds_p + n,
          fun i => if dest_x - x ≤ i ∧ i < bound - x then
              (if (i - (dest_x - x)) % 2 = 0 then evens (evens_p + (i - (dest_x - x)) / 2)
               else odds (odds_p + (i - (dest_x - x)) / 2))
            else dest i) := by
  intro n
  induction n with
  | zero =>
    intro dest_x evens_p odds_p dest hb hx
    rw [merge_line_loop]
    have h1 : ¬ dest_x < bound := by omega
    simp only [h1, if_false, Nat.add_zero]
    congr 3
    funext i
    have h2 : ¬ (dest_x - x ≤ i ∧ i < bound - x) := by omega
    simp only [h2, if_false]
  | succ n ih =>
    intro dest_x evens_p odds_p dest hb hx
    rw [merge_line_loop]
    have h1 : dest_x < bound := by omega
    simp only [h1, if_true]
    rw [ih (dest_x + 2) (evens_p + 1) (odds_p + 1) _ (by omega) (by omega)]
    congr 1
    · congr 1
      · omega
      · congr 1
        · omega
        · funext i
          simp only [Function.update_apply]
          split_ifs <;> first | rfl | (exfalso; omega) | (congr 1; omega)

/-- The `merge_line` loop does nothing when started at or beyond its limit. -/
theorem merge_line_loop_done (evens odds : Nat → α) (x bound dest_x evens_p odds_p : Nat)
    (dest : Nat → α) (h : bound ≤ dest_x) :
    merge_line_loop evens odds x bound dest_x evens_p odds_p dest =
      (dest_x, evens_p, odds_p, dest) := by
  rw [merge_line_loop]
  have h1 : ¬ dest_x < bound := by omega
  simp only [h1, if_false]

/-- Closed form of `merge_line`: unless the request is empty and starts at an odd offset, the
first `width` cells of `dest` receive `merge_line_value … (x + i)`, the other cells keep their
content, and the counter ends at `x + width`. -/
theorem merge_line_eq (evens odds : Nat → α) (x width : Nat) (dest : Nat → α)
    (h : 1 ≤ width ∨ x % 2 = 0) :
    merge_line evens odds x width dest =
      { dest := fun i => if i < width then merge_line_value evens odds x (x + i) else dest i,
        dest_x := x + width } := by
  unfold merge_line
  by_cases hx : x % 2 = 1
  · simp only [hx, if_true]
    rw [merge_line_loop_spec evens odds x ((x + width) - (x + width) % 2)
      (((x + width) - (x + width) % 2 - (x + 1)) / 2) (x + 1) _ _ _ (by omega) (by omega)]
    simp only []
    split_ifs with h1
    · ext i
      · simp only [Function.update_apply, merge_line_value]
        split_ifs <;> first | rfl | (exfalso; omega) | (congr 1; omega)
      · simp only []; omega
    · ext i
      · simp only [Function.update_apply, merge_line_value]
        split_ifs <;> first | rfl | (exfalso; omega) | (congr 1; omega)
      · simp only []; omega
  · simp only [hx, if_false]
    rw [merge_line_loop_spec evens odds x ((x + width) - (x + width) % 2)
      (((x + width) - (x + width) % 2 - x) / 2) x _ _ _ (by omega) (by omega)]
    simp only []
    split_ifs with h1
    · ext i
      · simp only [Function.update_apply, merge_line_value]
        split_ifs <;> first | rfl | (exfalso; omega) | (congr 1; omega)
      · simp only []; omega
    · ext i
      · simp only [Function.update_apply, merge_line_value]
        split_ifs <;> first | rfl | (exfalso; omega) | (congr 1; omega)
      · simp only []; omega

/-- An empty request at an odd offset still runs the odd-start prologue of `merge_line`. -/
theorem merge_line_empty_odd (evens odds : Nat → α) (x : Nat) (dest : Nat → α)
    (hx : x % 2 = 1) :
    merge_line evens odds x 0 dest =
      { dest := Function.update dest 0 (odds (x / 2)), dest_x := x + 1 } := by
  unfold merge_line
  simp only [hx, if_true]
  rw [merge_line_loop_done evens odds x _ (x + 1) _ _ _ (by omega)]
  have h1 : ¬ (x + 1 < x + 0) := by omega
  simp only [h1, if_false, Nat.sub_self]

/-- The loop of `merge_line_to_buffer` simulates the loop of `merge_line`, with
`buffer_x = dest_x - x` throughout. -/
theorem merge_line_to_buffer_loop_eq (evens odds : Nat → α) (x bound : Nat) :
    ∀ (n dest_x evens_p odds_p : Nat) (dest : Nat → α), bound - dest_x ≤ n → x ≤ dest_x →
      merge_line_to_buffer_loop evens odds bound dest_x (dest_x - x) evens_p odds_p dest =
        ((merge_line_loop evens odds x bound dest_x evens_p odds_p dest).1,
          (merge_line_loop evens odds x bound dest_x evens_p odds_p dest).1 - x,
          (merge_line_loop evens odds x bound dest_x evens_p odds_p dest).2.1,
          (merge_line_loop evens odds x bound dest_x evens_p odds_p dest).2.2.1,
          (merge_line_loop evens odds x bound dest_x evens_p odds_p dest).2.2.2) := by
  intro n
  induction n with
  | zero =>
    intro dest_x evens_p odds_p dest hn hx
    rw [merge_line_to_buffer_loop, merge_line_loop]
    have h1 : ¬ dest_x < bound := by omega
    simp only [h1, if_false]
  | succ n ih =>
    intro dest_x evens_p odds_p dest hn hx
    rw [merge_line_to_buffer_loop, merge_line_loop]
    by_cases h1 : dest_x < bound
    · simp only [h1, if_true]
      have e1 : dest_x - x + 1 = dest_x + 1 - x := by omega
      have e2 : dest_x - x + 2 = dest_x + 2 - x := by omega
      rw [e1, e2]
      exact ih (dest_x + 2) (evens_p + 1) (odds_p + 1) _ (by omega) (by omega)
    · simp only [h1, if_false]

/-- The buffer variant of the line merge leaves exactly what `merge_line` leaves. -/
theorem merge_line_to_buffer_eq (evens odds : Nat → α) (x width : Nat) (dest : Nat → α) :
    merge_line_to_buffer evens odds x width dest = merge_line evens odds x width dest := by
  unfold merge_line_to_buffer merge_line
  by_cases hx : x % 2 = 1
  · simp only [hx, if_true]
    have e0 : (0 : Nat) + 1 = x + 1 - x := by omega
    rw [e0, merge_line_to_buffer_loop_eq evens odds x _ _ (x + 1) _ _ _ (le_refl _) (by omega)]
    simp only [Nat.sub_self]
  · simp only [hx, if_false]
    have e0 : (0 : Nat) = x - x := by omega
    rw [e0, merge_line_to_buffer_loop_eq evens odds x _ _ x _ _ _ (le_refl _) (le_refl _)]

/-! ### `get_quadrant_sample` -/

theorem store_at_zero (callee : (Nat → α) → (Nat → α)) (mem : Nat → α) :
    store_at 0 callee mem = callee mem := by
  funext i
  have e : offset_ptr mem 0 = mem := by
    funext k; simp only [offset_ptr, Nat.zero_add]
  simp only [store_at, Nat.zero_le, if_true, Nat.sub_zero, e]

theorem quadrant_row_even (a0 a1 b0 b1 : Nat → α) (src_stride dest_stride x y width : Nat)
    (dest : Nat → α) (r : Nat) (h : (y + r) % 2 = 0) :
    quadrant_row a0 a1 b0 b1 src_stride dest_stride x y width dest r =
      store_at (r * dest_stride)
        (fun d => (merge_line (offset_ptr a0 (((y + r) / 2) * src_stride))
          (offset_ptr a1 (((y + r) / 2) * src_stride)) x width d).dest) dest := by
  simp only [quadrant_row, h, if_true]

theorem quadrant_row_odd (a0 a1 b0 b1 : Nat → α) (src_stride dest_stride x y width : Nat)
    (dest : Nat → α) (r : Nat) (h : (y + r) % 2 = 1) :
    quadrant_row a0 a1 b0 b1 src_stride dest_stride x y width dest r =
      store_at (r * dest_stride)
        (fun d => (merge_line (offset_ptr b0 (((y + r) / 2) * src_stride))
          (offset_ptr b1 (((y + r) / 2) * src_stride)) x width d).dest) dest := by
  have h0 : ¬ (y + r) % 2 = 0 := by omega
  simp only [quadrant_row, h0, if_false]

/-- Closed form of the `get_quadrant_sample` loop started at an even global row `y + r`:
it writes the rows `r, r+1, …` one after the other. -/
theorem get_quadrant_sample_loop_spec (r00 r01 r10 r11 i00 i01 i10 i11 : Nat → α)
    (src_stride dest_stride x y width bound : Nat) :
    ∀ (n r : Nat) (re im : Nat → α), y + r + 2 * n = bound → (y + r) % 2 = 0 →
      get_quadrant_sample_loop r00 r01 r10 r11 i00 i01 i10 i11 src_stride dest_stride x y
          width bound (y + r) re im =
        (bound,
          (List.range' r (2 * n)).foldl
            (quadrant_row r00 r01 r10 r11 src_stride dest_stride x y width) re,
          (List.range' r (2 * n)).foldl
            (quadrant_row i00 i01 i10 i11 src_stride dest_stride x y width) im) := by
  intro n
  induction n with
  | zero =>
    intro r re im hb _
    rw [get_quadrant_sample_loop]
    have h1 : ¬ (y + r < bound) := by omega
    have e : y + r = bound := by omega
    simp only [h1, if_false, Nat.mul_zero, List.range'_zero, List.foldl_nil]
    rw [e]
  | succ n ih =>
    intro r re im hb hpar
    rw [get_quadrant_sample_loop]
    have h1 : y + r < bound := by omega
    have e1 : y + r + 1 + 1 = y + (r + 2) := by omega
    have e2 : 2 * (n + 1) = 2 * n + 1 + 1 := by omega
    have e3 : y + r + 1 - y = r + 1 := by omega
    have e4 : y + r + 1 = y + (r + 1) := by omega
    have hpar1 : (y + (r + 1)) % 2 = 1 := by omega
    simp only [h1, if_true]
    rw [e1, ih (r + 2) _ _ (by omega) (by omega), e2, List.range'_succ, List.range'_succ,
      List.foldl_cons, List.foldl_cons, List.foldl_cons, List.foldl_cons,
      quadrant_row_even r00 r01 r10 r11 src_stride dest_stride x y width re r hpar,
      quadrant_row_even i00 i01 i10 i11 src_stride dest_stride x y width im r hpar,
      quadrant_row_odd r00 r01 r10 r11 src_stride dest_stride x y width _ (r + 1) hpar1,
      quadrant_row_odd i00 i01 i10 i11 src_stride dest_stride x y width _ (r + 1) hpar1,
      e3, Nat.add_sub_cancel_left, e4]

/-- The odd-start prologue of `get_quadrant_sample` is row 0 of the request. -/
theorem quadrant_row_zero_odd (a0 a1 b0 b1 : Nat → α) (src_stride dest_stride x y width : Nat)
    (dest : Nat → α) (hy : y % 2 = 1) :
    (merge_line (offset_ptr b0 ((y / 2) * src_stride)) (offset_ptr b1 ((y / 2) * src_stride))
        x width dest).dest =
      quadrant_row a0 a1 b0 b1 src_stride dest_stride x y width dest 0 := by
  rw [quadrant_row_odd a0 a1 b0 b1 src_stride dest_stride x y width dest 0 (by omega),
    Nat.zero_mul, store_at_zero, Nat.add_zero]

/-- The closing `if (dest_y < y + height)` of `get_quadrant_sample` is the last row. -/
theorem quadrant_row_last (a0 a1 b0 b1 : Nat → α) (src_stride dest_stride x y width : Nat)
    (dest : Nat → α) (r : Nat) (h : (y + r) % 2 = 0) :
    store_at ((y + r - y) * dest_stride)
        (fun d => (merge_line (offset_ptr a0 (((y + r) / 2) * src_stride))
          (offset_ptr a1 (((y + r) / 2) * src_stride)) x width d).dest) dest =
      quadrant_row a0 a1 b0 b1 src_stride dest_stride x y width dest r := by
  rw [quadrant_row_even a0 a1 b0 b1 src_stride dest_stride x y width dest r h,
    Nat.add_sub_cancel_left]

/-- Closed form of `get_quadrant_sample`: unless the request is empty and starts at an odd
row, the routine writes the rows `0, …, height-1` in this order, each one the `quadrant_row`
of that index; the counter ends at the even number `(y + height) - (y + height) % 2`. -/
theorem get_quadrant_sample_eq (r00 r01 r10 r11 i00 i01 i10 i11 : Nat → α)
    (src_stride dest_stride x y width height : Nat) (dest_real dest_imag : Nat → α)
    (h : 1 ≤ height ∨ y % 2 = 0) :
    get_quadrant_sample r00 r01 r10 r11 i00 i01 i10 i11 src_stride dest_stride x y width
        height dest_real dest_imag =
      { dest_real := (List.range height).foldl
          (quadrant_row r00 r01 r10 r11 src_stride dest_stride x y width) dest_real,
        dest_imag := (List.range height).foldl
          (quadrant_row i00 i01 i10 i11 src_stride dest_stride x y width) dest_imag,
        dest_y := (y + height) - (y + height) % 2 } := by
  unfold get_quadrant_sample
  by_cases hy : y % 2 = 1
  · obtain ⟨n, hn⟩ : ∃ n, y + 1 + 2 * n = (y + height) - (y + height) % 2 :=
      ⟨((y + height) - (y + height) % 2 - (y + 1)) / 2, by omega⟩
    simp only [hy, if_true]
    rw [get_quadrant_sample_loop_spec r00 r01 r10 r11 i00 i01 i10 i11 src_stride dest_stride
      x y width _ n 1 _ _ hn (by omega),
      quadrant_row_zero_odd r00 r01 r10 r11 src_stride dest_stride x y width dest_real hy,
      quadrant_row_zero_odd i00 i01 i10 i11 src_stride dest_stride x y width dest_imag hy]
    simp only []
    by_cases hlast : (y + height) - (y + height) % 2 < y + height
    · have hb : (y + height) - (y + height) % 2 = y + (1 + 2 * n) := by omega
      have hh : List.range height = 0 :: (List.range' 1 (2 * n) ++ [1 + 2 * n]) := by
        have e : height = 2 * n + 1 + 1 := by omega
        rw [List.range_eq_range', e, List.range'_succ, List.range'_1_concat]
      simp only [hlast, if_true]
      rw [hh, hb,
        quadrant_row_last r00 r01 r10 r11 src_stride dest_stride x y width _ _ (by omega),
        quadrant_row_last i00 i01 i10 i11 src_stride dest_stride x y width _ _ (by omega)]
      simp only [List.foldl_cons, List.foldl_append, List.foldl_nil]
    · have hh : List.range height = 0 :: List.range' 1 (2 * n) := by
        have e : height = 2 * n + 1 := by omega
        rw [List.range_eq_range', e, List.range'_succ]
      simp only [hlast, if_false]
      rw [hh]
      simp only [List.foldl_cons]
  · obtain ⟨n, hn⟩ : ∃ n, y + 0 + 2 * n = (y + height) - (y + height) % 2 :=
      ⟨((y + height) - (y + height) % 2 - y) / 2, by omega⟩
    simp only [hy, if_false]
    have hloop := get_quadrant_sample_loop_spec r00 r01 r10 r11 i00 i01 i10 i11 src_stride
      dest_stride x y width _ n 0 dest_real dest_imag hn (by omega)
    rw [Nat.add_zero] at hloop
    rw [hloop]
    simp only []
    by_cases hlast : (y + height) - (y + height) % 2 < y + height
    · have hb : (y + height) - (y + height) % 2 = y + (0 + 2 * n) := by omega
      have hh : List.range height = List.range' 0 (2 * n) ++ [0 + 2 * n] := by
        have e : height = 2 * n + 1 := by omega
        rw [List.range_eq_range', e, List.range'_1_concat]
      simp only [hlast, if_true]
      rw [hh, hb,
        quadrant_row_last r00 r01 r10 r11 src_stride dest_stride x y width _ _ (by omega),
        quadrant_row_last i00 i01 i10 i11 src_stride dest_stride x y width _ _ (by omega)]
      simp only [List.foldl_append, List.foldl_cons, List.foldl_nil]
    · have hh : List.range height = List.range' 0 (2 * n) := by
        have e : height = 2 * n := by omega
        rw [List.range_eq_range', e]
      simp only [hlast, if_false]
      rw [hh]

/-- The loop of `get_quadrant_sample_to_buffer` simulates the loop of `get_quadrant_sample`,
with `buffer_y = dest_y - y` throughout. -/
theorem get_quadrant_sample_to_buffer_loop_eq (r00 r01 r10 r11 i00 i01 i10 i11 : Nat → α)
    (src_stride dest_stride x y width bound : Nat) :
    ∀ (n dest_y : Nat) (re im : Nat → α), bound - dest_y ≤ n → y ≤ dest_y →
      get_quadrant_sample_to_buffer_loop r00 r01 r10 r11 i00 i01 i10 i11 src_stride
          dest_stride x width bound dest_y (dest_y - y) re im =
        ((get_quadrant_sample_loop r00 r01 r10 r11 i00 i01 i10 i11 src_stride dest_stride x y
            width bound dest_y re im).1,
          (get_quadrant_sample_loop r00 r01 r10 r11 i00 i01 i10 i11 src_stride dest_stride x y
            width bound dest_y re im).1 - y,
          (get_quadrant_sample_loop r00 r01 r10 r11 i00 i01 i10 i11 src_stride dest_stride x y
            width bound dest_y re im).2.1,
          (get_quadrant_sample_loop r00 r01 r10 r11 i00 i01 i10 i11 src_stride dest_stride x y
            width bound dest_y re im).2.2) := by
  intro n
  induction n with
  | zero =>
    intro dest_y re im hn hy
    rw [get_quadrant_sample_to_buffer_loop, get_quadrant_sample_loop]
    have h1 : ¬ dest_y < bound := by omega
    simp only [h1, if_false]
  | succ n ih =>
    intro dest_y re im hn hy
    rw [get_quadrant_sample_to_buffer_loop, get_quadrant_sample_loop]
    by_cases h1 : dest_y < bound
    · simp only [h1, if_true, merge_line_to_buffer_eq]
      have e1 : dest_y - y + 1 = dest_y + 1 - y := by omega
      have e2 : dest_y + 1 - y + 1 = dest_y + 1 + 1 - y := by omega
      rw [e1, e2]
      exact ih (dest_y + 1 + 1) _ _ (by omega) (by omega)
    · simp only [h1, if_false]

/-- The buffer variant of the quadrant merge leaves exactly what `get_quadrant_sample`
leaves. -/
theorem get_quadrant_sample_to_buffer_eq (r00 r01 r10 r11 i00 i01 i10 i11 : Nat → α)
    (src_stride dest_stride x y width height : Nat) (dest_real dest_imag : Nat → α) :
    get_quadrant_sample_to_buffer r00 r01 r10 r11 i00 i01 i10 i11 src_stride dest_stride x y
        width height dest_real dest_imag =
      get_quadrant_sample r00 r01 r10 r11 i00 i01 i10 i11 src_stride dest_stride x y width
        height dest_real dest_imag := by
  unfold get_quadrant_sample_to_buffer get_quadrant_sample
  by_cases hy : y % 2 = 1
  · simp only [hy, if_true, merge_line_to_buffer_eq]
    have e0 : (0 : Nat) + 1 = y + 1 - y := by omega
    rw [e0, get_quadrant_sample_to_buffer_loop_eq r00 r01 r10 r11 i00 i01 i10 i11 src_stride
      dest_stride x y width _ _ (y + 1) _ _ (le_refl _) (by omega)]
  · simp only [hy, if_false, merge_line_to_buffer_eq]
    have e0 : (0 : Nat) = y - y := by omega
    rw [e0, get_quadrant_sample_to_buffer_loop_eq r00 r01 r10 r11 i00 i01 i10 i11 src_stride
      dest_stride x y width _ _ y _ _ (le_refl _) (le_refl _)]

/-! ### Cells of the output rows -/

/-- Row `r` puts the merged line into the cells `r * dest_stride + c`, `c < width`. -/
theorem quadrant_row_apply_self (a0 a1 b0 b1 : Nat → α)
    (src_stride dest_stride x y width : Nat) (dest : Nat → α) (r c : Nat) (hc : c < width) :
    quadrant_row a0 a1 b0 b1 src_stride dest_stride x y width dest r (r * dest_stride + c) =
      merge_line_value
        (offset_ptr (if (y + r) % 2 = 0 then a0 else b0) (((y + r) / 2) * src_stride))
        (offset_ptr (if (y + r) % 2 = 0 then a1 else b1) (((y + r) / 2) * src_stride))
        x (x + c) := by
  have h1 : r * dest_stride ≤ r * dest_stride + c := Nat.le_add_right _ _
  simp only [quadrant_row, store_at, h1, if_true, Nat.add_sub_cancel_left]
  rw [merge_line_eq _ _ _ _ _ (Or.inl (by omega))]
  simp only [hc, if_true]

/-- Row `r` leaves every cell outside `[r * dest_stride, r * dest_stride + width)` alone. -/
theorem quadrant_row_apply_other (a0 a1 b0 b1 : Nat → α)
    (src_stride dest_stride x y width : Nat) (dest : Nat → α) (r i : Nat)
    (hw : 1 ≤ width ∨ x % 2 = 0)
    (hi : i < r * dest_stride ∨ r * dest_stride + width ≤ i) :
    quadrant_row a0 a1 b0 b1 src_stride dest_stride x y width dest r i = dest i := by
  simp only [quadrant_row, store_at]
  by_cases h1 : r * dest_stride ≤ i
  · have h2 : ¬ (i - r * dest_stride < width) := by omega
    have h3 : r * dest_stride + (i - r * dest_stride) = i := by omega
    rw [merge_line_eq _ _ _ _ _ hw]
    simp only [h1, if_true, h2, if_false, offset_ptr, h3]
  · simp only [h1, if_false]

/-- After rows `0, …, height-1` have been written, a cell of row `r` that no later row
overwrites holds what row `r` put there. -/
theorem fold_quadrant_row_apply (a0 a1 b0 b1 : Nat → α)
    (src_stride dest_stride x y width : Nat) (dest : Nat → α) (r c : Nat) (hc : c < width) :
    ∀ height : Nat, r < height →
      (∀ r' c', r < r' → r' < height → c' < width →
        r' * dest_stride + c' ≠ r * dest_stride + c) →
      (List.range height).foldl (quadrant_row a0 a1 b0 b1 src_stride dest_stride x y width)
          dest (r * dest_stride + c) =
        merge_line_value
          (offset_ptr (if (y + r) % 2 = 0 then a0 else b0) (((y + r) / 2) * src_stride))
          (offset_ptr (if (y + r) % 2 = 0 then a1 else b1) (((y + r) / 2) * src_stride))
          x (x + c) := by
  intro height
  induction height with
  | zero => intro hr; omega
  | succ h ih =>
    intro hr hfree
    rw [List.range_succ, List.foldl_append, List.foldl_cons, List.foldl_nil]
    by_cases hrh : r = h
    · subst hrh
      exact quadrant_row_apply_self a0 a1 b0 b1 src_stride dest_stride x y width _ r c hc
    · have hlt : r < h := by omega
      rw [quadrant_row_apply_other a0 a1 b0 b1 src_stride dest_stride x y width _ h _
        (Or.inl (by omega))]
      · exact ih hlt (fun r' c' h1 h2 h3 => hfree r' c' h1 (by omega) h3)
      · by_contra hcon
        have hcell := hfree h (r * dest_stride + c - h * dest_stride) hlt (by omega) (by omega)
        omega

/-! ### Claims on the quadrant merger (C2 – C6) -/

/-- C2 (code defect): for the sources `evens[m] = 2m`, `odds[m] = 2m+1` the interleaved line is
`full[n] = n`.  `merge_line` with the odd start `x = 1` and `width = 2` writes
`dest[1] = 0 = evens[0]`, whereas `full[x + 1] = full[2] = 2 = evens[1]`: the odd-start
prologue advances `odds_p` only, so `evens_p` lags one element behind. -/
theorem merge_line_odd_start_lags :
    (merge_line (fun m => 2 * m) (fun m => 2 * m + 1) 1 2 (fun _ => 0)).dest 0 = 1 ∧
    (merge_line (fun m => 2 * m) (fun m => 2 * m + 1) 1 2 (fun _ => 0)).dest 1 = 0 ∧
    interleaved (fun m => 2 * m) (fun m => 2 * m + 1) (1 + 1) = 2 := by
  rw [merge_line_eq _ _ _ _ _ (Or.inl (by decide))]
  decide

/-- C3: for `height ≥ 1` the routine `get_quadrant_sample` is the sequence of row writes
`r = 0, …, height-1`; row `r` is what `merge_line` writes through `&dest[r * dest_stride]`
for the pair `(r00, r01)` when `y + r` is even and for the pair `(r10, r11)` when `y + r` is
odd, read at source offset `((y + r) / 2) * src_stride`, with the same `x` and `width`; the
imaginary output is built the same way from `i00, i01, i10, i11`. -/
theorem get_quadrant_sample_rows (r00 r01 r10 r11 i00 i01 i10 i11 : Nat → α)
    (src_stride dest_stride x y width height : Nat) (dest_real dest_imag : Nat → α)
    (hh : 1 ≤ height) :
    (get_quadrant_sample r00 r01 r10 r11 i00 i01 i10 i11 src_stride dest_stride x y width
        height dest_real dest_imag).dest_real =
      (List.range height).foldl
        (fun d r => store_at (r * dest_stride)
          (fun v => (merge_line
            (offset_ptr (if (y + r) % 2 = 0 then r00 else r10) (((y + r) / 2) * src_stride))
            (offset_ptr (if (y + r) % 2 = 0 then r01 else r11) (((y + r) / 2) * src_stride))
            x width v).dest) d) dest_real ∧
    (get_quadrant_sample r00 r01 r10 r11 i00 i01 i10 i11 src_stride dest_stride x y width
        height dest_real dest_imag).dest_imag =
      (List.range height).foldl
        (fun d r => store_at (r * dest_stride)
          (fun v => (merge_line
            (offset_ptr (if (y + r) % 2 = 0 then i00 else i10) (((y + r) / 2) * src_stride))
            (offset_ptr (if (y + r) % 2 = 0 then i01 else i11) (((y + r) / 2) * src_stride))
            x width v).dest) d) dest_imag := by
  rw [get_quadrant_sample_eq _ _ _ _ _ _ _ _ _ _ _ _ _ _ _ _ (Or.inl hh)]
  exact ⟨rfl, rfl⟩

/-- Witness for C3: a request of two rows starting at the odd row `y = 1`; row 0 is merged
from `(r10, r11)` at source row 0, row 1 from `(r00, r01)` at source row 1. -/
theorem get_quadrant_sample_rows_witness :
    (get_quadrant_sample (fun k => 4 * k) (fun k => 4 * k + 1) (fun k => 4 * k + 2)
        (fun k => 4 * k + 3) (fun _ => 0) (fun _ => 0) (fun _ => 0) (fun _ => 0)
        8 4 0 1 4 2 (fun _ => 0) (fun _ => 0)).dest_real =
      store_at 4
        (fun v => (merge_line (offset_ptr (fun k => 4 * k) 8)
          (offset_ptr (fun k => 4 * k + 1) 8) 0 4 v).dest)
        (store_at 0
          (fun v => (merge_line (offset_ptr (fun k => 4 * k + 2) 0)
            (offset_ptr (fun k => 4 * k + 3) 0) 0 4 v).dest)
          (fun _ => 0)) :=
  (get_quadrant_sample_rows (fun k => 4 * k) (fun k => 4 * k + 1) (fun k => 4 * k + 2)
    (fun k => 4 * k + 3) (fun _ => 0) (fun _ => 0) (fun _ => 0) (fun _ => 0)
    8 4 0 1 4 2 (fun _ => 0) (fun _ => 0) (by decide)).1

/-- C4: with `r00, r01, r10, r11` filled with the constants 1, 2, 3, 4, the value
`get_quadrant_sample` writes at output row `r`, column `c` (`r < height`, `c < width`) is
`1 + ((x + c) mod 2) + 2 * ((y + r) mod 2)`; it is what `dest_real[r * dest_stride + c]`
holds on return, the cell not being the target of a later row's write (as is the case for
every cell when `width ≤ dest_stride`, and for the last row with any stride). -/
theorem get_quadrant_sample_checkerboard (i00 i01 i10 i11 : Nat → Int)
    (src_stride dest_stride x y width height : Nat) (dest_real dest_imag : Nat → Int)
    (r c : Nat) (hr : r < height) (hc : c < width)
    (hfree : ∀ r' c', r < r' → r' < height → c' < width →
      r' * dest_stride + c' ≠ r * dest_stride + c) :
    (get_quadrant_sample (fun _ => 1) (fun _ => 2) (fun _ => 3) (fun _ => 4) i00 i01 i10 i11
        src_stride dest_stride x y width height dest_real dest_imag).dest_real
        (r * dest_stride + c) =
      1 + (((x + c) % 2 : Nat) : Int) + 2 * (((y + r) % 2 : Nat) : Int) := by
  rw [get_quadrant_sample_eq _ _ _ _ _ _ _ _ _ _ _ _ _ _ _ _ (Or.inl (by omega))]
  simp only []
  rw [fold_quadrant_row_apply _ _ _ _ _ _ _ _ _ _ r c hc height hr hfree]
  simp only [merge_line_value, offset_ptr]
  rcases Nat.mod_two_eq_zero_or_one (x + c) with h1 | h1 <;>
    rcases Nat.mod_two_eq_zero_or_one (y + r) with h2 | h2 <;>
    simp [h1, h2]

/-- Witness for C4: the request `x = y = 0`, `width = 4`, `height = 2` with
`dest_stride = 4` yields the rows `[1,2,1,2]` and `[3,4,3,4]` (cells 0 to 7 of `dest_real`),
and the odd start `x = 1` shifts the pattern by one column (first cell of row 0 is 2). -/
theorem get_quadrant_sample_checkerboard_witness :
    (get_quadrant_sample (fun _ => (1 : Int)) (fun _ => 2) (fun _ => 3) (fun _ => 4)
        (fun _ => 0) (fun _ => 0) (fun _ => 0) (fun _ => 0) 16 4 0 0 4 2
        (fun _ => 0) (fun _ => 0)).dest_real 0 = 1 ∧
    (get_quadrant_sample (fun _ => (1 : Int)) (fun _ => 2) (fun _ => 3) (fun _ => 4)
        (fun _ => 0) (fun _ => 0) (fun _ => 0) (fun _ => 0) 16 4 0 0 4 2
        (fun _ => 0) (fun _ => 0)).dest_real 1 = 2 ∧
    (get_quadrant_sample (fun _ => (1 : Int)) (fun _ => 2) (fun _ => 3) (fun _ => 4)
        (fun _ => 0) (fun _ => 0) (fun _ => 0) (fun _ => 0) 16 4 0 0 4 2
        (fun _ => 0) (fun _ => 0)).dest_real 2 = 1 ∧
    (get_quadrant_sample (fun _ => (1 : Int)) (fun _ => 2) (fun _ => 3) (fun _ => 4)
        (fun _ => 0) (fun _ => 0) (fun _ => 0) (fun _ => 0) 16 4 0 0 4 2
        (fun _ => 0) (fun _ => 0)).dest_real 3 = 2 ∧
    (get_quadrant_sample (fun _ => (1 : Int)) (fun _ => 2) (fun _ => 3) (fun _ => 4)
        (fun _ => 0) (fun _ => 0) (fun _ => 0) (fun _ => 0) 16 4 0 0 4 2
        (fun _ => 0) (fun _ => 0)).dest_real 4 = 3 ∧
    (get_quadrant_sample (fun _ => (1 : Int)) (fun _ => 2) (fun _ => 3) (fun _ => 4)
        (fun _ => 0) (fun _ => 0) (fun _ => 0) (fun _ => 0) 16 4 0 0 4 2
        (fun _ => 0) (fun _ => 0)).dest_real 5 = 4 ∧
    (get_quadrant_sample (fun _ => (1 : Int)) (fun _ => 2) (fun _ => 3) (fun _ => 4)
        (fun _ => 0) (fun _ => 0) (fun _ => 0) (fun _ => 0) 16 4 0 0 4 2
        (fun _ => 0) (fun _ => 0)).dest_real 6 = 3 ∧
    (get_quadrant_sample (fun _ => (1 : Int)) (fun _ => 2) (fun _ => 3) (fun _ => 4)
        (fun _ => 0) (fun _ => 0) (fun _ => 0) (fun _ => 0) 16 4 0 0 4 2
        (fun _ => 0) (fun _ => 0)).dest_real 7 = 4 ∧
    (get_quadrant_sample (fun _ => (1 : Int)) (fun _ => 2) (fun _ => 3) (fun _ => 4)
        (fun _ => 0) (fun _ => 0) (fun _ => 0) (fun _ => 0) 16 4 1 0 4 2
        (fun _ => 0) (fun _ => 0)).dest_real 0 = 2 :=
  ⟨(by
      simpa using get_quadrant_sample_checkerboard (fun _ => 0) (fun _ => 0) (fun _ => 0)
        (fun _ => 0) 16 4 0 0 4 2 (fun _ => 0) (fun _ => 0) 0 0 (by decide) (by decide)
        (fun r' c' h1 h2 h3 => by omega)),
    (by
      simpa using get_quadrant_sample_checkerboard (fun _ => 0) (fun _ => 0) (fun _ => 0)
        (fun _ => 0) 16 4 0 0 4 2 (fun _ => 0) (fun _ => 0) 0 1 (by decide) (by decide)
        (fun r' c' h1 h2 h3 => by omega)),
    (by
      simpa using get_quadrant_sample_checkerboard (fun _ => 0) (fun _ => 0) (fun _ => 0)
        (fun _ => 0) 16 4 0 0 4 2 (fun _ => 0) (fun _ => 0) 0 2 (by decide) (by decide)
        (fun r' c' h1 h2 h3 => by omega)),
    (by
      simpa using get_quadrant_sample_checkerboard (fun _ => 0) (fun _ => 0) (fun _ => 0)
        (fun _ => 0) 16 4 0 0 4 2 (fun _ => 0) (fun _ => 0) 0 3 (by decide) (by decide)
        (fun r' c' h1 h2 h3 => by omega)),
    (by
      simpa using get_quadrant_sample_checkerboard (fun _ => 0) (fun _ => 0) (fun _ => 0)
        (fun _ => 0) 16 4 0 0 4 2 (fun _ => 0) (fun _ => 0) 1 0 (by decide) (by decide)
        (fun r' c' h1 h2 h3 => by omega)),
    (by
      simpa using get_quadrant_sample_checkerboard (fun _ => 0) (fun _ => 0) (fun _ => 0)
        (fun _ => 0) 16 4 0 0 4 2 (fun _ => 0) (fun _ => 0) 1 1 (by decide) (by decide)
        (fun r' c' h1 h2 h3 => by omega)),
    (by
      simpa using get_quadrant_sample_checkerboard (fun _ => 0) (fun _ => 0) (fun _ => 0)
        (fun _ => 0) 16 4 0 0 4 2 (fun _ => 0) (fun _ => 0) 1 2 (by decide) (by decide)
        (fun r' c' h1 h2 h3 => by omega)),
    (by
      simpa using get_quadrant_sample_checkerboard (fun _ => 0) (fun _ => 0) (fun _ => 0)
        (fun _ => 0) 16 4 0 0 4 2 (fun _ => 0) (fun _ => 0) 1 3 (by decide) (by decide)
        (fun r' c' h1 h2 h3 => by omega)),
    (by
      simpa using get_quadrant_sample_checkerboard (fun _ => 0) (fun _ => 0) (fun _ => 0)
        (fun _ => 0) 16 4 1 0 4 2 (fun _ => 0) (fun _ => 0) 0 0 (by decide) (by decide)
        (fun r' c' h1 h2 h3 => by omega))⟩

/-- C5: the `*_to_buffer` variants leave their destinations (and counters) in exactly the
state the plain variants leave them, for every input. -/
theorem to_buffer_variants_agree :
    (∀ (evens odds : Nat → α) (x width : Nat) (dest : Nat → α),
      merge_line_to_buffer evens odds x width dest = merge_line evens odds x width dest) ∧
    (∀ (r00 r01 r10 r11 i00 i01 i10 i11 : Nat → α)
      (src_stride dest_stride x y width height : Nat) (dest_real dest_imag : Nat → α),
      get_quadrant_sample_to_buffer r00 r01 r10 r11 i00 i01 i10 i11 src_stride dest_stride
          x y width height dest_real dest_imag =
        get_quadrant_sample r00 r01 r10 r11 i00 i01 i10 i11 src_stride dest_stride
          x y width height dest_real dest_imag) :=
  ⟨merge_line_to_buffer_eq, get_quadrant_sample_to_buffer_eq⟩

/-- C6 (code defect): the count assertions do not always hold.  A one-row request at `y = 0`
runs only the closing `if (dest_y < y + height)`, which merges the row without advancing
`dest_y`, so both quadrant routines reach `assert(dest_y == y + height)` with `dest_y = 0`
and `y + height = 1`.  An empty line request at the odd offset `x = 1` runs the odd-start
prologue, which writes `dest[0]` and ends with `dest_x = 2` instead of `x + width = 1`. -/
theorem count_assertions_fail (r00 r01 r10 r11 i00 i01 i10 i11 evens odds : Nat → α)
    (src_stride dest_stride x width : Nat) (dest_real dest_imag dest : Nat → α) :
    (get_quadrant_sample r00 r01 r10 r11 i00 i01 i10 i11 src_stride dest_stride x 0 width 1
        dest_real dest_imag).dest_y = 0 ∧
    (get_quadrant_sample_to_buffer r00 r01 r10 r11 i00 i01 i10 i11 src_stride dest_stride x 0
        width 1 dest_real dest_imag).dest_y = 0 ∧
    (merge_line evens odds 1 0 dest).dest_x = 2 ∧
    (merge_line_to_buffer evens odds 1 0 dest).dest_x = 2 ∧
    (merge_line evens odds 1 0 dest).dest 0 = odds 0 := by
  rw [get_quadrant_sample_to_buffer_eq, merge_line_to_buffer_eq,
    get_quadrant_sample_eq _ _ _ _ _ _ _ _ _ _ _ _ _ _ _ _ (Or.inl (le_refl 1)),
    merge_line_empty_odd _ _ _ _ (by decide)]
  simp

end MergerLemmas

/-! ### Loops -/

theorem foldl_range_sum {M : Type} [AddCommMonoid M] (g : Int → M) (lo : Int) (a : M) :
    ∀ n : Nat, (List.range n).foldl (fun s (k : Nat) => s + g (lo + (k : Int))) a =
      a + ∑ k ∈ Finset.range n, g (lo + (k : Int)) := by
  intro n
  induction n with
  | zero => simp
  | succ n ih =>
    rw [List.range_succ, List.foldl_append, List.foldl_cons, List.foldl_nil, ih,
      Finset.sum_range_succ, add_assoc]

/-- A loop that adds `g i` to its accumulator computes the sum of `g` over `[lo, hi)`. -/
theorem for_range_sum {M : Type} [AddCommMonoid M] (g : Int → M) (lo hi : Int) (a : M) :
    for_range lo hi (fun i acc => acc + g i) a = a + ∑ i ∈ Finset.Ico lo hi, g i := by
  unfold for_range
  rw [foldl_range_sum g lo a, Int.Ico_eq_finset_map, Finset.sum_map]
  rfl

/-- The body of a loop runs only for indices of the range. -/
theorem for_range_congr {σ : Type} (lo hi : Int) (body body' : Int → σ → σ) (init : σ)
    (h : ∀ i, lo ≤ i → i < hi → body i = body' i) :
    for_range lo hi body init = for_range lo hi body' init := by
  unfold for_range
  have key : ∀ n : Nat, n ≤ (hi - lo).toNat →
      (List.range n).foldl (fun s (k : Nat) => body (lo + (k : Int)) s) init =
        (List.range n).foldl (fun s (k : Nat) => body' (lo + (k : Int)) s) init := by
    intro n
    induction n with
    | zero => intro _; rfl
    | succ n ih =>
      intro hn
      rw [List.range_succ, List.foldl_append, List.foldl_append, List.foldl_cons,
        List.foldl_cons, List.foldl_nil, List.foldl_nil, ih (by omega),
        h (lo + (n : Int)) (by omega) (by omega)]
  exact key _ (le_refl _)

section NormLemmas

variable {K : Type}

/-- The local squared norm as a double sum over the inner rectangle. -/
theorem calculate_squared_norm_local [Semiring K] (st : State K) (peers : Int → K) :
    st.calculate_squared_norm false peers =
      ∑ i ∈ Finset.Ico (st.grid.inner_start_y - st.grid.start_y)
          (st.grid.inner_end_y - st.grid.start_y),
        ∑ j ∈ Finset.Ico (st.grid.inner_start_x - st.grid.start_x)
            (st.grid.inner_end_x - st.grid.start_x),
          (st.p_real (j + i * (st.grid.end_x - st.grid.start_x)) ^ 2 +
            st.p_imag (j + i * (st.grid.end_x - st.grid.start_x)) ^ 2) := by
  unfold State.calculate_squared_norm
  simp only [Bool.false_eq_true, if_false, for_range_sum, zero_add, pow_two]

/-- C7: `calculate_squared_norm(false)` is the sum of `p_real² + p_imag²` over exactly the
local cells with row in `[inner_start_y - start_y, inner_end_y - start_y)` and column in
`[inner_start_x - start_x, inner_end_x - start_x)` (cell `(i, j)` sits at index
`j + i * tile_width`); hence two states on the same lattice that agree on these cells, whatever
their halo cells hold, have the same squared norm. -/
theorem calculate_squared_norm_inner_only [Semiring K] (st : State K) (peers : Int → K) :
    st.calculate_squared_norm false peers =
      ∑ i ∈ Finset.Ico (st.grid.inner_start_y - st.grid.start_y)
          (st.grid.inner_end_y - st.grid.start_y),
        ∑ j ∈ Finset.Ico (st.grid.inner_start_x - st.grid.start_x)
            (st.grid.inner_end_x - st.grid.start_x),
          (st.p_real (j + i * (st.grid.end_x - st.grid.start_x)) ^ 2 +
            st.p_imag (j + i * (st.grid.end_x - st.grid.start_x)) ^ 2) ∧
    ∀ st' : State K, st'.grid = st.grid →
      (∀ i j : Int,
        st.grid.inner_start_y - st.grid.start_y ≤ i →
        i < st.grid.inner_end_y - st.grid.start_y →
        st.grid.inner_start_x - st.grid.start_x ≤ j →
        j < st.grid.inner_end_x - st.grid.start_x →
        st'.p_real (j + i * (st.grid.end_x - st.grid.start_x)) =
            st.p_real (j + i * (st.grid.end_x - st.grid.start_x)) ∧
          st'.p_imag (j + i * (st.grid.end_x - st.grid.start_x)) =
            st.p_imag (j + i * (st.grid.end_x - st.grid.start_x))) →
      st'.calculate_squared_norm false peers = st.calculate_squared_norm false peers := by
  refine ⟨calculate_squared_norm_local st peers, ?_⟩
  intro st' hgrid hcells
  rw [calculate_squared_norm_local st peers, calculate_squared_norm_local st' peers, hgrid]
  refine Finset.sum_congr rfl (fun i hi => Finset.sum_congr rfl (fun j hj => ?_))
  rw [Finset.mem_Ico] at hi hj
  rw [(hcells i j hi.1 hi.2 hj.1 hj.2).1, (hcells i j hi.1 hi.2 hj.1 hj.2).2]

/-- Witness for C7: a periodic single-node lattice of logical size 1 (tile 9 × 9, the inner
cell at row 4, column 4, index 40); two states that differ in every halo cell have the same
squared norm. -/
theorem calculate_squared_norm_inner_only_witness :
    State.calculate_squared_norm
      ({ grid := Lattice.Lattice MPIEnv.single 1 1 1 (some (1, 1)) 0,
         p_real := fun k => if k = 40 then 3 else 7, p_imag := fun k => if k = 40 then 2 else 5,
         self_init := false } : State Int) false (fun _ => 0) =
    State.calculate_squared_norm
      ({ grid := Lattice.Lattice MPIEnv.single 1 1 1 (some (1, 1)) 0,
         p_real := fun k => if k = 40 then 3 else 0, p_imag := fun k => if k = 40 then 2 else 0,
         self_init := false } : State Int) false (fun _ => 0) :=
  (calculate_squared_norm_inner_only
    ({ grid := Lattice.Lattice MPIEnv.single 1 1 1 (some (1, 1)) 0,
       p_real := fun k => if k = 40 then 3 else 0, p_imag := fun k => if k = 40 then 2 else 0,
       self_init := false } : State Int) (fun _ => 0)).2
    { grid := Lattice.Lattice MPIEnv.single 1 1 1 (some (1, 1)) 0,
      p_real := fun k => if k = 40 then 3 else 7, p_imag := fun k => if k = 40 then 2 else 5,
      self_init := false } rfl
    (by
      intro i j hi1 hi2 hj1 hj2
      have e1 : (Lattice.Lattice MPIEnv.single 1 (1 : Int) 1 (some (1, 1)) 0).inner_start_y
          - (Lattice.Lattice MPIEnv.single 1 (1 : Int) 1 (some (1, 1)) 0).start_y = 4 := by
        decide
      have e2 : (Lattice.Lattice MPIEnv.single 1 (1 : Int) 1 (some (1, 1)) 0).inner_end_y
          - (Lattice.Lattice MPIEnv.single 1 (1 : Int) 1 (some (1, 1)) 0).start_y = 5 := by
        decide
      have e3 : (Lattice.Lattice MPIEnv.single 1 (1 : Int) 1 (some (1, 1)) 0).inner_start_x
          - (Lattice.Lattice MPIEnv.single 1 (1 : Int) 1 (some (1, 1)) 0).start_x = 4 := by
        decide
      have e4 : (Lattice.Lattice MPIEnv.single 1 (1 : Int) 1 (some (1, 1)) 0).inner_end_x
          - (Lattice.Lattice MPIEnv.single 1 (1 : Int) 1 (some (1, 1)) 0).start_x = 5 := by
        decide
      have e5 : (Lattice.Lattice MPIEnv.single 1 (1 : Int) 1 (some (1, 1)) 0).end_x
          - (Lattice.Lattice MPIEnv.single 1 (1 : Int) 1 (some (1, 1)) 0).start_x = 9 := by
        decide
      simp only [e1, e2, e3, e4, e5] at hi1 hi2 hj1 hj2 ⊢
      have hi : i = 4 := by omega
      have hj : j = 4 := by omega
      subst hi; subst hj
      decide)

end NormLemmas

/-! ### Halo widths -/

/-- The halo widths a node sees are `0` or `halo`, on both sides. -/
theorem calculate_borders_halo (coord dim length halo pb : Int) :
    ((calculate_borders coord dim length halo pb).inner_start -
        (calculate_borders coord dim length halo pb).start = 0 ∨
      (calculate_borders coord dim length halo pb).inner_start -
        (calculate_borders coord dim length halo pb).start = halo) ∧
    ((calculate_borders coord dim length halo pb).end_ -
        (calculate_borders coord dim length halo pb).inner_end = 0 ∨
      (calculate_borders coord dim length halo pb).end_ -
        (calculate_borders coord dim length halo pb).inner_end = halo) := by
  simp only [calculate_borders]
  generalize ceil_div length dim = b
  by_cases hc : coord = 0
  · subst hc
    simp only [zero_mul]
    split_ifs <;> omega
  · simp only [hc, if_false]
    generalize coord * b = s
    split_ifs <;> omega

/-! ### Global reduction (C8) -/

/-- What the `if (global)` block returns on a communicator of `mpi_procs ≥ 1` ranks: the own
partial (stored in `sums[0]`) plus the gathered entries `1, …, mpi_procs - 1`; the gathered
entry 0 is overwritten. -/
theorem allgather_sum_eq {K : Type} [AddCommMonoid K] (grid : Lattice K) (peers : Int → K)
    (value : K) (hn : 1 ≤ grid.mpi_procs) :
    allgather_sum grid peers value =
      value + ∑ i ∈ Finset.Ico 1 grid.mpi_procs, MPI_Allgather peers grid.mpi_rank value i := by
  unfold allgather_sum
  simp only [for_range_sum, zero_add]
  have hsplit : Finset.Ico 0 grid.mpi_procs = insert 0 (Finset.Ico 1 grid.mpi_procs) := by
    ext i
    simp only [Finset.mem_Ico, Finset.mem_insert]
    omega
  rw [hsplit, Finset.sum_insert (by simp), Function.update_same]
  congr 1
  refine Finset.sum_congr rfl (fun i hi => ?_)
  rw [Finset.mem_Ico] at hi
  rw [Function.update_noteq (by omega)]

/-- With `global = true` each of the four reductions returns the `if (global)` block applied
to its local result. -/
theorem global_branch_eq {K : Type} [Field K] [DecidableEq K] (grid : Lattice K)
    (st : State K) (hamiltonian : Hamiltonian K) (hamilt_pot : Int → Int → Lattice K → K)
    (external_pot : Option (Int → K)) (norm2 : K) (peers : Int → K) :
    st.calculate_squared_norm true peers =
        allgather_sum st.grid peers (st.calculate_squared_norm false peers) ∧
      calculate_total_energy grid st hamiltonian hamilt_pot external_pot norm2 true peers =
        allgather_sum grid peers
          (calculate_total_energy grid st hamiltonian hamilt_pot external_pot norm2 false
            peers) ∧
      calculate_kinetic_energy grid st hamiltonian norm2 true peers =
        allgather_sum grid peers
          (calculate_kinetic_energy grid st hamiltonian norm2 false peers) ∧
      calculate_rotational_energy grid st hamiltonian norm2 true peers =
        allgather_sum grid peers
          (calculate_rotational_energy grid st hamiltonian norm2 false peers) :=
  ⟨rfl, rfl, rfl, rfl⟩

/-- C8 (code defect): two ranks on a 2 × 1 node grid, logical size 11, every cell of both
states equal to `1 + 0i`.  The local partials are `p_0 = 66` and `p_1 = 55`.  With
`global = true` rank 0 returns `121 = p_0 + p_1`, but rank 1 returns `110 = p_1 + p_1`: the
statement `sums[0] = norm2` replaces rank 0's gathered partial by the caller's own. -/
theorem global_reduction_overwrites_rank_zero :
    State.calculate_squared_norm
      ({ grid := Lattice.Lattice ⟨2, 0, (2, 1), (0, 0)⟩ 11 1 1 none 0,
         p_real := fun _ => 1, p_imag := fun _ => 0, self_init := false } : State Int)
      false (fun i => if i = 0 then 66 else 55) = 66 ∧
    State.calculate_squared_norm
      ({ grid := Lattice.Lattice ⟨2, 1, (2, 1), (1, 0)⟩ 11 1 1 none 0,
         p_real := fun _ => 1, p_imag := fun _ => 0, self_init := false } : State Int)
      false (fun i => if i = 0 then 66 else 55) = 55 ∧
    State.calculate_squared_norm
      ({ grid := Lattice.Lattice ⟨2, 0, (2, 1), (0, 0)⟩ 11 1 1 none 0,
         p_real := fun _ => 1, p_imag := fun _ => 0, self_init := false } : State Int)
      true (fun i => if i = 0 then 66 else 55) = 121 ∧
    State.calculate_squared_norm
      ({ grid := Lattice.Lattice ⟨2, 1, (2, 1), (1, 0)⟩ 11 1 1 none 0,
         p_real := fun _ => 1, p_imag := fun _ => 0, self_init := false } : State Int)
      true (fun i => if i = 0 then 66 else 55) = 110 := by
  decide

/-! ### `init_state` -/

/-- A projection of the loop state that every iteration transforms on its own can be followed
through the loop on its own. -/
theorem for_range_proj {σ τ : Type} (proj : σ → τ) (lo hi : Int) (body : Int → σ → σ)
    (body' : Int → τ → τ) (init : σ) (h : ∀ i s, proj (body i s) = body' i (proj s)) :
    proj (for_range lo hi body init) = for_range lo hi body' (proj init) := by
  unfold for_range
  generalize (hi - lo).toNat = n
  induction n with
  | zero => rfl
  | succ n ih =>
    rw [List.range_succ, List.foldl_append, List.foldl_append, List.foldl_cons,
      List.foldl_cons, List.foldl_nil, List.foldl_nil, h, ih]

/-- A cell that no iteration changes keeps its content through the loop. -/
theorem for_range_frame {K : Type} (lo hi : Int) (step : Int → (Int → K) → (Int → K))
    (p : Int → K) (idx : Int)
    (hframe : ∀ k, lo ≤ k → k < hi → ∀ q, step k q idx = q idx) :
    for_range lo hi step p idx = p idx := by
  unfold for_range
  have key : ∀ n : Nat, n ≤ (hi - lo).toNat →
      (List.range n).foldl (fun s (k : Nat) => step (lo + (k : Int)) s) p idx = p idx := by
    intro n
    induction n with
    | zero => intro _; rfl
    | succ n ih =>
      intro hn
      rw [List.range_succ, List.foldl_append, List.foldl_cons, List.foldl_nil,
        hframe (lo + (n : Int)) (by omega) (by omega), ih (by omega)]
  exact key _ (le_refl _)

/-- A cell set by iteration `k0` and left alone by the later iterations holds, after the loop,
what iteration `k0` put there. -/
theorem for_range_last_write {K : Type} (lo hi : Int) (step : Int → (Int → K) → (Int → K))
    (p : Int → K) (idx k0 : Int) (val : K) (hk0 : lo ≤ k0) (hk1 : k0 < hi)
    (hset : ∀ q, step k0 q idx = val)
    (hframe : ∀ k, k0 < k → k < hi → ∀ q, step k q idx = q idx) :
    for_range lo hi step p idx = val := by
  unfold for_range
  have key : ∀ n : Nat, n ≤ (hi - lo).toNat → k0 < lo + (n : Int) →
      (List.range n).foldl (fun s (k : Nat) => step (lo + (k : Int)) s) p idx = val := by
    intro n
    induction n with
    | zero => intro _ h; omega
    | succ n ih =>
      intro hn hlt
      rw [List.range_succ, List.foldl_append, List.foldl_cons, List.foldl_nil]
      by_cases hk : k0 = lo + (n : Int)
      · rw [← hk, hset]
      · rw [hframe (lo + (n : Int)) (by omega) (by omega), ih (by omega) (by omega)]
  exact key _ (le_refl _) (by omega)

section InitState

variable {K : Type}

theorem init_state_p_real (st : State K) (ini_state : Int → Int → Lattice K → Cplx K) :
    (st.init_state ini_state).p_real =
      for_range 0 st.grid.dim_y (fun y p =>
        for_range 0 st.grid.dim_x (fun x p1 =>
          Function.update p1 (y * st.grid.dim_x + x)
            (ini_state (st.grid.start_x + x) (st.grid.start_y + y) st.grid).re) p)
        st.p_real := by
  unfold State.init_state
  rw [for_range_proj State.p_real 0 st.grid.dim_y _ (fun y p =>
        for_range 0 st.grid.dim_x (fun x p1 =>
          Function.update p1 (y * st.grid.dim_x + x)
            (ini_state (st.grid.start_x + x) (st.grid.start_y + y) st.grid).re) p) st]
  intro i s
  rw [for_range_proj State.p_real 0 st.grid.dim_x _ (fun x p1 =>
          Function.update p1 (i * st.grid.dim_x + x)
            (ini_state (st.grid.start_x + x) (st.grid.start_y + i) st.grid).re) s]
  intro j s1
  rfl

theorem init_state_p_imag (st : State K) (ini_state : Int → Int → Lattice K → Cplx K) :
    (st.init_state ini_state).p_imag =
      for_range 0 st.grid.dim_y (fun y p =>
        for_range 0 st.grid.dim_x (fun x p1 =>
          Function.update p1 (y * st.grid.dim_x + x)
            (ini_state (st.grid.start_x + x) (st.grid.start_y + y) st.grid).im) p)
        st.p_imag := by
  unfold State.init_state
  rw [for_range_proj State.p_imag 0 st.grid.dim_y _ (fun y p =>
        for_range 0 st.grid.dim_x (fun x p1 =>
          Function.update p1 (y * st.grid.dim_x + x)
            (ini_state (st.grid.start_x + x) (st.grid.start_y + y) st.grid).im) p) st]
  intro i s
  rw [for_range_proj State.p_imag 0 st.grid.dim_x _ (fun x p1 =>
          Function.update p1 (i * st.grid.dim_x + x)
            (ini_state (st.grid.start_x + x) (st.grid.start_y + i) st.grid).im) s]
  intro j s1
  rfl

/-- The row-major fill of a `height × width` tile: cell `(x, y)` ends up with `v x y`. -/
theorem fill_tile_apply (width height : Int) (v : Int → Int → K) (p : Int → K)
    (x y : Int) (hx0 : 0 ≤ x) (hx1 : x < width) (hy0 : 0 ≤ y) (hy1 : y < height) :
    for_range 0 height (fun y' q =>
      for_range 0 width (fun x' q1 => Function.update q1 (y' * width + x') (v x' y')) q) p
        (y * width + x) = v x y := by
  apply for_range_last_write 0 height _ p (y * width + x) y (v x y) hy0 hy1
  · intro q
    apply for_range_last_write 0 width _ q (y * width + x) x (v x y) hx0 hx1
    · intro q1
      exact Function.update_same _ _ _
    · intro k hk1 hk2 q1
      exact Function.update_noteq (by omega) _ _
  · intro k hk1 hk2 q
    apply for_range_frame
    intro k' hk'1 hk'2 q1
    apply Function.update_noteq
    have h1 : (y + 1) * width ≤ k * width :=
      mul_le_mul_of_nonneg_right (by omega) (by omega)
    have e : (y + 1) * width = y * width + width := by ring
    omega

/-- After `init_state`, every cell of the tile holds the sample of the field at its global
coordinates. -/
theorem init_state_apply (st : State K) (ini_state : Int → Int → Lattice K → Cplx K)
    (x y : Int) (hx0 : 0 ≤ x) (hx1 : x < st.grid.dim_x) (hy0 : 0 ≤ y)
    (hy1 : y < st.grid.dim_y) :
    (st.init_state ini_state).p_real (y * st.grid.dim_x + x) =
        (ini_state (st.grid.start_x + x) (st.grid.start_y + y) st.grid).re ∧
      (st.init_state ini_state).p_imag (y * st.grid.dim_x + x) =
        (ini_state (st.grid.start_x + x) (st.grid.start_y + y) st.grid).im := by
  rw [init_state_p_real, init_state_p_imag]
  exact ⟨fill_tile_apply st.grid.dim_x st.grid.dim_y
      (fun x' y' => (ini_state (st.grid.start_x + x') (st.grid.start_y + y') st.grid).re)
      st.p_real x y hx0 hx1 hy0 hy1,
    fill_tile_apply st.grid.dim_x st.grid.dim_y
      (fun x' y' => (ini_state (st.grid.start_x + x') (st.grid.start_y + y') st.grid).im)
      st.p_imag x y hx0 hx1 hy0 hy1⟩

end InitState

/-! ### Squared norm and partitioning (C9) -/

section Partition

variable {K : Type}

/-- The axis geometry the `Lattice` constructor stores is that of `calculate_borders` for the
logical size `dim`. -/
theorem Lattice_geometry [Zero K] [DecidableEq K] (mpi : MPIEnv) (dim : Int)
    (delta_x delta_y : K) (periods : Option (Int × Int)) (omega : K) :
    calculate_borders mpi.mpi_coords.2 mpi.mpi_dims.2 dim
        (Lattice.Lattice mpi dim delta_x delta_y periods omega).halo_x
        (Lattice.Lattice mpi dim delta_x delta_y periods omega).periods.2 =
      { start := (Lattice.Lattice mpi dim delta_x delta_y periods omega).start_x,
        end_ := (Lattice.Lattice mpi dim delta_x delta_y periods omega).end_x,
        inner_start := (Lattice.Lattice mpi dim delta_x delta_y periods omega).inner_start_x,
        inner_end := (Lattice.Lattice mpi dim delta_x delta_y periods omega).inner_end_x } ∧
    calculate_borders mpi.mpi_coords.1 mpi.mpi_dims.1 dim
        (Lattice.Lattice mpi dim delta_x delta_y periods omega).halo_y
        (Lattice.Lattice mpi dim delta_x delta_y periods omega).periods.1 =
      { start := (Lattice.Lattice mpi dim delta_x delta_y periods omega).start_y,
        end_ := (Lattice.Lattice mpi dim delta_x delta_y periods omega).end_y,
        inner_start := (Lattice.Lattice mpi dim delta_x delta_y periods omega).inner_start_y,
        inner_end := (Lattice.Lattice mpi dim delta_x delta_y periods omega).inner_end_y } ∧
    (Lattice.Lattice mpi dim delta_x delta_y periods omega).dim_x =
      (Lattice.Lattice mpi dim delta_x delta_y periods omega).end_x -
        (Lattice.Lattice mpi dim delta_x delta_y periods omega).start_x ∧
    (Lattice.Lattice mpi dim delta_x delta_y periods omega).dim_y =
      (Lattice.Lattice mpi dim delta_x delta_y periods omega).end_y -
        (Lattice.Lattice mpi dim delta_x delta_y periods omega).start_y ∧
    0 ≤ (Lattice.Lattice mpi dim delta_x delta_y periods omega).halo_x ∧
    0 ≤ (Lattice.Lattice mpi dim delta_x delta_y periods omega).halo_y := by
  have e : ∀ p h : Int, dim + p * 2 * h - 2 * p * h = dim := by intro p h; ring
  simp only [Lattice.Lattice, e]
  refine ⟨trivial, trivial, trivial, trivial, ?_, ?_⟩ <;> split_ifs <;> decide

/-- The inner region of a node lies inside its tile. -/
theorem inner_inside_tile (coord dim length halo pb : Int) (hh : 0 ≤ halo) :
    (calculate_borders coord dim length halo pb).start ≤
        (calculate_borders coord dim length halo pb).inner_start ∧
      (calculate_borders coord dim length halo pb).inner_end ≤
        (calculate_borders coord dim length halo pb).end_ := by
  have h := calculate_borders_halo coord dim length halo pb
  omega

end Partition
/-! ### Stencil reads (C10) -/

/-- Two nested loops whose bodies agree on every visited pair of indices compute the same. -/
theorem for_range_congr2 {σ : Type} (ly hy lx hx : Int) (body body' : Int → Int → σ → σ)
    (init : σ)
    (h : ∀ i j, ly ≤ i → i < hy → lx ≤ j → j < hx → body i j = body' i j) :
    for_range ly hy (fun i acc => for_range lx hx (fun j acc1 => body i j acc1) acc) init =
      for_range ly hy (fun i acc => for_range lx hx (fun j acc1 => body' i j acc1) acc)
        init := by
  apply for_range_congr
  intro i hi1 hi2
  funext acc
  apply for_range_congr
  intro j hj1 hj2
  funext acc1
  rw [h i j hi1 hi2 hj1 hj2]

section StencilReads

variable {K : Type}

/-- The bounds of the stencil loops on a `calculate_borders` geometry with `halo ≥ 0`. -/
theorem stencil_cell_bounds (grid : Lattice K)
    (coord_x ndim_x length_x halo_x pb_x coord_y ndim_y length_y halo_y pb_y : Int)
    (hhx : 0 ≤ halo_x) (hhy : 0 ≤ halo_y)
    (hbx : calculate_borders coord_x ndim_x length_x halo_x pb_x =
      { start := grid.start_x, end_ := grid.end_x, inner_start := grid.inner_start_x,
        inner_end := grid.inner_end_x })
    (hby : calculate_borders coord_y ndim_y length_y halo_y pb_y =
      { start := grid.start_y, end_ := grid.end_y, inner_start := grid.inner_start_y,
        inner_end := grid.inner_end_y })
    (hdx : grid.dim_x = grid.end_x - grid.start_x)
    (hdy : grid.dim_y = grid.end_y - grid.start_y)
    (i j : Int) (hi1 : stencil_begin_y grid ≤ i) (hi2 : i < stencil_end_y grid)
    (hj1 : stencil_begin_x grid ≤ j) (hj2 : j < stencil_end_x grid) :
    1 ≤ i ∧ i ≤ grid.dim_y - 2 ∧ 1 ≤ j ∧ j ≤ grid.dim_x - 2 := by
  have hx := calculate_borders_halo coord_x ndim_x length_x halo_x pb_x
  have hy := calculate_borders_halo coord_y ndim_y length_y halo_y pb_y
  rw [hbx] at hx
  rw [hby] at hy
  simp only [] at hx hy
  simp only [stencil_begin_y, stencil_end_y, stencil_begin_x, stencil_end_x, ini_halo_x,
    ini_halo_y, end_halo_x, end_halo_y] at hi1 hi2 hj1 hj2
  split_ifs at hi1 hi2 hj1 hj2 <;> omega

/-- A cell with `1 ≤ i ≤ dim_y - 2` and `1 ≤ j ≤ dim_x - 2`: the five stencil indices lie in
the buffer, the left and right ones in row `i`. -/
theorem stencil_indices_inside (W H i j : Int) (hi1 : 1 ≤ i) (hi2 : i ≤ H - 2) (hj1 : 1 ≤ j)
    (hj2 : j ≤ W - 2) :
    (∀ k ∈ [i * W + j, (i - 1) * W + j, (i + 1) * W + j, i * W + j + 1, i * W + j - 1],
        0 ≤ k ∧ k < H * W) ∧
      (i * W ≤ i * W + j - 1 ∧ i * W + j + 1 < (i + 1) * W) := by
  have hW : 0 ≤ W := by omega
  have p1 : 0 ≤ (i - 1) * W := mul_nonneg (by omega) hW
  have p2 : (i + 1) * W ≤ (H - 1) * W := mul_le_mul_of_nonneg_right (by omega) hW
  have e1 : (i - 1) * W = i * W - W := by ring
  have e2 : (i + 1) * W = i * W + W := by ring
  have e3 : (H - 1) * W = H * W - W := by ring
  rw [e1] at p1
  rw [e2, e3] at p2
  refine ⟨?_, ?_⟩
  · intro k hk
    simp only [List.mem_cons, List.mem_singleton, List.not_mem_nil, or_false] at hk
    rw [e1, e2] at hk
    rcases hk with hk | hk | hk | hk | hk <;> subst hk <;> constructor <;> omega
  · rw [e2]
    constructor <;> omega

/-- The stencil loops run their body only for cells with `1 ≤ i ≤ dim_y - 2` and
`1 ≤ j ≤ dim_x - 2`. -/
theorem stencil_loop_congr {σ : Type} (grid : Lattice K)
    (coord_x ndim_x length_x halo_x pb_x coord_y ndim_y length_y halo_y pb_y : Int)
    (hhx : 0 ≤ halo_x) (hhy : 0 ≤ halo_y)
    (hbx : calculate_borders coord_x ndim_x length_x halo_x pb_x =
      { start := grid.start_x, end_ := grid.end_x, inner_start := grid.inner_start_x,
        inner_end := grid.inner_end_x })
    (hby : calculate_borders coord_y ndim_y length_y halo_y pb_y =
      { start := grid.start_y, end_ := grid.end_y, inner_start := grid.inner_start_y,
        inner_end := grid.inner_end_y })
    (hdx : grid.dim_x = grid.end_x - grid.start_x)
    (hdy : grid.dim_y = grid.end_y - grid.start_y)
    (body body' : Int → Int → σ → σ) (init : σ)
    (h : ∀ i j, 1 ≤ i → i ≤ grid.dim_y - 2 → 1 ≤ j → j ≤ grid.dim_x - 2 →
      body i j = body' i j) :
    for_range (stencil_begin_y grid) (stencil_end_y grid) (fun i acc =>
        for_range (stencil_begin_x grid) (stencil_end_x grid) (fun j acc1 => body i j acc1)
          acc) init =
      for_range (stencil_begin_y grid) (stencil_end_y grid) (fun i acc =>
        for_range (stencil_begin_x grid) (stencil_end_x grid) (fun j acc1 => body' i j acc1)
          acc) init := by
  apply for_range_congr2
  intro i j hi1 hi2 hj1 hj2
  obtain ⟨b1, b2, b3, b4⟩ := stencil_cell_bounds grid coord_x ndim_x length_x halo_x pb_x
    coord_y ndim_y length_y halo_y pb_y hhx hhy hbx hby hdx hdy i j hi1 hi2 hj1 hj2
  exact h i j b1 b2 b3 b4

theorem psi_agree (grid : Lattice K) (st st' : State K) (hagree : agree_on_tile grid st st')
    (k : Int) (hk : 0 ≤ k ∧ k < grid.dim_y * grid.dim_x) : st.psi k = st'.psi k := by
  simp only [State.psi, (hagree k hk.1 hk.2).1, (hagree k hk.1 hk.2).2]

/-- The five stencil reads of a cell with `1 ≤ i ≤ dim_y - 2`, `1 ≤ j ≤ dim_x - 2` see the same
values in two states that agree on the tile buffer. -/
theorem stencil_psi_agree (grid : Lattice K) (st st' : State K)
    (hagree : agree_on_tile grid st st') (hdx : grid.dim_x = grid.end_x - grid.start_x)
    (i j : Int) (hi1 : 1 ≤ i) (hi2 : i ≤ grid.dim_y - 2) (hj1 : 1 ≤ j)
    (hj2 : j ≤ grid.dim_x - 2) :
    st.psi (i * (grid.end_x - grid.start_x) + j) =
        st'.psi (i * (grid.end_x - grid.start_x) + j) ∧
      st.psi ((i - 1) * (grid.end_x - grid.start_x) + j) =
        st'.psi ((i - 1) * (grid.end_x - grid.start_x) + j) ∧
      st.psi ((i + 1) * (grid.end_x - grid.start_x) + j) =
        st'.psi ((i + 1) * (grid.end_x - grid.start_x) + j) ∧
      st.psi (i * (grid.end_x - grid.start_x) + j + 1) =
        st'.psi (i * (grid.end_x - grid.start_x) + j + 1) ∧
      st.psi (i * (grid.end_x - grid.start_x) + j - 1) =
        st'.psi (i * (grid.end_x - grid.start_x) + j - 1) := by
  rw [← hdx]
  have h := (stencil_indices_inside grid.dim_x grid.dim_y i j hi1 hi2 hj1 hj2).1
  refine ⟨?_, ?_, ?_, ?_, ?_⟩ <;>
    exact psi_agree grid st st' hagree _ (h _ (by simp))

/-- The local squared norm reads cells of the tile buffer only. -/
theorem calculate_squared_norm_agree [Semiring K] (grid : Lattice K) (st st' : State K)
    (peers : Int → K) (hst : st.grid = grid) (hst' : st'.grid = grid)
    (hagree : agree_on_tile grid st st')
    (hdx : grid.dim_x = grid.end_x - grid.start_x)
    (hdy : grid.dim_y = grid.end_y - grid.start_y)
    (hx0 : grid.start_x ≤ grid.inner_start_x) (hx1 : grid.inner_end_x ≤ grid.end_x)
    (hy0 : grid.start_y ≤ grid.inner_start_y) (hy1 : grid.inner_end_y ≤ grid.end_y) :
    st.calculate_squared_norm false peers = st'.calculate_squared_norm false peers := by
  rw [calculate_squared_norm_local, calculate_squared_norm_local, hst, hst']
  refine Finset.sum_congr rfl (fun i hi => Finset.sum_congr rfl (fun j hj => ?_))
  rw [Finset.mem_Ico] at hi hj
  rw [← hdx]
  have hW : 0 ≤ grid.dim_x := by omega
  have p1 : 0 ≤ i * grid.dim_x := mul_nonneg (by omega) hW
  have p2 : i * grid.dim_x ≤ (grid.dim_y - 1) * grid.dim_x :=
    mul_le_mul_of_nonneg_right (by omega) hW
  have e3 : (grid.dim_y - 1) * grid.dim_x = grid.dim_y * grid.dim_x - grid.dim_x := by ring
  rw [e3] at p2
  have h := hagree (j + i * grid.dim_x) (by omega) (by omega)
  rw [h.1, h.2]

end StencilReads

section StencilReductions

variable {K : Type} [Field K]

theorem kinetic_term_agree (grid : Lattice K) (st st' : State K) (hamiltonian : Hamiltonian K)
    (hagree : agree_on_tile grid st st') (hdx : grid.dim_x = grid.end_x - grid.start_x)
    (i j : Int) (hi1 : 1 ≤ i) (hi2 : i ≤ grid.dim_y - 2) (hj1 : 1 ≤ j)
    (hj2 : j ≤ grid.dim_x - 2) :
    kinetic_term grid st hamiltonian i j = kinetic_term grid st' hamiltonian i j := by
  obtain ⟨h1, h2, h3, h4, h5⟩ := stencil_psi_agree grid st st' hagree hdx i j hi1 hi2 hj1 hj2
  simp only [kinetic_term, h1, h2, h3, h4, h5]

theorem rotational_term_agree (grid : Lattice K) (st st' : State K)
    (hamiltonian : Hamiltonian K)
    (hagree : agree_on_tile grid st st') (hdx : grid.dim_x = grid.end_x - grid.start_x)
    (i j : Int) (hi1 : 1 ≤ i) (hi2 : i ≤ grid.dim_y - 2) (hj1 : 1 ≤ j)
    (hj2 : j ≤ grid.dim_x - 2) :
    rotational_term grid st hamiltonian i j = rotational_term grid st' hamiltonian i j := by
  obtain ⟨h1, h2, h3, h4, h5⟩ := stencil_psi_agree grid st st' hagree hdx i j hi1 hi2 hj1 hj2
  simp only [rotational_term, h1, h2, h3, h4, h5]

theorem total_energy_term_agree (grid : Lattice K) (st st' : State K)
    (hamiltonian : Hamiltonian K) (hamilt_pot : Int → Int → Lattice K → K)
    (external_pot : Option (Int → K))
    (hagree : agree_on_tile grid st st') (hdx : grid.dim_x = grid.end_x - grid.start_x)
    (i j : Int) (hi1 : 1 ≤ i) (hi2 : i ≤ grid.dim_y - 2) (hj1 : 1 ≤ j)
    (hj2 : j ≤ grid.dim_x - 2) :
    total_energy_term grid st hamiltonian hamilt_pot external_pot i j =
      total_energy_term grid st' hamiltonian hamilt_pot external_pot i j := by
  obtain ⟨h1, h2, h3, h4, h5⟩ := stencil_psi_agree grid st st' hagree hdx i j hi1 hi2 hj1 hj2
  simp only [total_energy_term, h1, h2, h3, h4, h5]

theorem momentum_terms_agree (grid : Lattice K) (st st' : State K)
    (hagree : agree_on_tile grid st st') (hdx : grid.dim_x = grid.end_x - grid.start_x)
    (i j : Int) (hi1 : 1 ≤ i) (hi2 : i ≤ grid.dim_y - 2) (hj1 : 1 ≤ j)
    (hj2 : j ≤ grid.dim_x - 2) :
    momentum_terms grid st i j = momentum_terms grid st' i j := by
  obtain ⟨h1, h2, h3, h4, h5⟩ := stencil_psi_agree grid st st' hagree hdx i j hi1 hi2 hj1 hj2
  simp only [momentum_terms, h1, h2, h3, h4, h5]

/-- C10: on every lattice whose axis geometry comes from `calculate_borders` with `halo ≥ 0`
(any length, node count, coordinate and periodicity) and with `dim_x = end_x - start_x`,
`dim_y = end_y - start_y`, every cell `(i, j)` visited by the loops of
`calculate_kinetic_energy`, `calculate_rotational_energy`, single-state
`calculate_total_energy` and `calculate_mean_momentum` satisfies `1 ≤ i ≤ dim_y - 2` and
`1 ≤ j ≤ dim_x - 2`; so the centre, up, down, right and left reads index inside the
`dim_y × dim_x` buffer, and the left and right reads stay in row `i`.  Accordingly the four
routines return the same values for two states that agree on the cells of the buffer. -/
theorem stencil_reads_inside_tile [DecidableEq K] (grid : Lattice K)
    (coord_x ndim_x length_x halo_x pb_x coord_y ndim_y length_y halo_y pb_y : Int)
    (hhx : 0 ≤ halo_x) (hhy : 0 ≤ halo_y)
    (hbx : calculate_borders coord_x ndim_x length_x halo_x pb_x =
      { start := grid.start_x, end_ := grid.end_x, inner_start := grid.inner_start_x,
        inner_end := grid.inner_end_x })
    (hby : calculate_borders coord_y ndim_y length_y halo_y pb_y =
      { start := grid.start_y, end_ := grid.end_y, inner_start := grid.inner_start_y,
        inner_end := grid.inner_end_y })
    (hdx : grid.dim_x = grid.end_x - grid.start_x)
    (hdy : grid.dim_y = grid.end_y - grid.start_y) :
    (∀ i j : Int, stencil_begin_y grid ≤ i → i < stencil_end_y grid →
      stencil_begin_x grid ≤ j → j < stencil_end_x grid →
      (1 ≤ i ∧ i ≤ grid.dim_y - 2 ∧ 1 ≤ j ∧ j ≤ grid.dim_x - 2) ∧
      (∀ k ∈ [i * tile_width grid + j, (i - 1) * tile_width grid + j,
          (i + 1) * tile_width grid + j, i * tile_width grid + j + 1,
          i * tile_width grid + j - 1], 0 ≤ k ∧ k < grid.dim_y * grid.dim_x) ∧
      (i * tile_width grid ≤ i * tile_width grid + j - 1 ∧
        i * tile_width grid + j + 1 < (i + 1) * tile_width grid)) ∧
    (∀ (st st' : State K) (hamiltonian : Hamiltonian K)
      (hamilt_pot : Int → Int → Lattice K → K) (external_pot : Option (Int → K)) (norm2 : K)
      (global : Bool) (peers : Int → K),
      st.grid = grid → st'.grid = grid → agree_on_tile grid st st' →
      calculate_kinetic_energy grid st hamiltonian norm2 global peers =
          calculate_kinetic_energy grid st' hamiltonian norm2 global peers ∧
        calculate_rotational_energy grid st hamiltonian norm2 global peers =
          calculate_rotational_energy grid st' hamiltonian norm2 global peers ∧
        calculate_total_energy grid st hamiltonian hamilt_pot external_pot norm2 global peers =
          calculate_total_energy grid st' hamiltonian hamilt_pot external_pot norm2 global
            peers ∧
        calculate_mean_momentum grid st norm2 = calculate_mean_momentum grid st' norm2) := by
  refine ⟨?_, ?_⟩
  · intro i j hi1 hi2 hj1 hj2
    obtain ⟨b1, b2, b3, b4⟩ := stencil_cell_bounds grid coord_x ndim_x length_x halo_x pb_x
      coord_y ndim_y length_y halo_y pb_y hhx hhy hbx hby hdx hdy i j hi1 hi2 hj1 hj2
    have htw : tile_width grid = grid.dim_x := by rw [tile_width, hdx]
    rw [htw]
    exact ⟨⟨b1, b2, b3, b4⟩, stencil_indices_inside grid.dim_x grid.dim_y i j b1 b2 b3 b4⟩
  · intro st st' hamiltonian hamilt_pot external_pot norm2 global peers hst hst' hagree
    have ix := inner_inside_tile coord_x ndim_x length_x halo_x pb_x hhx
    have iy := inner_inside_tile coord_y ndim_y length_y halo_y pb_y hhy
    rw [hbx] at ix
    rw [hby] at iy
    have hnorm : ∀ q : Int → K,
        st.calculate_squared_norm false q = st'.calculate_squared_norm false q :=
      fun q => calculate_squared_norm_agree grid st st' q hst hst' hagree hdx hdy
        ix.1 ix.2 iy.1 iy.2
    have hloop := fun (σ : Type) (body body' : Int → Int → σ → σ) (init : σ) =>
      stencil_loop_congr grid coord_x ndim_x length_x halo_x pb_x coord_y ndim_y length_y
        halo_y pb_y hhx hhy hbx hby hdx hdy body body' init
    refine ⟨?_, ?_, ?_, ?_⟩
    · simp only [calculate_kinetic_energy, hnorm]
      rw [hloop _ (fun i j acc1 => acc1 + kinetic_term grid st hamiltonian i j)
        (fun i j acc1 => acc1 + kinetic_term grid st' hamiltonian i j) 0
        (fun i j h1 h2 h3 h4 => congrArg (fun (t : Cplx K) (acc1 : Cplx K) => acc1 + t)
          (kinetic_term_agree grid st st' hamiltonian hagree hdx i j h1 h2 h3 h4))]
    · simp only [calculate_rotational_energy, hnorm]
      rw [hloop _ (fun i j acc1 => acc1 + rotational_term grid st hamiltonian i j)
        (fun i j acc1 => acc1 + rotational_term grid st' hamiltonian i j) 0
        (fun i j h1 h2 h3 h4 => congrArg (fun (t : Cplx K) (acc1 : Cplx K) => acc1 + t)
          (rotational_term_agree grid st st' hamiltonian hagree hdx i j h1 h2 h3 h4))]
    · simp only [calculate_total_energy, hnorm]
      rw [hloop _
        (fun i j acc1 =>
          acc1 + total_energy_term grid st hamiltonian hamilt_pot external_pot i j)
        (fun i j acc1 =>
          acc1 + total_energy_term grid st' hamiltonian hamilt_pot external_pot i j) 0
        (fun i j h1 h2 h3 h4 => congrArg (fun (t : Cplx K) (acc1 : Cplx K) => acc1 + t)
          (total_energy_term_agree grid st st' hamiltonian hamilt_pot external_pot hagree
            hdx i j h1 h2 h3 h4))]
    · simp only [calculate_mean_momentum, hnorm]
      rw [hloop (MomentumSums K)
        (fun i j acc1 =>
          ({ sum_px_mean := acc1.sum_px_mean + (momentum_terms grid st i j).sum_px_mean,
             sum_py_mean := acc1.sum_py_mean + (momentum_terms grid st i j).sum_py_mean,
             sum_pxpx_mean := acc1.sum_pxpx_mean + (momentum_terms grid st i j).sum_pxpx_mean,
             sum_pypy_mean :=
               acc1.sum_pypy_mean + (momentum_terms grid st i j).sum_pypy_mean } :
            MomentumSums K))
        (fun i j acc1 =>
          ({ sum_px_mean := acc1.sum_px_mean + (momentum_terms grid st' i j).sum_px_mean,
             sum_py_mean := acc1.sum_py_mean + (momentum_terms grid st' i j).sum_py_mean,
             sum_pxpx_mean := acc1.sum_pxpx_mean + (momentum_terms grid st' i j).sum_pxpx_mean,
             sum_pypy_mean :=
               acc1.sum_pypy_mean + (momentum_terms grid st' i j).sum_pypy_mean } :
            MomentumSums K))
        _
        (fun i j h1 h2 h3 h4 =>
          congrArg (fun (m : MomentumSums K) (acc1 : MomentumSums K) =>
            ({ sum_px_mean := acc1.sum_px_mean + m.sum_px_mean,
               sum_py_mean := acc1.sum_py_mean + m.sum_py_mean,
               sum_pxpx_mean := acc1.sum_pxpx_mean + m.sum_pxpx_mean,
               sum_pypy_mean := acc1.sum_pypy_mean + m.sum_pypy_mean } : MomentumSums K))
            (momentum_terms_agree grid st st' hagree hdx i j h1 h2 h3 h4))]

/-- Witness for C10: the single-node non-periodic lattice of logical size 10 over the
rationals (tile 10 × 10, stencil loops over rows and columns 1 to 8) at the first visited cell
`(1, 1)`. -/
theorem stencil_reads_inside_tile_witness :
    (1 : Int) ≤ 1 ∧ (1 : Int) ≤
      (Lattice.Lattice MPIEnv.single 10 (1 : ℚ) 1 none 0).dim_y - 2 ∧
    (1 : Int) ≤ 1 ∧ (1 : Int) ≤
      (Lattice.Lattice MPIEnv.single 10 (1 : ℚ) 1 none 0).dim_x - 2 :=
  ((stencil_reads_inside_tile (Lattice.Lattice MPIEnv.single 10 (1 : ℚ) 1 none 0)
    0 1 10 4 0 0 1 10 4 0 (by decide) (by decide) (by rfl) (by rfl) (by rfl)
    (by rfl)).1 1 1 (by decide) (by decide) (by decide) (by decide)).1

end StencilReductions
/-! ### Block sizes and edges of `calculate_borders` (C14 – C18) -/

/-- Closed form of the halo-inclusive bounds. -/
theorem start_end_eq (coord dim length halo pb : Int) :
    (calculate_borders coord dim length halo pb).start =
        (if pb ≠ 0 then coord * ceil_div length dim - halo
         else if coord = 0 then 0 else coord * ceil_div length dim - halo) ∧
      (calculate_borders coord dim length halo pb).end_ =
        (if length < coord * ceil_div length dim + ceil_div length dim + halo then
          (if pb ≠ 0 then length + halo else length)
         else coord * ceil_div length dim + ceil_div length dim + halo) := by
  simp only [calculate_borders]
  generalize ceil_div length dim = b
  generalize coord * b = s
  constructor
  · trivial
  · split_ifs <;> omega

/-- C16: on a non-periodic axis the first node (`coord = 0`) gets `start = 0 = inner_start`;
on a periodic axis (`periodic_bound ≠ 0`) every node gets `start = inner_start - halo`, so
`coord = 0` gets `start = -halo`. -/
theorem calculate_borders_lower_edge (coord dim length halo periodic_bound : Int)
    (hp : periodic_bound ≠ 0) :
    (calculate_borders 0 dim length halo 0).start = 0 ∧
    (calculate_borders 0 dim length halo 0).inner_start = 0 ∧
    (calculate_borders coord dim length halo periodic_bound).start =
      (calculate_borders coord dim length halo periodic_bound).inner_start - halo ∧
    (calculate_borders 0 dim length halo periodic_bound).start = -halo := by
  simp only [calculate_borders, hp, zero_mul, zero_sub, ne_eq, not_true_eq_false,
    not_false_eq_true, if_true, if_false, and_self]

/-- Witness for C16: three nodes on a periodic axis of length 30 with halo 4; node 1 has
`start = 6 = inner_start - 4`, node 0 has `start = -4`. -/
theorem calculate_borders_lower_edge_witness :
    (calculate_borders 1 3 30 4 1).start = (calculate_borders 1 3 30 4 1).inner_start - 4 ∧
    (calculate_borders 0 3 30 4 1).start = -4 :=
  ⟨(calculate_borders_lower_edge 1 3 30 4 1 (by decide)).2.2.1,
    (calculate_borders_lower_edge 1 3 30 4 1 (by decide)).2.2.2⟩

/-- C17: on a non-periodic axis, for `length ≥ 0`, `dim ≥ 1` and `halo ≥ 0`, the last node
(`coord = dim - 1`) gets `end = length` and `inner_end = length`. -/
theorem calculate_borders_upper_edge_nonperiodic (dim length halo : Int)
    (_hl : 0 ≤ length) (hd : 1 ≤ dim) (hh : 0 ≤ halo) :
    (calculate_borders (dim - 1) dim length halo 0).end_ = length ∧
    (calculate_borders (dim - 1) dim length halo 0).inner_end = length := by
  have hge := ceil_div_mul_ge length dim hd
  have e : (dim - 1) * ceil_div length dim + ceil_div length dim =
      ceil_div length dim * dim := by ring
  rw [inner_end_eq, (start_end_eq (dim - 1) dim length halo 0).2]
  generalize (dim - 1) * ceil_div length dim = s at e
  generalize ceil_div length dim * dim = t at e hge
  generalize ceil_div length dim = b at e ⊢
  constructor <;> split_ifs <;> omega

/-- Witness for C17: the last of three nodes on a non-periodic axis of length 10 with
halo 4. -/
theorem calculate_borders_upper_edge_nonperiodic_witness :
    (calculate_borders (3 - 1) 3 10 4 0).end_ = 10 ∧
    (calculate_borders (3 - 1) 3 10 4 0).inner_end = 10 :=
  calculate_borders_upper_edge_nonperiodic 3 10 4 (by decide) (by decide) (by decide)

/-- C18 (as amended): on a periodic axis (`periodic_bound ≠ 0`), for `length ≥ 0`, `dim ≥ 1`
and `halo ≥ 0`, the last node (`coord = dim - 1`) gets `end = length + halo` (the tile reaches
`halo` cells beyond the logical axis) and `inner_end = length`; its `end` is `length` only
when `halo = 0`. -/
theorem calculate_borders_upper_edge_periodic (dim length halo periodic_bound : Int)
    (_hl : 0 ≤ length) (hd : 1 ≤ dim) (hh : 0 ≤ halo) (hp : periodic_bound ≠ 0) :
    (calculate_borders (dim - 1) dim length halo periodic_bound).end_ = length + halo ∧
    (calculate_borders (dim - 1) dim length halo periodic_bound).inner_end = length ∧
    ((calculate_borders (dim - 1) dim length halo periodic_bound).end_ = length ↔
      halo = 0) := by
  have hge := ceil_div_mul_ge length dim hd
  have e : (dim - 1) * ceil_div length dim + ceil_div length dim =
      ceil_div length dim * dim := by ring
  rw [inner_end_eq, (start_end_eq (dim - 1) dim length halo periodic_bound).2]
  generalize (dim - 1) * ceil_div length dim = s at e
  generalize ceil_div length dim * dim = t at e hge
  generalize ceil_div length dim = b at e ⊢
  simp only [hp, ne_eq, not_false_eq_true, if_true]
  refine ⟨?_, ?_, ?_⟩ <;> split_ifs <;> omega

/-- Witness for C18: the last of two nodes on a periodic axis of length 10 with halo 4 has
`end = 14` and `inner_end = 10`. -/
theorem calculate_borders_upper_edge_periodic_witness :
    (calculate_borders (2 - 1) 2 10 4 1).end_ = 10 + 4 ∧
    (calculate_borders (2 - 1) 2 10 4 1).inner_end = 10 :=
  ⟨(calculate_borders_upper_edge_periodic 2 10 4 1 (by decide) (by decide) (by decide)
      (by decide)).1,
    (calculate_borders_upper_edge_periodic 2 10 4 1 (by decide) (by decide) (by decide)
      (by decide)).2.1⟩

/-- Counterexample to C18 as stated: the last of two nodes on a periodic axis of length 10
with halo 4 gets `end = 14`, not `length = 10`. -/
theorem calculate_borders_upper_edge_periodic_counterexample :
    (calculate_borders 1 2 10 4 1).end_ = 14 ∧ (calculate_borders 1 2 10 4 1).end_ ≠ 10 := by
  decide

/-! ### Lattice on a single node (C19) -/

section LatticeGeometry

variable {K : Type}

/-- The block size for a single node is the whole axis. -/
theorem ceil_div_one (length : Int) : ceil_div length 1 = length := by
  unfold ceil_div
  rw [Int.ediv_one, neg_neg]

/-- The geometry `calculate_borders` gives a single node, for a periodicity flag in `{0, 1}`
and a positive halo. -/
theorem single_node_borders (length halo p : Int) (hh : 0 < halo) (hp : p = 0 ∨ p = 1) :
    calculate_borders 0 1 length halo p =
      { start := -(p * halo), end_ := length + p * halo, inner_start := 0,
        inner_end := length } := by
  simp only [calculate_borders, ceil_div_one, zero_mul, zero_add, zero_sub, if_true]
  rcases hp with hp | hp
  · subst hp
    simp
    all_goals omega
  · subst hp
    simp

/-- C19: the `Lattice` constructor sets `halo_x = halo_y = 4` when `omega = 0` and `8`
otherwise, `global_dim_x = dim + 2 * halo_x * periods[1]` and
`global_dim_y = dim + 2 * halo_y * periods[0]`; built for one node with periodicity flags in
`{0, 1}`, the tile is the whole padded grid (`dim_x = global_dim_x`, `dim_y = global_dim_y`),
the inner region is `[0, dim)` on both axes, and `start` is `-halo` on a periodic axis and `0`
on a non-periodic one. -/
theorem Lattice_single_node [Zero K] [DecidableEq K] (mpi : MPIEnv) (dim : Int)
    (delta_x delta_y : K) (periods : Option (Int × Int)) (omega : K)
    (hp0 : (Lattice.Lattice MPIEnv.single dim delta_x delta_y periods omega).periods.1 = 0 ∨
      (Lattice.Lattice MPIEnv.single dim delta_x delta_y periods omega).periods.1 = 1)
    (hp1 : (Lattice.Lattice MPIEnv.single dim delta_x delta_y periods omega).periods.2 = 0 ∨
      (Lattice.Lattice MPIEnv.single dim delta_x delta_y periods omega).periods.2 = 1) :
    ((Lattice.Lattice mpi dim delta_x delta_y periods omega).halo_x =
        (if omega = 0 then 4 else 8) ∧
      (Lattice.Lattice mpi dim delta_x delta_y periods omega).halo_y =
        (if omega = 0 then 4 else 8) ∧
      (Lattice.Lattice mpi dim delta_x delta_y periods omega).global_dim_x =
        dim + 2 * (Lattice.Lattice mpi dim delta_x delta_y periods omega).halo_x *
          (Lattice.Lattice mpi dim delta_x delta_y periods omega).periods.2 ∧
      (Lattice.Lattice mpi dim delta_x delta_y periods omega).global_dim_y =
        dim + 2 * (Lattice.Lattice mpi dim delta_x delta_y periods omega).halo_y *
          (Lattice.Lattice mpi dim delta_x delta_y periods omega).periods.1) ∧
    ((Lattice.Lattice MPIEnv.single dim delta_x delta_y periods omega).dim_x =
        (Lattice.Lattice MPIEnv.single dim delta_x delta_y periods omega).global_dim_x ∧
      (Lattice.Lattice MPIEnv.single dim delta_x delta_y periods omega).dim_y =
        (Lattice.Lattice MPIEnv.single dim delta_x delta_y periods omega).global_dim_y ∧
      (Lattice.Lattice MPIEnv.single dim delta_x delta_y periods omega).inner_start_x = 0 ∧
      (Lattice.Lattice MPIEnv.single dim delta_x delta_y periods omega).inner_end_x = dim ∧
      (Lattice.Lattice MPIEnv.single dim delta_x delta_y periods omega).inner_start_y = 0 ∧
      (Lattice.Lattice MPIEnv.single dim delta_x delta_y periods omega).inner_end_y = dim ∧
      (Lattice.Lattice MPIEnv.single dim delta_x delta_y periods omega).start_x =
        (if (Lattice.Lattice MPIEnv.single dim delta_x delta_y periods omega).periods.2 ≠ 0
          then -(Lattice.Lattice MPIEnv.single dim delta_x delta_y periods omega).halo_x
          else 0) ∧
      (Lattice.Lattice MPIEnv.single dim delta_x delta_y periods omega).start_y =
        (if (Lattice.Lattice MPIEnv.single dim delta_x delta_y periods omega).periods.1 ≠ 0
          then -(Lattice.Lattice MPIEnv.single dim delta_x delta_y periods omega).halo_y
          else 0)) := by
  obtain ⟨gx, gy, hdx, hdy, -, -⟩ :=
    Lattice_geometry MPIEnv.single dim delta_x delta_y periods omega
  have hhx : 0 < (Lattice.Lattice MPIEnv.single dim delta_x delta_y periods omega).halo_x := by
    simp only [Lattice.Lattice]; split_ifs <;> decide
  have hhy : 0 < (Lattice.Lattice MPIEnv.single dim delta_x delta_y periods omega).halo_y := by
    simp only [Lattice.Lattice]; split_ifs <;> decide
  have hgx : (Lattice.Lattice MPIEnv.single dim delta_x delta_y periods omega).global_dim_x =
      dim + 2 * (Lattice.Lattice MPIEnv.single dim delta_x delta_y periods omega).halo_x *
        (Lattice.Lattice MPIEnv.single dim delta_x delta_y periods omega).periods.2 := by
    simp only [Lattice.Lattice]; ring
  have hgy : (Lattice.Lattice MPIEnv.single dim delta_x delta_y periods omega).global_dim_y =
      dim + 2 * (Lattice.Lattice MPIEnv.single dim delta_x delta_y periods omega).halo_y *
        (Lattice.Lattice MPIEnv.single dim delta_x delta_y periods omega).periods.1 := by
    simp only [Lattice.Lattice]; ring
  have sx := single_node_borders dim _ _ hhx hp1
  have sy := single_node_borders dim _ _ hhy hp0
  rw [show MPIEnv.single.mpi_coords.2 = 0 from rfl, show MPIEnv.single.mpi_dims.2 = 1 from rfl,
    sx] at gx
  rw [show MPIEnv.single.mpi_coords.1 = 0 from rfl, show MPIEnv.single.mpi_dims.1 = 1 from rfl,
    sy] at gy
  injection gx with g1 g2 g3 g4
  injection gy with g5 g6 g7 g8
  refine ⟨⟨?_, ?_, ?_, ?_⟩, ?_⟩
  · rfl
  · rfl
  · simp only [Lattice.Lattice]; ring
  · simp only [Lattice.Lattice]; ring
  · rw [hdx, hdy, hgx, hgy, ← g1, ← g2, ← g3, ← g4, ← g5, ← g6, ← g7, ← g8]
    refine ⟨by ring, by ring, rfl, rfl, rfl, rfl, ?_, ?_⟩
    · rcases hp1 with h | h <;> rw [h] <;> simp
    · rcases hp0 with h | h <;> rw [h] <;> simp

/-- Witness for C19: logical size 10, periodic in `y` only, `omega = 0`: the tile is
10 columns by 18 rows and starts at row `-4`, column `0`. -/
theorem Lattice_single_node_witness :
    (Lattice.Lattice MPIEnv.single 10 (1 : Int) 1 (some (1, 0)) 0).dim_x =
        (Lattice.Lattice MPIEnv.single 10 (1 : Int) 1 (some (1, 0)) 0).global_dim_x ∧
      (Lattice.Lattice MPIEnv.single 10 (1 : Int) 1 (some (1, 0)) 0).dim_y =
        (Lattice.Lattice MPIEnv.single 10 (1 : Int) 1 (some (1, 0)) 0).global_dim_y ∧
      (Lattice.Lattice MPIEnv.single 10 (1 : Int) 1 (some (1, 0)) 0).dim_y = 18 ∧
      (Lattice.Lattice MPIEnv.single 10 (1 : Int) 1 (some (1, 0)) 0).start_y = -4 :=
  ⟨(Lattice_single_node MPIEnv.single 10 (1 : Int) 1 (some (1, 0)) 0 (by decide)
      (by decide)).2.1,
    (Lattice_single_node MPIEnv.single 10 (1 : Int) 1 (some (1, 0)) 0 (by decide)
      (by decide)).2.2.1, by decide, by decide⟩

end LatticeGeometry
/-! ### `init_state` over the whole tile (C13) -/

/-- C13: after `init_state(f)`, for every `0 ≤ x < dim_x` and `0 ≤ y < dim_y` the cells
`p_real[y * dim_x + x]` and `p_imag[y * dim_x + x]` hold the real and imaginary part of
`f(start_x + x, start_y + y, grid)`; the range covers the whole tile, halo cells included. -/
theorem init_state_samples_tile {K : Type} (st : State K)
    (ini_state : Int → Int → Lattice K → Cplx K) (x y : Int)
    (hx0 : 0 ≤ x) (hx1 : x < st.grid.dim_x) (hy0 : 0 ≤ y) (hy1 : y < st.grid.dim_y) :
    (st.init_state ini_state).p_real (y * st.grid.dim_x + x) =
        (ini_state (st.grid.start_x + x) (st.grid.start_y + y) st.grid).re ∧
      (st.init_state ini_state).p_imag (y * st.grid.dim_x + x) =
        (ini_state (st.grid.start_x + x) (st.grid.start_y + y) st.grid).im :=
  init_state_apply st ini_state x y hx0 hx1 hy0 hy1

/-- Witness for C13: the 3 × 3 single-node tile with the field `f(x, y) = (x + 10 y) + i y`;
the cell in row 2, column 1 holds `21 + 2i`. -/
theorem init_state_samples_tile_witness :
    ((blank_state MPIEnv.single 3).init_state (fun x y _ => ⟨x + 10 * y, y⟩)).p_real
        (2 * (blank_state MPIEnv.single 3).grid.dim_x + 1) =
      ((fun x y _ => ⟨x + 10 * y, y⟩ : Int → Int → Lattice Int → Cplx Int)
        ((blank_state MPIEnv.single 3).grid.start_x + 1)
        ((blank_state MPIEnv.single 3).grid.start_y + 2)
        (blank_state MPIEnv.single 3).grid).re ∧
    ((blank_state MPIEnv.single 3).init_state (fun x y _ => ⟨x + 10 * y, y⟩)).p_real 7 = 21 ∧
    ((blank_state MPIEnv.single 3).init_state (fun x y _ => ⟨x + 10 * y, y⟩)).p_imag 7 = 2 :=
  ⟨(init_state_samples_tile (blank_state MPIEnv.single 3) (fun x y _ => ⟨x + 10 * y, y⟩) 1 2
      (by decide) (by decide) (by decide) (by decide)).1, by decide, by decide⟩

/-! ### Loops that write index-determined values -/

/-- If every iteration either gives the observed quantity the value `V` or leaves it alone,
the loop does the same. -/
theorem for_range_obs_sound {σ β : Type} (obs : σ → β) (V : β) (lo hi : Int)
    (step : Int → σ → σ) (init : σ)
    (hsound : ∀ k, lo ≤ k → k < hi → ∀ q, obs (step k q) = V ∨ obs (step k q) = obs q) :
    obs (for_range lo hi step init) = V ∨ obs (for_range lo hi step init) = obs init := by
  unfold for_range
  have key : ∀ n : Nat, n ≤ (hi - lo).toNat →
      (obs ((List.range n).foldl (fun s (k : Nat) => step (lo + (k : Int)) s) init) = V ∨
        obs ((List.range n).foldl (fun s (k : Nat) => step (lo + (k : Int)) s) init) =
          obs init) := by
    intro n
    induction n with
    | zero => intro _; exact Or.inr rfl
    | succ n ih =>
      intro hn
      rw [List.range_succ, List.foldl_append, List.foldl_cons, List.foldl_nil]
      rcases hsound (lo + (n : Int)) (by omega) (by omega)
        ((List.range n).foldl (fun s (k : Nat) => step (lo + (k : Int)) s) init) with h | h
      · exact Or.inl h
      · rw [h]; exact ih (by omega)
  exact key _ (le_refl _)

/-- If moreover some iteration `k0` of the range gives the observed quantity the value `V`
whatever the state, the loop ends with the value `V`. -/
theorem for_range_obs_complete {σ β : Type} (obs : σ → β) (V : β) (lo hi : Int)
    (step : Int → σ → σ) (init : σ) (k0 : Int) (hk0 : lo ≤ k0) (hk1 : k0 < hi)
    (hset : ∀ q, obs (step k0 q) = V)
    (hsound : ∀ k, lo ≤ k → k < hi → ∀ q, obs (step k q) = V ∨ obs (step k q) = obs q) :
    obs (for_range lo hi step init) = V := by
  unfold for_range
  have key : ∀ n : Nat, n ≤ (hi - lo).toNat → k0 < lo + (n : Int) →
      obs ((List.range n).foldl (fun s (k : Nat) => step (lo + (k : Int)) s) init) = V := by
    intro n
    induction n with
    | zero => intro _ h; omega
    | succ n ih =>
      intro hn hlt
      rw [List.range_succ, List.foldl_append, List.foldl_cons, List.foldl_nil]
      by_cases hk : k0 = lo + (n : Int)
      · rw [← hk, hset]
      · rcases hsound (lo + (n : Int)) (by omega) (by omega)
          ((List.range n).foldl (fun s (k : Nat) => step (lo + (k : Int)) s) init) with h | h
        · exact h
        · rw [h]; exact ih (by omega) (by omega)
  exact key _ (le_refl _) (by omega)

/-! ### `get_phase` (C20) -/

section Phase

variable {K : Type} [LinearOrderedField K]

/-- After `get_phase`, the entry of every inner cell is the phase value of that cell. -/
theorem get_phase_apply (sqrt acos : K → K) (st : State K) (_phase : Option (Int → K))
    (fresh : Int → K) (j i : Int)
    (hj0 : st.grid.inner_start_y - st.grid.start_y ≤ j)
    (hj1 : j < st.grid.inner_end_y - st.grid.start_y)
    (hi0 : st.grid.inner_start_x - st.grid.start_x ≤ i)
    (hi1 : i < st.grid.inner_end_x - st.grid.start_x) :
    st.get_phase sqrt acos _phase fresh (j * st.grid.dim_x + i) =
      phase_of sqrt acos (st.p_real (j * st.grid.dim_x + i))
        (st.p_imag (j * st.grid.dim_x + i)) := by
  unfold State.get_phase
  have hcell : ∀ (j' i' : Int) (q : Int → K),
      Function.update q (j' * st.grid.dim_x + i')
          (phase_of sqrt acos (st.p_real (j' * st.grid.dim_x + i'))
            (st.p_imag (j' * st.grid.dim_x + i'))) (j * st.grid.dim_x + i) =
        phase_of sqrt acos (st.p_real (j * st.grid.dim_x + i))
          (st.p_imag (j * st.grid.dim_x + i)) ∨
      Function.update q (j' * st.grid.dim_x + i')
          (phase_of sqrt acos (st.p_real (j' * st.grid.dim_x + i'))
            (st.p_imag (j' * st.grid.dim_x + i'))) (j * st.grid.dim_x + i) =
        q (j * st.grid.dim_x + i) := by
    intro j' i' q
    by_cases h : j * st.grid.dim_x + i = j' * st.grid.dim_x + i'
    · left; rw [← h, Function.update_same]
    · right; exact Function.update_noteq h _ _
  refine for_range_obs_complete (fun ph : Int → K => ph (j * st.grid.dim_x + i)) _ _ _ _ _ j
    hj0 hj1 ?_ ?_
  · intro q
    refine for_range_obs_complete (fun ph : Int → K => ph (j * st.grid.dim_x + i)) _ _ _ _ _ i
      hi0 hi1 ?_ ?_
    · intro q1
      exact Function.update_same _ _ _
    · intro k _ _ q1
      exact hcell j k q1
  · intro k _ _ q
    refine for_range_obs_sound (fun ph : Int → K => ph (j * st.grid.dim_x + i)) _ _ _ _ _ ?_
    intro k' _ _ q1
    exact hcell k k' q1

end Phase

/-- Over the reals, with the square root and the arc cosine, the phase value of `re + i im`
is the argument of the complex number unless it lies on the negative real axis. -/
theorem phase_of_eq_arg (re im : ℝ) (h : im ≠ 0 ∨ 0 ≤ re) :
    phase_of Real.sqrt Real.arccos re im = Complex.arg ⟨re, im⟩ := by
  unfold phase_of
  have habs : Real.sqrt (re * re + im * im) = Complex.abs ⟨re, im⟩ := by
    rw [Complex.abs_apply, Complex.normSq_apply]
  simp only []
  by_cases hz : (⟨re, im⟩ : ℂ) = 0
  · have hre : re = 0 := by simpa using congrArg Complex.re hz
    have him : im = 0 := by simpa using congrArg Complex.im hz
    subst hre; subst him
    simp [Complex.arg_zero, show (⟨0, 0⟩ : ℂ) = 0 from rfl]
  · have hn : Real.sqrt (re * re + im * im) ≠ 0 := by
      rw [habs]; exact (map_ne_zero Complex.abs).mpr hz
    rw [if_neg hn, habs]
    rcases lt_trichotomy im 0 with him | him | him
    · have e := Complex.arg_of_im_neg (z := ⟨re, im⟩) him
      have s1 : ¬ im > 0 := by linarith
      simp only [s1, him, if_true, if_false] at e ⊢
      rw [e]; simp
    · subst him
      have hre : 0 ≤ re := by
        rcases h with h | h
        · exact absurd rfl h
        · exact h
      have e : Complex.arg ⟨re, 0⟩ = 0 := Complex.arg_ofReal_of_nonneg hre
      rw [e]; simp
    · have e := Complex.arg_of_im_pos (z := ⟨re, im⟩) him
      have s1 : ¬ im < 0 := by linarith
      simp only [s1, him, if_true, if_false] at e ⊢
      rw [e]; simp



/-- C20: over the reals, with the square root and the arc cosine of real analysis,
`get_phase` writes at every inner cell whose value `re + i im` is off the negative real axis
(`im ≠ 0` or `re ≥ 0`) the argument of that value, a number of `(-π, π]`; the value written is
`0` for `ψ = 0`, `0` for `ψ = 1` and `π / 2` for `ψ = i`. -/
theorem get_phase_is_arg (st : State ℝ) (_phase : Option (Int → ℝ)) (fresh : Int → ℝ)
    (j i : Int)
    (hj0 : st.grid.inner_start_y - st.grid.start_y ≤ j)
    (hj1 : j < st.grid.inner_end_y - st.grid.start_y)
    (hi0 : st.grid.inner_start_x - st.grid.start_x ≤ i)
    (hi1 : i < st.grid.inner_end_x - st.grid.start_x)
    (h : st.p_imag (j * st.grid.dim_x + i) ≠ 0 ∨ 0 ≤ st.p_real (j * st.grid.dim_x + i)) :
    st.get_phase Real.sqrt Real.arccos _phase fresh (j * st.grid.dim_x + i) =
        Complex.arg ⟨st.p_real (j * st.grid.dim_x + i), st.p_imag (j * st.grid.dim_x + i)⟩ ∧
      -Real.pi < st.get_phase Real.sqrt Real.arccos _phase fresh (j * st.grid.dim_x + i) ∧
      st.get_phase Real.sqrt Real.arccos _phase fresh (j * st.grid.dim_x + i) ≤ Real.pi ∧
      (st.p_real (j * st.grid.dim_x + i) = 0 ∧ st.p_imag (j * st.grid.dim_x + i) = 0 →
        st.get_phase Real.sqrt Real.arccos _phase fresh (j * st.grid.dim_x + i) = 0) ∧
      (st.p_real (j * st.grid.dim_x + i) = 1 ∧ st.p_imag (j * st.grid.dim_x + i) = 0 →
        st.get_phase Real.sqrt Real.arccos _phase fresh (j * st.grid.dim_x + i) = 0) ∧
      (st.p_real (j * st.grid.dim_x + i) = 0 ∧ st.p_imag (j * st.grid.dim_x + i) = 1 →
        st.get_phase Real.sqrt Real.arccos _phase fresh (j * st.grid.dim_x + i) =
          Real.pi / 2) := by
  have e : st.get_phase Real.sqrt Real.arccos _phase fresh (j * st.grid.dim_x + i) =
      Complex.arg ⟨st.p_real (j * st.grid.dim_x + i), st.p_imag (j * st.grid.dim_x + i)⟩ := by
    rw [get_phase_apply Real.sqrt Real.arccos st _phase fresh j i hj0 hj1 hi0 hi1]
    exact phase_of_eq_arg _ _ h
  rw [e]
  refine ⟨rfl, Complex.neg_pi_lt_arg _, Complex.arg_le_pi _, ?_, ?_, ?_⟩
  · rintro ⟨h1, h2⟩
    rw [h1, h2]
    exact Complex.arg_zero
  · rintro ⟨h1, h2⟩
    rw [h1, h2]
    exact Complex.arg_one
  · rintro ⟨h1, h2⟩
    rw [h1, h2]
    exact Complex.arg_I

/-- Witness of C20: on the single-node lattice of size 3 filled with `ψ = i`, the inner cell
`(1, 1)` receives `π / 2`. -/
theorem get_phase_is_arg_witness :
    State.get_phase Real.sqrt Real.arccos
        { grid := Lattice.Lattice MPIEnv.single 3 (1 : ℝ) 1 none 0, p_real := fun _ => 0,
          p_imag := fun _ => 1, self_init := false } none (fun _ => 0)
        (1 * (Lattice.Lattice MPIEnv.single 3 (1 : ℝ) 1 none 0).dim_x + 1) = Real.pi / 2 :=
  (get_phase_is_arg
    { grid := Lattice.Lattice MPIEnv.single 3 (1 : ℝ) 1 none 0, p_real := fun _ => 0,
      p_imag := fun _ => 1, self_init := false } none (fun _ => 0) 1 1
    (by simp [Lattice.Lattice, calculate_borders, MPIEnv.single, ceil_div])
    (by simp [Lattice.Lattice, calculate_borders, MPIEnv.single, ceil_div])
    (by simp [Lattice.Lattice, calculate_borders, MPIEnv.single, ceil_div])
    (by simp [Lattice.Lattice, calculate_borders, MPIEnv.single, ceil_div])
    (Or.inl (by simp))).2.2.2.2.2 ⟨rfl, rfl⟩

/-! ### `read_state`: number of values consumed (C12) -/

/-- A loop whose every iteration advances the stream position by `c` advances it by `c` times
the number of iterations. -/
theorem for_range_count {σ : Type} (lo hi : Int) (c : Nat) (step : Int → σ × Nat → σ × Nat)
    (init : σ × Nat) (hstep : ∀ k s, (step k s).2 = s.2 + c) :
    (for_range lo hi step init).2 = init.2 + c * (hi - lo).toNat := by
  unfold for_range
  generalize (hi - lo).toNat = n
  induction n with
  | zero => simp
  | succ n ih =>
    rw [List.range_succ, List.foldl_append, List.foldl_cons, List.foldl_nil, hstep, ih]
    ring

/-- The skip loop of `read_state` extracts `read_offset` values. -/
theorem skip_loop_count (read_offset : Int) :
    for_range 0 read_offset (fun _ (pos : Nat) => pos + 1) 0 = read_offset.toNat := by
  unfold for_range
  rw [sub_zero]
  generalize read_offset.toNat = n
  induction n with
  | zero => rfl
  | succ n ih =>
    rw [List.range_succ, List.foldl_append, List.foldl_cons, List.foldl_nil, ih]

section ReadCount

variable {K : Type}

/-- Number of values `read_state` extracts, with the clamping of empty loops made explicit. -/
theorem read_state_count (st : State K) (input : Nat → Cplx K) (read_offset : Int) :
    (st.read_state input read_offset).2 =
      read_offset.toNat +
        (st.grid.global_dim_x - 2 * st.grid.periods.2 * st.grid.halo_x).toNat *
          (st.grid.global_dim_y - 2 * st.grid.periods.1 * st.grid.halo_y).toNat := by
  unfold State.read_state
  simp only []
  rw [for_range_count 0 _ (st.grid.global_dim_x - 2 * st.grid.periods.2 * st.grid.halo_x).toNat]
  · rw [skip_loop_count, sub_zero]
  · intro i s
    rw [for_range_count 0 _ 1]
    · rw [sub_zero, one_mul]
    · intro j s1
      rfl

/-- C12 (amended): for `read_offset ≥ 0` and non-negative logical sizes, `read_state` extracts
`read_offset + in_width * in_height` values from the stream, where
`in_width = global_dim_x - 2 * periods[1] * halo_x` and
`in_height = global_dim_y - 2 * periods[0] * halo_y` are the logical sizes of the lattice; on a
non-periodic lattice this is `read_offset + global_dim_x * global_dim_y`. -/
theorem read_state_values_consumed (st : State K) (input : Nat → Cplx K) (read_offset : Int)
    (hr : 0 ≤ read_offset)
    (hw : 0 ≤ st.grid.global_dim_x - 2 * st.grid.periods.2 * st.grid.halo_x)
    (hh : 0 ≤ st.grid.global_dim_y - 2 * st.grid.periods.1 * st.grid.halo_y) :
    (((st.read_state input read_offset).2 : Nat) : Int) =
        read_offset +
          (st.grid.global_dim_x - 2 * st.grid.periods.2 * st.grid.halo_x) *
            (st.grid.global_dim_y - 2 * st.grid.periods.1 * st.grid.halo_y) ∧
      (st.grid.periods = (0, 0) →
        (((st.read_state input read_offset).2 : Nat) : Int) =
          read_offset + st.grid.global_dim_x * st.grid.global_dim_y) := by
  have e : (((st.read_state input read_offset).2 : Nat) : Int) =
        read_offset +
          (st.grid.global_dim_x - 2 * st.grid.periods.2 * st.grid.halo_x) *
            (st.grid.global_dim_y - 2 * st.grid.periods.1 * st.grid.halo_y) := by
    rw [read_state_count]
    push_cast
    rw [Int.toNat_of_nonneg hr, Int.toNat_of_nonneg hw, Int.toNat_of_nonneg hh]
  refine ⟨e, ?_⟩
  intro hp
  rw [e, hp]
  simp

end ReadCount

set_option maxRecDepth 100000 in
/-- Witness of C12: on the non-periodic single-node lattice of size 3, `read_state` with
`read_offset = 2` extracts `2 + 3 * 3` values. -/
theorem read_state_values_consumed_witness :
    (((State.read_state
        { grid := Lattice.Lattice MPIEnv.single 3 (1 : Int) 1 none 0, p_real := fun _ => 0,
          p_imag := fun _ => 0, self_init := false }
        (fun n => ⟨(n : Int), 0⟩) 2).2 : Nat) : Int) = 2 + 3 * 3 :=
  ((read_state_values_consumed
    { grid := Lattice.Lattice MPIEnv.single 3 (1 : Int) 1 none 0, p_real := fun _ => 0,
      p_imag := fun _ => 0, self_init := false }
    (fun n => ⟨(n : Int), 0⟩) 2 (by decide) (by decide) (by decide)).2 rfl)

set_option maxRecDepth 100000 in
/-- Counterexample to C12 as stated: on the periodic single-node lattice of logical size 1
(`global_dim_x = global_dim_y = 9`), `read_state` with `read_offset = 0` extracts one value, not
`9 * 9`. -/
theorem read_state_values_consumed_counterexample :
    (State.read_state
        { grid := Lattice.Lattice MPIEnv.single 1 (1 : Int) 1 (some (1, 1)) 0,
          p_real := fun _ => 0, p_imag := fun _ => 0, self_init := false }
        (fun n => ⟨(n : Int), 0⟩) 0).2 = 1 ∧
      (Lattice.Lattice MPIEnv.single 1 (1 : Int) 1 (some (1, 1)) 0).global_dim_x = 9 ∧
      (Lattice.Lattice MPIEnv.single 1 (1 : Int) 1 (some (1, 1)) 0).global_dim_y = 9 ∧
      (((State.read_state
        { grid := Lattice.Lattice MPIEnv.single 1 (1 : Int) 1 (some (1, 1)) 0,
          p_real := fun _ => 0, p_imag := fun _ => 0, self_init := false }
        (fun n => ⟨(n : Int), 0⟩) 0).2 : Nat) : Int) ≠
        0 + (Lattice.Lattice MPIEnv.single 1 (1 : Int) 1 (some (1, 1)) 0).global_dim_x *
          (Lattice.Lattice MPIEnv.single 1 (1 : Int) 1 (some (1, 1)) 0).global_dim_y := by
  decide



/-! ### `read_state`: the cells written (C11) -/

/-- A loop that threads a stream position advanced by `c` at every iteration is the loop on
the state alone, each iteration being given its position. -/
theorem for_range_counter {σ : Type} (lo hi : Int) (c : Nat) (body : Int → Nat → σ → σ)
    (init : σ) (n0 : Nat) :
    for_range lo hi (fun i (s : σ × Nat) => (body i s.2 s.1, s.2 + c)) (init, n0) =
      (for_range lo hi (fun i s => body i (n0 + c * (i - lo).toNat) s) init,
        n0 + c * (hi - lo).toNat) := by
  unfold for_range
  generalize (hi - lo).toNat = n
  induction n with
  | zero => simp
  | succ n ih =>
    rw [List.range_succ, List.foldl_append, List.foldl_append, List.foldl_cons, List.foldl_nil,
      List.foldl_cons, List.foldl_nil, ih]
    simp only [add_sub_cancel_left, Int.toNat_ofNat]
    congr 1
    ring

theorem row_major_inj (d r c r' c' : Int) (hc0 : 0 ≤ c) (hc1 : c < d) (hc0' : 0 ≤ c')
    (hc1' : c' < d) (h : r * d + c = r' * d + c') : r = r' ∧ c = c' := by
  have hr : r = r' := by
    rcases lt_trichotomy r r' with hlt | heq | hgt
    · exfalso
      have : (r' - r) * d ≥ 1 * d := by
        apply mul_le_mul_of_nonneg_right <;> omega
      nlinarith
    · exact heq
    · exfalso
      have : (r - r') * d ≥ 1 * d := by
        apply mul_le_mul_of_nonneg_right <;> omega
      nlinarith
  subst hr
  exact ⟨rfl, by omega⟩

theorem emod_shift (x y len q : Int) (hy0 : 0 ≤ y) (hy1 : y < len) (hx : x = y + len * q) :
    x % len = y := by
  rw [hx, Int.add_mul_emod_self_left]
  exact Int.emod_eq_of_lt hy0 hy1

/-- On a tile that spans the axis, the local coordinates at which the value of input
coordinate `i` is stored lie in the tile and are the coordinates whose wrapped global coordinate is `i`. -/
theorem read_state_target_sound (start dim halo len coord dims period i row : Int)
    (hp : period = 0 ∨ period = 1)
    (hs : start = -(period * halo)) (hdim : dim = len + 2 * period * halo)
    (hi0 : 0 ≤ i) (hi1 : i < len)
    (ht : read_state_target start dim halo len coord dims period i row) :
    0 ≤ row ∧ row < dim ∧ (start + row) % len = i := by
  unfold read_state_target at ht
  rcases hp with hp | hp
  · subst hp
    simp only [zero_mul, neg_zero, mul_zero, add_zero] at hs hdim
    subst hs; subst hdim
    have hrow : row = i := by omega
    subst hrow
    exact ⟨hi0, hi1, emod_shift _ row _ 0 hi0 hi1 (by omega)⟩
  · subst hp
    simp only [one_mul, mul_one] at hs hdim
    subst hs; subst hdim
    rcases ht with ⟨_, _, h⟩ | ⟨_, _, _, h⟩ | ⟨_, _, _, h⟩
    · exact ⟨by omega, by omega, emod_shift _ i len 0 hi0 hi1 (by omega)⟩
    · exact ⟨by omega, by omega, emod_shift _ i len 1 hi0 hi1 (by omega)⟩
    · exact ⟨by omega, by omega, emod_shift _ i len (-1) hi0 hi1 (by omega)⟩

/-- On a single node whose halo does not exceed the logical length, every local coordinate of
the tile is a coordinate at which the value of its wrapped global coordinate is stored. -/
theorem read_state_target_complete (start dim halo len coord dims period row : Int)
    (hc : coord = 0) (hd : dims = 1) (hp : period = 0 ∨ period = 1)
    (hl : halo ≤ len) (hs : start = -(period * halo)) (hdim : dim = len + 2 * period * halo)
    (hr0 : 0 ≤ row) (hr1 : row < dim) :
    0 ≤ (start + row) % len ∧ (start + row) % len < len ∧
      read_state_target start dim halo len coord dims period ((start + row) % len) row := by
  unfold read_state_target
  rcases hp with hp | hp
  · subst hp
    simp only [zero_mul, neg_zero, mul_zero, add_zero] at hs hdim
    subst hs; subst hdim
    rw [emod_shift (0 + row) row dim 0 hr0 hr1 (by omega)]
    omega
  · subst hp
    simp only [one_mul, mul_one] at hs hdim
    subst hs; subst hdim
    by_cases h1 : row < halo
    · rw [emod_shift (-halo + row) (row - halo + len) len (-1) (by omega) (by omega) (by omega)]
      omega
    · by_cases h2 : row < len + halo
      · rw [emod_shift (-halo + row) (row - halo) len 0 (by omega) (by omega) (by omega)]
        omega
      · rw [emod_shift (-halo + row) (row - halo - len) len 1 (by omega) (by omega) (by omega)]
        omega

section ReadImages

variable {K : Type}

theorem store_psi (s : State K) (t : Int) (v : Cplx K) (k : Int) :
    (k = t → (s.store t v).psi k = v) ∧ (¬ k = t → (s.store t v).psi k = s.psi k) := by
  constructor
  · intro h
    subst h
    simp [State.store, State.psi]
  · intro h
    simp [State.store, State.psi, Function.update_noteq h]

theorem writes_ite (c : Prop) [Decidable c] (P : Int → Prop) (v : Cplx K) (s s' : State K)
    (h : ∀ k, (P k → s'.psi k = v) ∧ (¬ P k → s'.psi k = s.psi k)) :
    ∀ k, ((c ∧ P k) → (if c then s' else s).psi k = v) ∧
      (¬ (c ∧ P k) → (if c then s' else s).psi k = s.psi k) := by
  intro k
  by_cases hc : c
  · simp only [hc, if_true, true_and]
    exact h k
  · simp [hc]

theorem writes_comp (P Q : Int → Prop) (v : Cplx K) (s s' s'' : State K)
    (h1 : ∀ k, (P k → s'.psi k = v) ∧ (¬ P k → s'.psi k = s.psi k))
    (h2 : ∀ k, (Q k → s''.psi k = v) ∧ (¬ Q k → s''.psi k = s'.psi k)) :
    ∀ k, ((P k ∨ Q k) → s''.psi k = v) ∧ (¬ (P k ∨ Q k) → s''.psi k = s.psi k) := by
  intro k
  by_cases hq : Q k
  · exact ⟨fun _ => (h2 k).1 hq, fun h => absurd (Or.inr hq) h⟩
  · rw [(h2 k).2 hq]
    constructor
    · rintro (h | h)
      · exact (h1 k).1 h
      · exact absurd h hq
    · intro h
      exact (h1 k).2 (fun hp => h (Or.inl hp))

/-- The three stores of one halo row: the cells written are those of row `row` whose column
is a target of `j`. -/
theorem read_state_band_writes (grid : Lattice K) (in_width row j : Int) (tmp : Cplx K)
    (s : State K) (k : Int) :
    ((∃ col, read_state_target grid.start_x grid.dim_x grid.halo_x in_width grid.mpi_coords.2
          grid.mpi_dims.2 grid.periods.2 j col ∧ k = row * grid.dim_x + col) →
        (read_state_band grid in_width row j tmp s).psi k = tmp) ∧
      (¬ (∃ col, read_state_target grid.start_x grid.dim_x grid.halo_x in_width
          grid.mpi_coords.2 grid.mpi_dims.2 grid.periods.2 j col ∧
            k = row * grid.dim_x + col) →
        (read_state_band grid in_width row j tmp s).psi k = s.psi k) := by
  have h1 := writes_ite ((j - grid.start_x) ≥ 0 ∧ (j - grid.start_x) < grid.dim_x) _ tmp s _
    (store_psi s (row * grid.dim_x + j - grid.start_x) tmp)
  have h2 := fun a : State K =>
    writes_ite (j < grid.halo_x ∧ grid.periods.2 ≠ 0 ∧ grid.mpi_coords.2 = grid.mpi_dims.2 - 1)
      _ tmp a _ (store_psi a (row * grid.dim_x + j + grid.dim_x - grid.halo_x) tmp)
  have h3 := fun b : State K =>
    writes_ite (j ≥ in_width - grid.halo_x ∧ grid.periods.2 ≠ 0 ∧ grid.mpi_coords.2 = 0)
      _ tmp b _ (store_psi b (row * grid.dim_x + j - (in_width - grid.halo_x)) tmp)
  have h := writes_comp _ _ tmp _ _ _ (writes_comp _ _ tmp _ _ _ h1 (h2 _)) (h3 _) k
  have e : (∃ col, read_state_target grid.start_x grid.dim_x grid.halo_x in_width
        grid.mpi_coords.2 grid.mpi_dims.2 grid.periods.2 j col ∧
          k = row * grid.dim_x + col) ↔
      (((((j - grid.start_x) ≥ 0 ∧ (j - grid.start_x) < grid.dim_x) ∧
            k = row * grid.dim_x + j - grid.start_x) ∨
          ((j < grid.halo_x ∧ grid.periods.2 ≠ 0 ∧ grid.mpi_coords.2 = grid.mpi_dims.2 - 1) ∧
            k = row * grid.dim_x + j + grid.dim_x - grid.halo_x)) ∨
        ((j ≥ in_width - grid.halo_x ∧ grid.periods.2 ≠ 0 ∧ grid.mpi_coords.2 = 0) ∧
          k = row * grid.dim_x + j - (in_width - grid.halo_x))) := by
    unfold read_state_target
    generalize row * grid.dim_x = m
    constructor
    · rintro ⟨col, hc, hk⟩
      omega
    · rintro ((⟨hc, hk⟩ | ⟨hc, hk⟩) | ⟨hc, hk⟩)
      · exact ⟨j - grid.start_x, by omega, by omega⟩
      · exact ⟨j + grid.dim_x - grid.halo_x, by omega, by omega⟩
      · exact ⟨j - (in_width - grid.halo_x), by omega, by omega⟩
  rw [e]
  exact h

/-- The stores of one iteration of the double loop of `read_state`: the cells written are
those whose row is a target of `i` and whose column is a target of `j`. -/
theorem read_state_cell_writes (grid : Lattice K) (in_width in_height i j : Int) (tmp : Cplx K)
    (s : State K) (k : Int) :
    ((∃ row col, read_state_target grid.start_y grid.dim_y grid.halo_y in_height
          grid.mpi_coords.1 grid.mpi_dims.1 grid.periods.1 i row ∧
          read_state_target grid.start_x grid.dim_x grid.halo_x in_width grid.mpi_coords.2
            grid.mpi_dims.2 grid.periods.2 j col ∧ k = row * grid.dim_x + col) →
        (read_state_cell grid in_width in_height i j tmp s).psi k = tmp) ∧
      (¬ (∃ row col, read_state_target grid.start_y grid.dim_y grid.halo_y in_height
          grid.mpi_coords.1 grid.mpi_dims.1 grid.periods.1 i row ∧
          read_state_target grid.start_x grid.dim_x grid.halo_x in_width grid.mpi_coords.2
            grid.mpi_dims.2 grid.periods.2 j col ∧ k = row * grid.dim_x + col) →
        (read_state_cell grid in_width in_height i j tmp s).psi k = s.psi k) := by
  have h1 := writes_ite ((i - grid.start_y) ≥ 0 ∧ (i - grid.start_y) < grid.dim_y ∧
      (j - grid.start_x) ≥ 0 ∧ (j - grid.start_x) < grid.dim_x) _ tmp s _
    (store_psi s ((i - grid.start_y) * grid.dim_x + j - grid.start_x) tmp)
  have h2 := fun a : State K =>
    writes_ite (i < grid.halo_y ∧ grid.mpi_coords.1 = grid.mpi_dims.1 - 1 ∧ grid.periods.1 ≠ 0)
      _ tmp a _ (read_state_band_writes grid in_width (i + grid.dim_y - grid.halo_y) j tmp a)
  have h3 := fun a : State K =>
    writes_ite (i ≥ in_height - grid.halo_y ∧ grid.periods.1 ≠ 0 ∧ grid.mpi_coords.1 = 0)
      _ tmp a _ (read_state_band_writes grid in_width (i - (in_height - grid.halo_y)) j tmp a)
  have h4 := fun a : State K =>
    writes_ite (j < grid.halo_x ∧ grid.periods.2 ≠ 0 ∧ grid.mpi_coords.2 = grid.mpi_dims.2 - 1)
      _ tmp a _
      (writes_ite ((i - grid.start_y) ≥ 0 ∧ (i - grid.start_y) < grid.dim_y) _ tmp a _
        (store_psi a ((i - grid.start_y) * grid.dim_x + j + grid.dim_x - grid.halo_x) tmp))
  have h5 := fun a : State K =>
    writes_ite (j ≥ in_width - grid.halo_x ∧ grid.periods.2 ≠ 0 ∧ grid.mpi_coords.2 = 0)
      _ tmp a _
      (writes_ite ((i - grid.start_y) ≥ 0 ∧ (i - grid.start_y) < grid.dim_y) _ tmp a _
        (store_psi a ((i - grid.start_y) * grid.dim_x + j - (in_width - grid.halo_x)) tmp))
  have h := writes_comp _ _ tmp _ _ _ (writes_comp _ _ tmp _ _ _ (writes_comp _ _ tmp _ _ _
    (writes_comp _ _ tmp _ _ _ h1 (h2 _)) (h3 _)) (h4 _)) (h5 _) k
  refine ⟨fun hex => h.1 ?_, fun hex => h.2 (fun hd => hex ?_)⟩
  · obtain ⟨row, col, hr, hc, hk⟩ := hex
    rcases hr with ⟨r1, r2, rfl⟩ | ⟨r1, r2, r3, rfl⟩ | ⟨r1, r2, r3, rfl⟩
    · rcases hc with ⟨c1, c2, rfl⟩ | ⟨c1, c2, c3, rfl⟩ | ⟨c1, c2, c3, rfl⟩
      · exact Or.inl (Or.inl (Or.inl (Or.inl ⟨⟨r1, r2, c1, c2⟩, by omega⟩)))
      · exact Or.inl (Or.inr ⟨⟨c1, c3, c2⟩, ⟨r1, r2⟩, by omega⟩)
      · exact Or.inr ⟨⟨c1, c2, c3⟩, ⟨r1, r2⟩, by omega⟩
    · exact Or.inl (Or.inl (Or.inl (Or.inr ⟨⟨r1, r2, r3⟩, col, hc, hk⟩)))
    · exact Or.inl (Or.inl (Or.inr ⟨⟨r1, r2, r3⟩, col, hc, hk⟩))
  · rcases hd with (((⟨⟨r1, r2, c1, c2⟩, hk⟩ | ⟨hr, col, hc, hk⟩) | ⟨hr, col, hc, hk⟩) |
      ⟨⟨c1, c3, c2⟩, ⟨r1, r2⟩, hk⟩) | ⟨⟨c1, c2, c3⟩, ⟨r1, r2⟩, hk⟩
    · exact ⟨i - grid.start_y, j - grid.start_x, Or.inl ⟨r1, r2, rfl⟩, Or.inl ⟨c1, c2, rfl⟩,
        by omega⟩
    · exact ⟨_, col, Or.inr (Or.inl ⟨hr.1, hr.2.1, hr.2.2, rfl⟩), hc, hk⟩
    · exact ⟨_, col, Or.inr (Or.inr ⟨hr.1, hr.2.1, hr.2.2, rfl⟩), hc, hk⟩
    · exact ⟨i - grid.start_y, j + grid.dim_x - grid.halo_x, Or.inl ⟨r1, r2, rfl⟩,
        Or.inr (Or.inl ⟨c1, c2, c3, rfl⟩), by omega⟩
    · exact ⟨i - grid.start_y, j - (in_width - grid.halo_x), Or.inl ⟨r1, r2, rfl⟩,
        Or.inr (Or.inr ⟨c1, c2, c3, rfl⟩), by omega⟩

end ReadImages



section ReadImagesLoop

variable {K : Type}

/-- The state `read_state` leaves, with the stream position of every iteration made
explicit. -/
theorem read_state_fst (st : State K) (input : Nat → Cplx K) (read_offset : Int) :
    (st.read_state input read_offset).1 =
      for_range 0 (st.grid.global_dim_y - 2 * st.grid.periods.1 * st.grid.halo_y) (fun i s =>
        for_range 0 (st.grid.global_dim_x - 2 * st.grid.periods.2 * st.grid.halo_x)
          (fun j s1 =>
            read_state_cell st.grid
              (st.grid.global_dim_x - 2 * st.grid.periods.2 * st.grid.halo_x)
              (st.grid.global_dim_y - 2 * st.grid.periods.1 * st.grid.halo_y) i j
              (input (read_offset.toNat +
                  (st.grid.global_dim_x - 2 * st.grid.periods.2 * st.grid.halo_x).toNat *
                    (i - 0).toNat + 1 * (j - 0).toNat)) s1) s) st := by
  unfold State.read_state
  simp only []
  rw [skip_loop_count]
  have inner : ∀ (i : Int) (s : State K × Nat),
      for_range 0 (st.grid.global_dim_x - 2 * st.grid.periods.2 * st.grid.halo_x)
        (fun j (s1 : State K × Nat) =>
          (read_state_cell st.grid
            (st.grid.global_dim_x - 2 * st.grid.periods.2 * st.grid.halo_x)
            (st.grid.global_dim_y - 2 * st.grid.periods.1 * st.grid.halo_y) i j
            (input s1.2) s1.1, s1.2 + 1)) s =
      (for_range 0 (st.grid.global_dim_x - 2 * st.grid.periods.2 * st.grid.halo_x)
        (fun j s1 =>
          read_state_cell st.grid
            (st.grid.global_dim_x - 2 * st.grid.periods.2 * st.grid.halo_x)
            (st.grid.global_dim_y - 2 * st.grid.periods.1 * st.grid.halo_y) i j
            (input (s.2 + 1 * (j - 0).toNat)) s1) s.1,
        s.2 + (st.grid.global_dim_x - 2 * st.grid.periods.2 * st.grid.halo_x).toNat) := by
    intro i s
    have := for_range_counter 0
      (st.grid.global_dim_x - 2 * st.grid.periods.2 * st.grid.halo_x) 1
      (fun j n s1 => read_state_cell st.grid
        (st.grid.global_dim_x - 2 * st.grid.periods.2 * st.grid.halo_x)
        (st.grid.global_dim_y - 2 * st.grid.periods.1 * st.grid.halo_y) i j (input n) s1)
      s.1 s.2
    rw [sub_zero, one_mul] at this
    exact this
  simp only [inner]
  rw [for_range_counter 0 _
    (st.grid.global_dim_x - 2 * st.grid.periods.2 * st.grid.halo_x).toNat
    (fun i n s => for_range 0 (st.grid.global_dim_x - 2 * st.grid.periods.2 * st.grid.halo_x)
      (fun j s1 =>
        read_state_cell st.grid
          (st.grid.global_dim_x - 2 * st.grid.periods.2 * st.grid.halo_x)
          (st.grid.global_dim_y - 2 * st.grid.periods.1 * st.grid.halo_y) i j
          (input (n + 1 * (j - 0).toNat)) s1) s)]

theorem stream_position (off : Nat) (w a b : Int) (hw : 0 ≤ w) (ha : 0 ≤ a) (hb : 0 ≤ b) :
    off + w.toNat * (a - 0).toNat + 1 * (b - 0).toNat = off + (a * w + b).toNat := by
  lift w to ℕ using hw
  lift a to ℕ using ha
  lift b to ℕ using hb
  rw [sub_zero, sub_zero]
  have : ((a : Int) * (w : Int) + (b : Int)) = ((a * w + b : Nat) : Int) := by push_cast; ring
  rw [this]
  simp only [Int.toNat_ofNat]
  ring

/-- On a single node, after `read_state`, the cell `(r, c)` of the tile holds the value read at
the wrapped global coordinates of the cell. -/
theorem read_state_cell_value (st : State K) (input : Nat → Cplx K) (read_offset H W : Int)
    (hd : st.grid.mpi_dims = (1, 1)) (hc : st.grid.mpi_coords = (0, 0))
    (hp1 : st.grid.periods.1 = 0 ∨ st.grid.periods.1 = 1)
    (hp2 : st.grid.periods.2 = 0 ∨ st.grid.periods.2 = 1)
    (hH : st.grid.halo_y ≤ H) (hW : st.grid.halo_x ≤ W)
    (hsy : st.grid.start_y = -(st.grid.periods.1 * st.grid.halo_y))
    (hsx : st.grid.start_x = -(st.grid.periods.2 * st.grid.halo_x))
    (hdy : st.grid.dim_y = H + 2 * st.grid.periods.1 * st.grid.halo_y)
    (hdx : st.grid.dim_x = W + 2 * st.grid.periods.2 * st.grid.halo_x)
    (hgy : st.grid.global_dim_y = H + 2 * st.grid.periods.1 * st.grid.halo_y)
    (hgx : st.grid.global_dim_x = W + 2 * st.grid.periods.2 * st.grid.halo_x)
    (r c : Int) (hr0 : 0 ≤ r) (hr1 : r < st.grid.dim_y) (hc0 : 0 ≤ c)
    (hc1 : c < st.grid.dim_x) :
    (st.read_state input read_offset).1.psi (r * st.grid.dim_x + c) =
      input (read_offset.toNat +
        (((st.grid.start_y + r) % H) * W + (st.grid.start_x + c) % W).toNat) := by
  have eW : st.grid.global_dim_x - 2 * st.grid.periods.2 * st.grid.halo_x = W := by
    rw [hgx]; ring
  have eH : st.grid.global_dim_y - 2 * st.grid.periods.1 * st.grid.halo_y = H := by
    rw [hgy]; ring
  have d1 : st.grid.mpi_dims.1 = 1 := by rw [hd]
  have d2 : st.grid.mpi_dims.2 = 1 := by rw [hd]
  have c1 : st.grid.mpi_coords.1 = 0 := by rw [hc]
  have c2 : st.grid.mpi_coords.2 = 0 := by rw [hc]
  obtain ⟨i0a, i0b, ty⟩ := read_state_target_complete st.grid.start_y st.grid.dim_y
    st.grid.halo_y H st.grid.mpi_coords.1 st.grid.mpi_dims.1 st.grid.periods.1 r c1 d1 hp1 hH
    hsy hdy hr0 hr1
  obtain ⟨j0a, j0b, tx⟩ := read_state_target_complete st.grid.start_x st.grid.dim_x
    st.grid.halo_x W st.grid.mpi_coords.2 st.grid.mpi_dims.2 st.grid.periods.2 c c2 d2 hp2 hW
    hsx hdx hc0 hc1
  have hWpos : 0 ≤ W := by omega
  rw [read_state_fst, eW, eH]
  rw [← stream_position read_offset.toNat W _ _ hWpos i0a j0a]
  -- every iteration either writes the expected value at the cell or leaves it alone
  have cell_sound : ∀ i j : Int, 0 ≤ i → i < H → 0 ≤ j → j < W → ∀ q : State K,
      (read_state_cell st.grid W H i j
          (input (read_offset.toNat + W.toNat * (i - 0).toNat + 1 * (j - 0).toNat)) q).psi
          (r * st.grid.dim_x + c) =
        input (read_offset.toNat + W.toNat * ((st.grid.start_y + r) % H - 0).toNat +
          1 * ((st.grid.start_x + c) % W - 0).toNat) ∨
      (read_state_cell st.grid W H i j
          (input (read_offset.toNat + W.toNat * (i - 0).toNat + 1 * (j - 0).toNat)) q).psi
          (r * st.grid.dim_x + c) = q.psi (r * st.grid.dim_x + c) := by
    intro i j hi0 hi1 hj0 hj1 q
    have hw := read_state_cell_writes st.grid W H i j
      (input (read_offset.toNat + W.toNat * (i - 0).toNat + 1 * (j - 0).toNat)) q
      (r * st.grid.dim_x + c)
    by_cases hit : ∃ row col, read_state_target st.grid.start_y st.grid.dim_y st.grid.halo_y H
          st.grid.mpi_coords.1 st.grid.mpi_dims.1 st.grid.periods.1 i row ∧
          read_state_target st.grid.start_x st.grid.dim_x st.grid.halo_x W
            st.grid.mpi_coords.2 st.grid.mpi_dims.2 st.grid.periods.2 j col ∧
          r * st.grid.dim_x + c = row * st.grid.dim_x + col
    · left
      rw [hw.1 hit]
      obtain ⟨row, col, hrow, hcol, hk⟩ := hit
      obtain ⟨_, _, ei⟩ := read_state_target_sound _ _ _ _ _ _ _ i row hp1 hsy hdy hi0 hi1 hrow
      obtain ⟨k0, k1, ej⟩ := read_state_target_sound _ _ _ _ _ _ _ j col hp2 hsx hdx hj0 hj1
        hcol
      obtain ⟨e1, e2⟩ := row_major_inj st.grid.dim_x r c row col hc0 hc1 k0 k1 hk
      rw [e1, e2, ei, ej]
    · right
      exact hw.2 hit
  refine for_range_obs_complete (fun s : State K => s.psi (r * st.grid.dim_x + c)) _ 0 H _ st
    ((st.grid.start_y + r) % H) i0a i0b ?_ ?_
  · intro q
    refine for_range_obs_complete (fun s : State K => s.psi (r * st.grid.dim_x + c)) _ 0 W _ q
      ((st.grid.start_x + c) % W) j0a j0b ?_ ?_
    · intro q1
      exact (read_state_cell_writes st.grid W H _ _ _ q1 (r * st.grid.dim_x + c)).1
        ⟨r, c, ty, tx, rfl⟩
    · intro j hj0 hj1 q1
      exact cell_sound _ j i0a i0b hj0 hj1 q1
  · intro i hi0 hi1 q
    refine for_range_obs_sound (fun s : State K => s.psi (r * st.grid.dim_x + c)) _ 0 W _ q ?_
    intro j hj0 hj1 q1
    exact cell_sound i j hi0 hi1 hj0 hj1 q1

end ReadImagesLoop



/-- C11: on a single-node lattice (`mpi_dims = (1, 1)`, `mpi_coords = (0, 0)`) with periods in
`{0, 1}`, logical height `H ≥ halo_y` and width `W ≥ halo_x`, whose tile is the whole lattice
with its periodic halos, `read_state` with `read_offset = 0` on an input holding the `H × W`
values row-major leaves in every local cell `(r, c)` of the tile the input value of row
`(start_y + r) mod H` and column `(start_x + c) mod W`: real part in `p_real`, imaginary part
in `p_imag`. -/
theorem read_state_periodic_images {K : Type} (st : State K) (input : Nat → Cplx K)
    (H W : Int)
    (hd : st.grid.mpi_dims = (1, 1)) (hc : st.grid.mpi_coords = (0, 0))
    (hp1 : st.grid.periods.1 = 0 ∨ st.grid.periods.1 = 1)
    (hp2 : st.grid.periods.2 = 0 ∨ st.grid.periods.2 = 1)
    (hH : st.grid.halo_y ≤ H) (hW : st.grid.halo_x ≤ W)
    (hsy : st.grid.start_y = -(st.grid.periods.1 * st.grid.halo_y))
    (hsx : st.grid.start_x = -(st.grid.periods.2 * st.grid.halo_x))
    (hdy : st.grid.dim_y = H + 2 * st.grid.periods.1 * st.grid.halo_y)
    (hdx : st.grid.dim_x = W + 2 * st.grid.periods.2 * st.grid.halo_x)
    (hgy : st.grid.global_dim_y = H + 2 * st.grid.periods.1 * st.grid.halo_y)
    (hgx : st.grid.global_dim_x = W + 2 * st.grid.periods.2 * st.grid.halo_x)
    (r c : Int) (hr0 : 0 ≤ r) (hr1 : r < st.grid.dim_y) (hc0 : 0 ≤ c)
    (hc1 : c < st.grid.dim_x) :
    (st.read_state input 0).1.p_real (r * st.grid.dim_x + c) =
        (input (((st.grid.start_y + r) % H) * W + (st.grid.start_x + c) % W).toNat).re ∧
      (st.read_state input 0).1.p_imag (r * st.grid.dim_x + c) =
        (input (((st.grid.start_y + r) % H) * W + (st.grid.start_x + c) % W).toNat).im := by
  have h := read_state_cell_value st input 0 H W hd hc hp1 hp2 hH hW hsy hsx hdy hdx hgy hgx
    r c hr0 hr1 hc0 hc1
  rw [show (0 : Int).toNat = 0 from rfl, Nat.zero_add] at h
  exact ⟨congrArg Cplx.re h, congrArg Cplx.im h⟩

set_option maxRecDepth 100000 in
/-- Witness of C11: on the periodic single-node lattice of logical size 5 (halo 4, tile
`13 × 13`) the corner cell `(0, 0)` holds the input value of row 1 and column 1, the seventh
value of the stream. -/
theorem read_state_periodic_images_witness :
    (State.read_state
        { grid := Lattice.Lattice MPIEnv.single 5 (1 : Int) 1 (some (1, 1)) 0,
          p_real := fun _ => 0, p_imag := fun _ => 0, self_init := false }
        (fun n => ⟨(n : Int), 2 * (n : Int)⟩) 0).1.p_real
        (0 * (Lattice.Lattice MPIEnv.single 5 (1 : Int) 1 (some (1, 1)) 0).dim_x + 0) = 6 ∧
      (State.read_state
        { grid := Lattice.Lattice MPIEnv.single 5 (1 : Int) 1 (some (1, 1)) 0,
          p_real := fun _ => 0, p_imag := fun _ => 0, self_init := false }
        (fun n => ⟨(n : Int), 2 * (n : Int)⟩) 0).1.p_imag
        (0 * (Lattice.Lattice MPIEnv.single 5 (1 : Int) 1 (some (1, 1)) 0).dim_x + 0) = 12 :=
  read_state_periodic_images
    { grid := Lattice.Lattice MPIEnv.single 5 (1 : Int) 1 (some (1, 1)) 0,
      p_real := fun _ => 0, p_imag := fun _ => 0, self_init := false }
    (fun n => ⟨(n : Int), 2 * (n : Int)⟩) 5 5 (by decide) (by decide) (by decide) (by decide)
    (by decide) (by decide) (by decide) (by decide) (by decide) (by decide) (by decide)
    (by decide) 0 0 (by decide) (by decide) (by decide) (by decide)

/-! ### `get_phase` on the negative real axis (C21) -/

/-- The phase value of a real number is `0`, whatever the square root and the arc cosine. -/
theorem phase_of_im_zero {K : Type} [LinearOrderedField K] (sqrt acos : K → K) (re : K) :
    phase_of sqrt acos re 0 = 0 := by
  unfold phase_of
  simp

/-- C21: for every inner cell with `im = 0` and `re < 0`, `get_phase` writes `0`, whatever the
library functions `sqrt` and `acos` return, whereas the argument of the cell value is `π`. -/
theorem get_phase_negative_real_axis (sqrt acos : ℝ → ℝ) (st : State ℝ)
    (_phase : Option (Int → ℝ)) (fresh : Int → ℝ) (j i : Int)
    (hj0 : st.grid.inner_start_y - st.grid.start_y ≤ j)
    (hj1 : j < st.grid.inner_end_y - st.grid.start_y)
    (hi0 : st.grid.inner_start_x - st.grid.start_x ≤ i)
    (hi1 : i < st.grid.inner_end_x - st.grid.start_x)
    (him : st.p_imag (j * st.grid.dim_x + i) = 0)
    (hre : st.p_real (j * st.grid.dim_x + i) < 0) :
    st.get_phase sqrt acos _phase fresh (j * st.grid.dim_x + i) = 0 ∧
      Complex.arg ⟨st.p_real (j * st.grid.dim_x + i), st.p_imag (j * st.grid.dim_x + i)⟩ =
        Real.pi ∧
      st.get_phase sqrt acos _phase fresh (j * st.grid.dim_x + i) ≠ Real.pi := by
  have e : st.get_phase sqrt acos _phase fresh (j * st.grid.dim_x + i) = 0 := by
    rw [get_phase_apply sqrt acos st _phase fresh j i hj0 hj1 hi0 hi1, him]
    exact phase_of_im_zero sqrt acos _
  refine ⟨e, ?_, ?_⟩
  · rw [him]
    exact Complex.arg_ofReal_of_neg hre
  · rw [e]
    exact ne_of_lt Real.pi_pos

/-- Witness of C21: on the single-node lattice of size 3 filled with `ψ = -1`, the inner cell
`(1, 1)` receives `0` from `get_phase` run with the square root and the arc cosine of real
analysis. -/
theorem get_phase_negative_real_axis_witness :
    State.get_phase Real.sqrt Real.arccos
        { grid := Lattice.Lattice MPIEnv.single 3 (1 : ℝ) 1 none 0, p_real := fun _ => -1,
          p_imag := fun _ => 0, self_init := false } none (fun _ => 0)
        (1 * (Lattice.Lattice MPIEnv.single 3 (1 : ℝ) 1 none 0).dim_x + 1) = 0 :=
  (get_phase_negative_real_axis Real.sqrt Real.arccos
    { grid := Lattice.Lattice MPIEnv.single 3 (1 : ℝ) 1 none 0, p_real := fun _ => -1,
      p_imag := fun _ => 0, self_init := false } none (fun _ => 0) 1 1
    (by simp [Lattice.Lattice, calculate_borders, MPIEnv.single, ceil_div])
    (by simp [Lattice.Lattice, calculate_borders, MPIEnv.single, ceil_div])
    (by simp [Lattice.Lattice, calculate_borders, MPIEnv.single, ceil_div])
    (by simp [Lattice.Lattice, calculate_borders, MPIEnv.single, ceil_div])
    rfl (by norm_num)).1

/-! ### `get_particle_density` (C22) -/

section Density

variable {K : Type} [Add K] [Mul K]

/-- C22: `get_particle_density` called with a caller-supplied buffer returns the state as it
was; in the buffer every inner cell `(j, i)` holds `p_real² + p_imag²` of that cell at index
`j * dim_x + i`, and every element whose index is not that of an inner cell keeps its
content. -/
theorem get_particle_density_frame (st : State K) (density fresh : Int → K) (j i k : Int)
    (hj0 : st.grid.inner_start_y - st.grid.start_y ≤ j)
    (hj1 : j < st.grid.inner_end_y - st.grid.start_y)
    (hi0 : st.grid.inner_start_x - st.grid.start_x ≤ i)
    (hi1 : i < st.grid.inner_end_x - st.grid.start_x)
    (hk : ∀ j' i' : Int, st.grid.inner_start_y - st.grid.start_y ≤ j' →
      j' < st.grid.inner_end_y - st.grid.start_y →
      st.grid.inner_start_x - st.grid.start_x ≤ i' →
      i' < st.grid.inner_end_x - st.grid.start_x → k ≠ j' * st.grid.dim_x + i') :
    (st.get_particle_density (some density) fresh).1 = st ∧
      (st.get_particle_density (some density) fresh).2 (j * st.grid.dim_x + i) =
        st.p_real (j * st.grid.dim_x + i) * st.p_real (j * st.grid.dim_x + i) +
          st.p_imag (j * st.grid.dim_x + i) * st.p_imag (j * st.grid.dim_x + i) ∧
      (st.get_particle_density (some density) fresh).2 k = density k := by
  refine ⟨rfl, ?_, ?_⟩
  · unfold State.get_particle_density
    dsimp only
    have hcell : ∀ (j' i' : Int) (q : Int → K),
        Function.update q (j' * st.grid.dim_x + i')
            (st.p_real (j' * st.grid.dim_x + i') * st.p_real (j' * st.grid.dim_x + i') +
              st.p_imag (j' * st.grid.dim_x + i') * st.p_imag (j' * st.grid.dim_x + i'))
            (j * st.grid.dim_x + i) =
          st.p_real (j * st.grid.dim_x + i) * st.p_real (j * st.grid.dim_x + i) +
            st.p_imag (j * st.grid.dim_x + i) * st.p_imag (j * st.grid.dim_x + i) ∨
        Function.update q (j' * st.grid.dim_x + i')
            (st.p_real (j' * st.grid.dim_x + i') * st.p_real (j' * st.grid.dim_x + i') +
              st.p_imag (j' * st.grid.dim_x + i') * st.p_imag (j' * st.grid.dim_x + i'))
            (j * st.grid.dim_x + i) = q (j * st.grid.dim_x + i) := by
      intro j' i' q
      by_cases h : j * st.grid.dim_x + i = j' * st.grid.dim_x + i'
      · left; rw [← h, Function.update_same]
      · right; exact Function.update_noteq h _ _
    refine for_range_obs_complete (fun d : Int → K => d (j * st.grid.dim_x + i)) _ _ _ _ _ j
      hj0 hj1 ?_ ?_
    · intro q
      refine for_range_obs_complete (fun d : Int → K => d (j * st.grid.dim_x + i)) _ _ _ _ _ i
        hi0 hi1 ?_ ?_
      · intro q1
        exact Function.update_same _ _ _
      · intro c _ _ q1
        exact hcell j c q1
    · intro r _ _ q
      refine for_range_obs_sound (fun d : Int → K => d (j * st.grid.dim_x + i)) _ _ _ _ _ ?_
      intro c _ _ q1
      exact hcell r c q1
  · unfold State.get_particle_density
    dsimp only
    refine for_range_frame _ _ _ density k ?_
    intro r hr0 hr1 q
    refine for_range_frame _ _ _ q k ?_
    intro c hc0 hc1 q1
    exact Function.update_noteq (hk r c hr0 hr1 hc0 hc1) _ _

end Density

/-- Witness of C22: the periodic single-node lattice of logical size 1 (tile `9 × 9`, the inner
cell at row 4, column 4); a state with `3 + 2i` everywhere and a buffer filled with `7`.  The
inner cell receives `13`, the corner element `0` keeps `7`. -/
theorem get_particle_density_frame_witness :
    (State.get_particle_density
        ({ grid := Lattice.Lattice MPIEnv.single 1 1 1 (some (1, 1)) 0, p_real := fun _ => 3,
           p_imag := fun _ => 2, self_init := false } : State Int)
        (some (fun _ => 7)) (fun _ => 0)).2
        (4 * (Lattice.Lattice MPIEnv.single 1 (1 : Int) 1 (some (1, 1)) 0).dim_x + 4) = 13 ∧
      (State.get_particle_density
        ({ grid := Lattice.Lattice MPIEnv.single 1 1 1 (some (1, 1)) 0, p_real := fun _ => 3,
           p_imag := fun _ => 2, self_init := false } : State Int)
        (some (fun _ => 7)) (fun _ => 0)).2 0 = 7 :=
  (get_particle_density_frame
    ({ grid := Lattice.Lattice MPIEnv.single 1 1 1 (some (1, 1)) 0, p_real := fun _ => 3,
       p_imag := fun _ => 2, self_init := false } : State Int)
    (fun _ => 7) (fun _ => 0) 4 4 0 (by decide) (by decide) (by decide) (by decide)
    (by
      intro j' i' h1 h2 h3 h4
      have e1 : (4 : Int) ≤ j' := h1
      have e2 : (4 : Int) ≤ i' := h3
      have e3 : (Lattice.Lattice MPIEnv.single 1 (1 : Int) 1 (some (1, 1)) 0).dim_x = 9 := by
        decide
      show (0 : Int) ≠ j' * (Lattice.Lattice MPIEnv.single 1 (1 : Int) 1 (some (1, 1)) 0).dim_x
        + i'
      rw [e3]
      omega)).2



/-! ### `norm2 = 0` (C23) -/

/-- With `global = false` the squared norm does not depend on what the other ranks hold. -/
theorem calculate_squared_norm_false_peers {K : Type} [Zero K] [Add K] [Mul K] (st : State K)
    (peers peers' : Int → K) :
    st.calculate_squared_norm false peers = st.calculate_squared_norm false peers' := by
  simp [State.calculate_squared_norm]

section ZeroNorm

variable {K : Type} [Field K] [DecidableEq K]

/-- C23: called with `norm2 = 0`, the routines `calculate_kinetic_energy`,
`calculate_rotational_energy`, the single-state `calculate_total_energy` (`global = false`),
`calculate_mean_position` and `calculate_mean_momentum` return what they return for
`norm2 = state.calculate_squared_norm(false)`, and `calculate_ab_energy`,
`calculate_rabi_coupling_energy` return what they return for
`norm2 = state1.calculate_squared_norm(false) + state2.calculate_squared_norm(false)`. -/
theorem zero_norm2_is_local_norm (grid : Lattice K) (state state1 state2 : State K)
    (hamiltonian : Hamiltonian K) (hamilt_pot : Int → Int → Lattice K → K)
    (external_pot : Option (Int → K)) (global : Bool) (peers : Int → K)
    (grid_origin_x grid_origin_y : Int) (coupling_const_ab omega_r omega_i : K) :
    calculate_kinetic_energy grid state hamiltonian 0 global peers =
        calculate_kinetic_energy grid state hamiltonian
          (state.calculate_squared_norm false peers) global peers ∧
      calculate_rotational_energy grid state hamiltonian 0 global peers =
        calculate_rotational_energy grid state hamiltonian
          (state.calculate_squared_norm false peers) global peers ∧
      calculate_total_energy grid state hamiltonian hamilt_pot external_pot 0 false peers =
        calculate_total_energy grid state hamiltonian hamilt_pot external_pot
          (state.calculate_squared_norm false peers) false peers ∧
      calculate_mean_position grid state grid_origin_x grid_origin_y 0 =
        calculate_mean_position grid state grid_origin_x grid_origin_y
          (state.calculate_squared_norm false peers) ∧
      calculate_mean_momentum grid state 0 =
        calculate_mean_momentum grid state (state.calculate_squared_norm false peers) ∧
      calculate_ab_energy grid state1 state2 coupling_const_ab 0 =
        calculate_ab_energy grid state1 state2 coupling_const_ab
          (state1.calculate_squared_norm false peers +
            state2.calculate_squared_norm false peers) ∧
      calculate_rabi_coupling_energy grid state1 state2 omega_r omega_i 0 =
        calculate_rabi_coupling_energy grid state1 state2 omega_r omega_i
          (state1.calculate_squared_norm false peers +
            state2.calculate_squared_norm false peers) := by
  have e := calculate_squared_norm_false_peers state peers (fun _ => 0)
  have e1 := calculate_squared_norm_false_peers state1 peers (fun _ => 0)
  have e2 := calculate_squared_norm_false_peers state2 peers (fun _ => 0)
  refine ⟨?_, ?_, ?_, ?_, ?_, ?_, ?_⟩
  · simp only [calculate_kinetic_energy, if_true, ite_self]
  · simp only [calculate_rotational_energy, if_true, ite_self]
  · simp only [calculate_total_energy, if_true, ite_self]
  · rw [e]
    simp only [calculate_mean_position, if_true, ite_self]
  · rw [e]
    simp only [calculate_mean_momentum, if_true, ite_self]
  · rw [e1, e2]
    simp only [calculate_ab_energy, if_true, ite_self]
  · rw [e1, e2]
    simp only [calculate_rabi_coupling_energy, if_true, ite_self]

end ZeroNorm

/-! ### Ownership of the state buffers (C27) -/

/-- C27 (code defect): the destructor frees both buffers or none, by the flag `self_init` that
the constructor sets from `_p_real` alone.  With both arguments null both buffers are allocated
and freed, with both supplied none is freed; but with `_p_real` null and `_p_imag` supplied the
caller's `p_imag` is freed, and with `_p_real` supplied and `_p_imag` null the allocated
`p_imag` is never freed. -/
theorem state_destructor_mixed_ownership {K : Type} (grid : Lattice K)
    (a b fresh_real fresh_imag : Int → K) :
    (State.State grid none none fresh_real fresh_imag).destructor = (true, true) ∧
      (State.State grid (some a) (some b) fresh_real fresh_imag).destructor = (false, false) ∧
      ((State.State grid none (some b) fresh_real fresh_imag).p_imag = b ∧
        (State.State grid none (some b) fresh_real fresh_imag).destructor.2 = true) ∧
      ((State.State grid (some a) none fresh_real fresh_imag).p_imag = fresh_imag ∧
        (State.State grid (some a) none fresh_real fresh_imag).destructor.2 = false) :=
  ⟨rfl, rfl, ⟨rfl, rfl⟩, ⟨rfl, rfl⟩⟩

/-! ### Construction of the two-component Hamiltonian (C30) -/

/-- C30: the constructor of `Hamiltonian2Component` hands the member `rot_coord_y`, as found in
the storage of the object, to the base constructor; two calls that differ only in the argument
`_rot_coord_y` build the same object, whose `rot_coord_y` is the prior content of that member
(or `dim_y * 0.5` when the prior content is `DBL_MAX`). -/
theorem Hamiltonian2Component_ignores_rot_coord_y {K : Type} [Field K] [DecidableEq K]
    (DBL_MAX : K) (prior : Hamiltonian2Component K) (grid : Lattice K)
    (mass mass_b coupling_a coupling_ab coupling_b angular_velocity rot_coord_x omega omega_r
      omega_i : K) (external_pot external_pot_b : Option (Int → K)) (fresh fresh_b : Int → K)
    (y1 y2 : K) :
    Hamiltonian2Component.Hamiltonian2Component DBL_MAX prior grid mass mass_b coupling_a
          coupling_ab coupling_b angular_velocity rot_coord_x y1 omega omega_r omega_i
          external_pot external_pot_b fresh fresh_b =
        Hamiltonian2Component.Hamiltonian2Component DBL_MAX prior grid mass mass_b coupling_a
          coupling_ab coupling_b angular_velocity rot_coord_x y2 omega omega_r omega_i
          external_pot external_pot_b fresh fresh_b ∧
      (Hamiltonian2Component.Hamiltonian2Component DBL_MAX prior grid mass mass_b coupling_a
          coupling_ab coupling_b angular_velocity rot_coord_x y1 omega omega_r omega_i
          external_pot external_pot_b fresh fresh_b).rot_coord_y =
        (if prior.rot_coord_y = DBL_MAX then (grid.dim_y : K) * (1 / 2)
          else prior.rot_coord_y) := by
  refine ⟨rfl, ?_⟩
  unfold Hamiltonian2Component.Hamiltonian2Component Hamiltonian.Hamiltonian
  cases external_pot <;> cases external_pot_b <;> dsimp only <;> split_ifs <;> rfl

/-! ### Layout of the potential buffers (C26) -/

set_option maxRecDepth 100000 in
/-- C26 (code defect): `initialize_potential` and `initialize_potential_b` store the sample of
the tile cell `(x, y)` at `y * dim_y + x`.  On the single-node lattice of size 2 that is
periodic along x only (tile `dim_x = 10`, `dim_y = 2`), with `f(x, y) = 100 y + x + 1` and
zeroed buffers, the element `0 * dim_x + 2` of the cell `(2, 0)` ends with
`f(0, 1) = 101`, not `f(2, 0) = 3`.  On the lattice periodic along y only (`dim_x = 2`,
`dim_y = 10`) the element `1 * dim_x + 1` of the cell `(1, 1)` is never written, and the
sample of the cell `(1, 9)` goes to the element `91`, beyond the `dim_x * dim_y = 20`
elements of the buffer. -/
theorem initialize_potential_stride :
    (Lattice.Lattice MPIEnv.single 2 (1 : Int) 1 (some (0, 1)) 0).dim_x = 10 ∧
      (Lattice.Lattice MPIEnv.single 2 (1 : Int) 1 (some (0, 1)) 0).dim_y = 2 ∧
      (Hamiltonian.initialize_potential
        ({ grid := Lattice.Lattice MPIEnv.single 2 (1 : Int) 1 (some (0, 1)) 0, mass := 1,
           coupling_a := 0, coupling_ab := 0, angular_velocity := 0, rot_coord_x := 0,
           rot_coord_y := 0, omega := 0, external_pot := fun _ => 0, self_init := true } :
          Hamiltonian Int)
        (fun x y _ => 100 * y + x + 1)).external_pot (0 * 10 + 2) = 101 ∧
      (Hamiltonian2Component.initialize_potential_b
        ({ grid := Lattice.Lattice MPIEnv.single 2 (1 : Int) 1 (some (0, 1)) 0, mass := 1,
           coupling_a := 0, coupling_ab := 0, angular_velocity := 0, rot_coord_x := 0,
           rot_coord_y := 0, omega := 0, external_pot := fun _ => 0, self_init := true,
           mass_b := 1, coupling_b := 0, omega_r := 0, omega_i := 0,
           external_pot_b := fun _ => 0 } : Hamiltonian2Component Int)
        (fun x y _ => 100 * y + x + 1)).external_pot_b (0 * 10 + 2) = 101 ∧
      (Lattice.Lattice MPIEnv.single 2 (1 : Int) 1 (some (1, 0)) 0).dim_x = 2 ∧
      (Lattice.Lattice MPIEnv.single 2 (1 : Int) 1 (some (1, 0)) 0).dim_y = 10 ∧
      (Hamiltonian.initialize_potential
        ({ grid := Lattice.Lattice MPIEnv.single 2 (1 : Int) 1 (some (1, 0)) 0, mass := 1,
           coupling_a := 0, coupling_ab := 0, angular_velocity := 0, rot_coord_x := 0,
           rot_coord_y := 0, omega := 0, external_pot := fun _ => 0, self_init := true } :
          Hamiltonian Int)
        (fun x y _ => 100 * y + x + 1)).external_pot (1 * 2 + 1) = 0 ∧
      (Hamiltonian.initialize_potential
        ({ grid := Lattice.Lattice MPIEnv.single 2 (1 : Int) 1 (some (1, 0)) 0, mass := 1,
           coupling_a := 0, coupling_ab := 0, angular_velocity := 0, rot_coord_x := 0,
           rot_coord_y := 0, omega := 0, external_pot := fun _ => 0, self_init := true } :
          Hamiltonian Int)
        (fun x y _ => 100 * y + x + 1)).external_pot 91 = 902 := by
  decide



/-! ### Real and imaginary parts of the complex operations -/

namespace Cplx

variable {K : Type} [Field K]

@[simp] theorem zero_re : (0 : Cplx K).re = 0 := rfl

@[simp] theorem add_re (a b : Cplx K) : (a + b).re = a.re + b.re := rfl

@[simp] theorem add_im (a b : Cplx K) : (a + b).im = a.im + b.im := rfl

@[simp] theorem sub_re (a b : Cplx K) : (a - b).re = a.re - b.re := rfl

@[simp] theorem sub_im (a b : Cplx K) : (a - b).im = a.im - b.im := rfl

@[simp] theorem mul_re (a b : Cplx K) : (a * b).re = a.re * b.re - a.im * b.im := rfl

@[simp] theorem mul_im (a b : Cplx K) : (a * b).im = a.re * b.im + a.im * b.re := rfl

@[simp] theorem conj_re (a : Cplx K) : (conj a).re = a.re := rfl

@[simp] theorem conj_im (a : Cplx K) : (conj a).im = -a.im := rfl

@[simp] theorem real_mul_re (t : K) (a : Cplx K) : (real_mul t a).re = t * a.re := rfl

@[simp] theorem real_mul_im (t : K) (a : Cplx K) : (real_mul t a).im = t * a.im := rfl

@[simp] theorem mul_real_re (a : Cplx K) (t : K) : (mul_real a t).re = a.re * t := rfl

@[simp] theorem mul_real_im (a : Cplx K) (t : K) : (mul_real a t).im = a.im * t := rfl

@[simp] theorem div_real_re (a : Cplx K) (t : K) : (div_real a t).re = a.re / t := rfl

@[simp] theorem div_real_im (a : Cplx K) (t : K) : (div_real a t).im = a.im / t := rfl

end Cplx

/-! ### The stencil sums as finite sums -/

section StencilSums

variable {K : Type} [Field K]

/-- The real part of a double loop that adds `t i j` to a complex accumulator. -/
theorem for_range2_re (ly hy lx hx : Int) (t : Int → Int → Cplx K) :
    (for_range ly hy (fun i acc => for_range lx hx (fun j acc1 => acc1 + t i j) acc)
        (0 : Cplx K)).re =
      ∑ i ∈ Finset.Ico ly hy, ∑ j ∈ Finset.Ico lx hx, (t i j).re := by
  rw [for_range_proj Cplx.re ly hy _
    (fun i r => for_range lx hx (fun j r1 => r1 + (t i j).re) r) 0]
  · simp only [for_range_sum, Cplx.zero_re, zero_add]
  · intro i s
    exact for_range_proj Cplx.re lx hx _ (fun j r1 => r1 + (t i j).re) s (fun j s1 => rfl)

/-- At every cell the real part of the summand of the total energy is the sum of the real
parts of the kinetic and rotational summands and of the potential and self-interaction
densities. -/
theorem total_energy_term_re (grid : Lattice K) (state : State K) (hamiltonian : Hamiltonian K)
    (hamilt_pot : Int → Int → Lattice K → K) (external_pot : Option (Int → K)) (i j : Int) :
    (total_energy_term grid state hamiltonian hamilt_pot external_pot i j).re =
      (kinetic_term grid state hamiltonian i j).re +
        (rotational_term grid state hamiltonian i j).re +
        ((state.p_real (i * (grid.end_x - grid.start_x) + j) ^ 2 +
              state.p_imag (i * (grid.end_x - grid.start_x) + j) ^ 2) *
            (match external_pot with
              | none => hamilt_pot (global_x grid j) (global_y grid i) grid
              | some pot => pot (global_y grid i * grid.global_dim_x + global_x grid j)) +
          hamiltonian.coupling_a / 2 *
            (state.p_real (i * (grid.end_x - grid.start_x) + j) ^ 2 +
              state.p_imag (i * (grid.end_x - grid.start_x) + j) ^ 2) ^ 2) := by
  cases external_pot <;>
  · simp only [total_energy_term, kinetic_term, rotational_term, State.psi, Cplx.add_re,
      Cplx.sub_re, Cplx.mul_re, Cplx.conj_re, Cplx.conj_im, Cplx.add_im, Cplx.sub_im,
      Cplx.mul_im]
    ring

variable [DecidableEq K]

/-- C28: for `norm2 ≠ 0` and `global = false`, the single-state `calculate_total_energy` is
`calculate_kinetic_energy + calculate_rotational_energy` plus `delta_x * delta_y / norm2` times
the sum over the visited cells of `|ψ|² V + (coupling_a / 2) |ψ|⁴`, where `V` is the value of
the callback or of the supplied buffer at the cell and all three routines get the same `norm2`;
when `V` vanishes at the visited cells and `coupling_a = 0`, the total energy is the kinetic
plus the rotational energy. -/
theorem total_energy_decomposition (grid : Lattice K) (state : State K)
    (hamiltonian : Hamiltonian K) (hamilt_pot : Int → Int → Lattice K → K)
    (external_pot : Option (Int → K)) (norm2 : K) (peers : Int → K) (hn : norm2 ≠ 0) :
    calculate_total_energy grid state hamiltonian hamilt_pot external_pot norm2 false peers =
        calculate_kinetic_energy grid state hamiltonian norm2 false peers +
          calculate_rotational_energy grid state hamiltonian norm2 false peers +
          grid.delta_x * grid.delta_y / norm2 *
            ∑ i ∈ Finset.Ico (stencil_begin_y grid) (stencil_end_y grid),
              ∑ j ∈ Finset.Ico (stencil_begin_x grid) (stencil_end_x grid),
                ((state.p_real (i * (grid.end_x - grid.start_x) + j) ^ 2 +
                      state.p_imag (i * (grid.end_x - grid.start_x) + j) ^ 2) *
                    (match external_pot with
                      | none => hamilt_pot (global_x grid j) (global_y grid i) grid
                      | some pot =>
                        pot (global_y grid i * grid.global_dim_x + global_x grid j)) +
                  hamiltonian.coupling_a / 2 *
                    (state.p_real (i * (grid.end_x - grid.start_x) + j) ^ 2 +
                      state.p_imag (i * (grid.end_x - grid.start_x) + j) ^ 2) ^ 2) ∧
      ((∀ i j : Int,
          (match external_pot with
            | none => hamilt_pot (global_x grid j) (global_y grid i) grid
            | some pot => pot (global_y grid i * grid.global_dim_x + global_x grid j)) = 0) →
        hamiltonian.coupling_a = 0 →
        calculate_total_energy grid state hamiltonian hamilt_pot external_pot norm2 false
            peers =
          calculate_kinetic_energy grid state hamiltonian norm2 false peers +
            calculate_rotational_energy grid state hamiltonian norm2 false peers) := by
  have key : calculate_total_energy grid state hamiltonian hamilt_pot external_pot norm2 false
        peers =
      calculate_kinetic_energy grid state hamiltonian norm2 false peers +
        calculate_rotational_energy grid state hamiltonian norm2 false peers +
        grid.delta_x * grid.delta_y / norm2 *
          ∑ i ∈ Finset.Ico (stencil_begin_y grid) (stencil_end_y grid),
            ∑ j ∈ Finset.Ico (stencil_begin_x grid) (stencil_end_x grid),
              ((state.p_real (i * (grid.end_x - grid.start_x) + j) ^ 2 +
                    state.p_imag (i * (grid.end_x - grid.start_x) + j) ^ 2) *
                  (match external_pot with
                    | none => hamilt_pot (global_x grid j) (global_y grid i) grid
                    | some pot =>
                      pot (global_y grid i * grid.global_dim_x + global_x grid j)) +
                hamiltonian.coupling_a / 2 *
                  (state.p_real (i * (grid.end_x - grid.start_x) + j) ^ 2 +
                    state.p_imag (i * (grid.end_x - grid.start_x) + j) ^ 2) ^ 2) := by
    simp only [calculate_total_energy, calculate_kinetic_energy, calculate_rotational_energy,
      if_neg hn, Bool.false_eq_true, if_false, Cplx.div_real_re, for_range2_re,
      total_energy_term_re, Finset.sum_add_distrib]
    ring
  refine ⟨key, ?_⟩
  intro hV hc
  rw [key]
  simp only [hV, hc, mul_zero, zero_div, zero_mul, add_zero, Finset.sum_const_zero]

end StencilSums

/-- Witness of C28: the single-node lattice of size 3 over the rationals, a state with the
value `1 + i k` in the cell of index `k`, unit mass, `omega = 1`, no potential and no
self-interaction, `norm2 = 1`: the total energy is the kinetic plus the rotational energy. -/
theorem total_energy_decomposition_witness :
    calculate_total_energy (Lattice.Lattice MPIEnv.single 3 (1 : ℚ) 1 none 1)
        { grid := Lattice.Lattice MPIEnv.single 3 (1 : ℚ) 1 none 1, p_real := fun _ => 1,
          p_imag := fun k => (k : ℚ), self_init := false }
        { grid := Lattice.Lattice MPIEnv.single 3 (1 : ℚ) 1 none 1, mass := 1, coupling_a := 0,
          coupling_ab := 0, angular_velocity := 0, rot_coord_x := 0, rot_coord_y := 0,
          omega := 1, external_pot := fun _ => 0, self_init := false }
        (fun _ _ _ => 0) none 1 false (fun _ => 0) =
      calculate_kinetic_energy (Lattice.Lattice MPIEnv.single 3 (1 : ℚ) 1 none 1)
          { grid := Lattice.Lattice MPIEnv.single 3 (1 : ℚ) 1 none 1, p_real := fun _ => 1,
            p_imag := fun k => (k : ℚ), self_init := false }
          { grid := Lattice.Lattice MPIEnv.single 3 (1 : ℚ) 1 none 1, mass := 1,
            coupling_a := 0, coupling_ab := 0, angular_velocity := 0, rot_coord_x := 0,
            rot_coord_y := 0, omega := 1, external_pot := fun _ => 0, self_init := false }
          1 false (fun _ => 0) +
        calculate_rotational_energy (Lattice.Lattice MPIEnv.single 3 (1 : ℚ) 1 none 1)
          { grid := Lattice.Lattice MPIEnv.single 3 (1 : ℚ) 1 none 1, p_real := fun _ => 1,
            p_imag := fun k => (k : ℚ), self_init := false }
          { grid := Lattice.Lattice MPIEnv.single 3 (1 : ℚ) 1 none 1, mass := 1,
            coupling_a := 0, coupling_ab := 0, angular_velocity := 0, rot_coord_x := 0,
            rot_coord_y := 0, omega := 1, external_pot := fun _ => 0, self_init := false }
          1 false (fun _ => 0) :=
  (total_energy_decomposition (Lattice.Lattice MPIEnv.single 3 (1 : ℚ) 1 none 1)
    { grid := Lattice.Lattice MPIEnv.single 3 (1 : ℚ) 1 none 1, p_real := fun _ => 1,
      p_imag := fun k => (k : ℚ), self_init := false }
    { grid := Lattice.Lattice MPIEnv.single 3 (1 : ℚ) 1 none 1, mass := 1, coupling_a := 0,
      coupling_ab := 0, angular_velocity := 0, rot_coord_x := 0, rot_coord_y := 0,
      omega := 1, external_pot := fun _ => 0, self_init := false }
    (fun _ _ _ => 0) none 1 (fun _ => 0) one_ne_zero).2 (fun _ _ => rfl) rfl



/-! ### Mean position (C25) -/

section MeanPosition

variable {K : Type} [Field K]

/-- A component of the four accumulators of `calculate_mean_position` that every iteration
increments by the same component of the summands is the double loop on that component. -/
theorem position_loop_proj (proj : PositionSums K → Cplx K)
    (hproj : ∀ acc t : PositionSums K,
      proj { sum_x_mean := acc.sum_x_mean + t.sum_x_mean,
             sum_y_mean := acc.sum_y_mean + t.sum_y_mean,
             sum_xx_mean := acc.sum_xx_mean + t.sum_xx_mean,
             sum_yy_mean := acc.sum_yy_mean + t.sum_yy_mean } = proj acc + proj t)
    (hzero : proj { sum_x_mean := 0, sum_xx_mean := 0, sum_y_mean := 0, sum_yy_mean := 0 } = 0)
    (ly hy lx hx : Int) (t : Int → Int → PositionSums K) :
    proj (for_range ly hy (fun i acc =>
        for_range lx hx (fun j (acc1 : PositionSums K) =>
          ({ sum_x_mean := acc1.sum_x_mean + (t i j).sum_x_mean,
             sum_y_mean := acc1.sum_y_mean + (t i j).sum_y_mean,
             sum_xx_mean := acc1.sum_xx_mean + (t i j).sum_xx_mean,
             sum_yy_mean := acc1.sum_yy_mean + (t i j).sum_yy_mean } : PositionSums K)) acc)
        { sum_x_mean := 0, sum_xx_mean := 0, sum_y_mean := 0, sum_yy_mean := 0 }) =
      for_range ly hy (fun i acc =>
        for_range lx hx (fun j acc1 => acc1 + proj (t i j)) acc) 0 := by
  rw [for_range_proj proj ly hy _
    (fun i r => for_range lx hx (fun j r1 => r1 + proj (t i j)) r), hzero]
  intro i s
  exact for_range_proj proj lx hx _ (fun j r1 => r1 + proj (t i j)) s
    (fun j s1 => hproj s1 (t i j))

/-- Real parts of the four summands of `calculate_mean_position`. -/
theorem position_terms_re (grid : Lattice K) (state : State K) (ox oy i j : Int) :
    (position_terms grid state ox oy i j).sum_x_mean.re =
        (state.p_real (i * (grid.end_x - grid.start_x) + j) ^ 2 +
          state.p_imag (i * (grid.end_x - grid.start_x) + j) ^ 2) *
          (grid.delta_x * ((j : K) - (ox : K))) ∧
      (position_terms grid state ox oy i j).sum_xx_mean.re =
        (state.p_real (i * (grid.end_x - grid.start_x) + j) ^ 2 +
          state.p_imag (i * (grid.end_x - grid.start_x) + j) ^ 2) *
          (grid.delta_x * ((j : K) - (ox : K))) ^ 2 ∧
      (position_terms grid state ox oy i j).sum_y_mean.re =
        (state.p_real (i * (grid.end_x - grid.start_x) + j) ^ 2 +
          state.p_imag (i * (grid.end_x - grid.start_x) + j) ^ 2) *
          (grid.delta_y * ((i : K) - (oy : K))) ∧
      (position_terms grid state ox oy i j).sum_yy_mean.re =
        (state.p_real (i * (grid.end_x - grid.start_x) + j) ^ 2 +
          state.p_imag (i * (grid.end_x - grid.start_x) + j) ^ 2) *
          (grid.delta_y * ((i : K) - (oy : K))) ^ 2 := by
  refine ⟨?_, ?_, ?_, ?_⟩ <;>
  · simp only [position_terms, State.psi, Cplx.mul_re, Cplx.mul_im, Cplx.conj_re, Cplx.conj_im,
      Int.cast_sub]
    ring

/-- Shift law of a weighted second moment minus the squared first moment: when the weights
`w` times `c` add up to one, the value does not depend on the origin. -/
theorem variance_shift (s : Finset Int) (t : Finset Int) (w : Int → Int → K)
    (pos : Int → Int → K) (d c o o' : K)
    (hw : (∑ i ∈ s, ∑ j ∈ t, w i j) * c = 1) :
    (∑ i ∈ s, ∑ j ∈ t, w i j * (d * (pos i j - o)) ^ 2) * c -
        ((∑ i ∈ s, ∑ j ∈ t, w i j * (d * (pos i j - o))) * c) *
          ((∑ i ∈ s, ∑ j ∈ t, w i j * (d * (pos i j - o))) * c) =
      (∑ i ∈ s, ∑ j ∈ t, w i j * (d * (pos i j - o')) ^ 2) * c -
        ((∑ i ∈ s, ∑ j ∈ t, w i j * (d * (pos i j - o'))) * c) *
          ((∑ i ∈ s, ∑ j ∈ t, w i j * (d * (pos i j - o'))) * c) := by
  have h1 : ∀ a : K, ∑ i ∈ s, ∑ j ∈ t, w i j * (d * (pos i j - a)) =
      d * ((∑ i ∈ s, ∑ j ∈ t, w i j * pos i j) - a * ∑ i ∈ s, ∑ j ∈ t, w i j) := by
    intro a
    rw [Finset.mul_sum, ← Finset.sum_sub_distrib, Finset.mul_sum]
    refine Finset.sum_congr rfl (fun i _ => ?_)
    rw [Finset.mul_sum, ← Finset.sum_sub_distrib, Finset.mul_sum]
    refine Finset.sum_congr rfl (fun j _ => ?_)
    ring
  have h2 : ∀ a : K, ∑ i ∈ s, ∑ j ∈ t, w i j * (d * (pos i j - a)) ^ 2 =
      d ^ 2 * ((∑ i ∈ s, ∑ j ∈ t, w i j * pos i j ^ 2) -
        2 * a * (∑ i ∈ s, ∑ j ∈ t, w i j * pos i j) + a ^ 2 * ∑ i ∈ s, ∑ j ∈ t, w i j) := by
    intro a
    rw [Finset.mul_sum, Finset.mul_sum, ← Finset.sum_sub_distrib, ← Finset.sum_add_distrib,
      Finset.mul_sum]
    refine Finset.sum_congr rfl (fun i _ => ?_)
    rw [Finset.mul_sum, Finset.mul_sum, ← Finset.sum_sub_distrib, ← Finset.sum_add_distrib,
      Finset.mul_sum]
    refine Finset.sum_congr rfl (fun j _ => ?_)
    ring
  rw [h1 o, h1 o', h2 o, h2 o']
  generalize (∑ i ∈ s, ∑ j ∈ t, w i j) = A0 at hw ⊢
  generalize (∑ i ∈ s, ∑ j ∈ t, w i j * pos i j) = A1
  generalize (∑ i ∈ s, ∑ j ∈ t, w i j * pos i j ^ 2) = A2
  linear_combination (d ^ 2 * c * ((2 * o * A1 - o ^ 2 * A0) - (2 * o' * A1 - o' ^ 2 * A0))) * hw

end MeanPosition



section MeanPositionVariance

variable {K : Type} [Field K] [DecidableEq K]

/-- The entries `results[1]` and `results[3]` of `calculate_mean_position` as finite sums over
the visited cells; `n` is the normaliser the routine uses. -/
theorem calculate_mean_position_variances (grid : Lattice K) (state : State K)
    (ox oy : Int) (norm2 : K) :
    calculate_mean_position grid state ox oy norm2 1 =
        (∑ i ∈ Finset.Ico (stencil_begin_y grid) (stencil_end_y grid),
            ∑ j ∈ Finset.Ico (stencil_begin_x grid) (stencil_end_x grid),
              (state.p_real (i * (grid.end_x - grid.start_x) + j) ^ 2 +
                state.p_imag (i * (grid.end_x - grid.start_x) + j) ^ 2) *
                (grid.delta_x * ((j : K) - (ox : K))) ^ 2) *
            (grid.delta_x * grid.delta_y /
              (if norm2 = 0 then state.calculate_squared_norm false (fun _ => 0) else norm2)) -
          ((∑ i ∈ Finset.Ico (stencil_begin_y grid) (stencil_end_y grid),
              ∑ j ∈ Finset.Ico (stencil_begin_x grid) (stencil_end_x grid),
                (state.p_real (i * (grid.end_x - grid.start_x) + j) ^ 2 +
                  state.p_imag (i * (grid.end_x - grid.start_x) + j) ^ 2) *
                  (grid.delta_x * ((j : K) - (ox : K)))) *
              (grid.delta_x * grid.delta_y /
                (if norm2 = 0 then state.calculate_squared_norm false (fun _ => 0)
                  else norm2))) *
            ((∑ i ∈ Finset.Ico (stencil_begin_y grid) (stencil_end_y grid),
              ∑ j ∈ Finset.Ico (stencil_begin_x grid) (stencil_end_x grid),
                (state.p_real (i * (grid.end_x - grid.start_x) + j) ^ 2 +
                  state.p_imag (i * (grid.end_x - grid.start_x) + j) ^ 2) *
                  (grid.delta_x * ((j : K) - (ox : K)))) *
              (grid.delta_x * grid.delta_y /
                (if norm2 = 0 then state.calculate_squared_norm false (fun _ => 0)
                  else norm2))) ∧
      calculate_mean_position grid state ox oy norm2 3 =
        (∑ i ∈ Finset.Ico (stencil_begin_y grid) (stencil_end_y grid),
            ∑ j ∈ Finset.Ico (stencil_begin_x grid) (stencil_end_x grid),
              (state.p_real (i * (grid.end_x - grid.start_x) + j) ^ 2 +
                state.p_imag (i * (grid.end_x - grid.start_x) + j) ^ 2) *
                (grid.delta_y * ((i : K) - (oy : K))) ^ 2) *
            (grid.delta_x * grid.delta_y /
              (if norm2 = 0 then state.calculate_squared_norm false (fun _ => 0) else norm2)) -
          ((∑ i ∈ Finset.Ico (stencil_begin_y grid) (stencil_end_y grid),
              ∑ j ∈ Finset.Ico (stencil_begin_x grid) (stencil_end_x grid),
                (state.p_real (i * (grid.end_x - grid.start_x) + j) ^ 2 +
                  state.p_imag (i * (grid.end_x - grid.start_x) + j) ^ 2) *
                  (grid.delta_y * ((i : K) - (oy : K)))) *
              (grid.delta_x * grid.delta_y /
                (if norm2 = 0 then state.calculate_squared_norm false (fun _ => 0)
                  else norm2))) *
            ((∑ i ∈ Finset.Ico (stencil_begin_y grid) (stencil_end_y grid),
              ∑ j ∈ Finset.Ico (stencil_begin_x grid) (stencil_end_x grid),
                (state.p_real (i * (grid.end_x - grid.start_x) + j) ^ 2 +
                  state.p_imag (i * (grid.end_x - grid.start_x) + j) ^ 2) *
                  (grid.delta_y * ((i : K) - (oy : K)))) *
              (grid.delta_x * grid.delta_y /
                (if norm2 = 0 then state.calculate_squared_norm false (fun _ => 0)
                  else norm2))) := by
  have px := position_loop_proj PositionSums.sum_x_mean (fun _ _ => rfl) rfl
    (stencil_begin_y grid) (stencil_end_y grid) (stencil_begin_x grid) (stencil_end_x grid)
    (position_terms grid state ox oy)
  have pxx := position_loop_proj PositionSums.sum_xx_mean (fun _ _ => rfl) rfl
    (stencil_begin_y grid) (stencil_end_y grid) (stencil_begin_x grid) (stencil_end_x grid)
    (position_terms grid state ox oy)
  have py := position_loop_proj PositionSums.sum_y_mean (fun _ _ => rfl) rfl
    (stencil_begin_y grid) (stencil_end_y grid) (stencil_begin_x grid) (stencil_end_x grid)
    (position_terms grid state ox oy)
  have pyy := position_loop_proj PositionSums.sum_yy_mean (fun _ _ => rfl) rfl
    (stencil_begin_y grid) (stencil_end_y grid) (stencil_begin_x grid) (stencil_end_x grid)
    (position_terms grid state ox oy)
  constructor
  · show (Cplx.div_real _ _).re * grid.delta_x * grid.delta_y -
      (Cplx.div_real _ _).re * grid.delta_x * grid.delta_y *
        ((Cplx.div_real _ _).re * grid.delta_x * grid.delta_y) = _
    rw [px, pxx]
    simp only [Cplx.div_real_re, for_range2_re, (position_terms_re grid state ox oy _ _).1,
      (position_terms_re grid state ox oy _ _).2.1]
    ring
  · show (Cplx.div_real _ _).re * grid.delta_x * grid.delta_y -
      (Cplx.div_real _ _).re * grid.delta_x * grid.delta_y *
        ((Cplx.div_real _ _).re * grid.delta_x * grid.delta_y) = _
    rw [py, pyy]
    simp only [Cplx.div_real_re, for_range2_re, (position_terms_re grid state ox oy _ _).2.2.1,
      (position_terms_re grid state ox oy _ _).2.2.2]
    ring

/-- The total weight of the visited cells as a finite sum. -/
theorem visited_weight_eq (grid : Lattice K) (state : State K) (norm2 : K) :
    visited_weight grid state norm2 =
      (∑ i ∈ Finset.Ico (stencil_begin_y grid) (stencil_end_y grid),
          ∑ j ∈ Finset.Ico (stencil_begin_x grid) (stencil_end_x grid),
            (state.p_real (i * (grid.end_x - grid.start_x) + j) ^ 2 +
              state.p_imag (i * (grid.end_x - grid.start_x) + j) ^ 2)) *
        (grid.delta_x * grid.delta_y /
          (if norm2 = 0 then state.calculate_squared_norm false (fun _ => 0) else norm2)) := by
  have e : ∀ i j : Int,
      (Cplx.conj (state.psi (i * (grid.end_x - grid.start_x) + j)) *
        state.psi (i * (grid.end_x - grid.start_x) + j)).re =
      state.p_real (i * (grid.end_x - grid.start_x) + j) ^ 2 +
        state.p_imag (i * (grid.end_x - grid.start_x) + j) ^ 2 := by
    intro i j
    simp only [State.psi, Cplx.mul_re, Cplx.conj_re, Cplx.conj_im]
    ring
  simp only [visited_weight, Cplx.div_real_re, for_range2_re, e]
  ring

/-- C25 (amended): when the cells visited by `calculate_mean_position` have total weight one,
that is `real(Σ conj(ψ) ψ / norm2) * delta_x * delta_y = 1` with the sum over the visited cells
and the normaliser of the routine, the variances `results[1]` and `results[3]` are the same for
every two origins. -/
theorem mean_position_variance_origin_shift (grid : Lattice K) (state : State K) (norm2 : K)
    (ox oy ox' oy' : Int) (hw : visited_weight grid state norm2 = 1) :
    calculate_mean_position grid state ox oy norm2 1 =
        calculate_mean_position grid state ox' oy' norm2 1 ∧
      calculate_mean_position grid state ox oy norm2 3 =
        calculate_mean_position grid state ox' oy' norm2 3 := by
  rw [visited_weight_eq] at hw
  rw [(calculate_mean_position_variances grid state ox oy norm2).1,
    (calculate_mean_position_variances grid state ox' oy' norm2).1,
    (calculate_mean_position_variances grid state ox oy norm2).2,
    (calculate_mean_position_variances grid state ox' oy' norm2).2]
  exact ⟨variance_shift _ _ _ (fun _ j => (j : K)) _ _ _ _ hw,
    variance_shift _ _ _ (fun i _ => (i : K)) _ _ _ _ hw⟩

end MeanPositionVariance

/-- Witness of C25: the single-node lattice of size 3 over the rationals with unit spacing, the
state that is `1` in the centre cell and `0` elsewhere, `norm2 = 1`. -/
theorem mean_position_variance_origin_shift_witness :
    calculate_mean_position (Lattice.Lattice MPIEnv.single 3 (1 : ℚ) 1 none 0)
        { grid := Lattice.Lattice MPIEnv.single 3 (1 : ℚ) 1 none 0,
          p_real := fun k => if k = 4 then 1 else 0, p_imag := fun _ => 0,
          self_init := false } 0 0 1 1 =
      calculate_mean_position (Lattice.Lattice MPIEnv.single 3 (1 : ℚ) 1 none 0)
        { grid := Lattice.Lattice MPIEnv.single 3 (1 : ℚ) 1 none 0,
          p_real := fun k => if k = 4 then 1 else 0, p_imag := fun _ => 0,
          self_init := false } 5 7 1 1 :=
  (mean_position_variance_origin_shift (Lattice.Lattice MPIEnv.single 3 (1 : ℚ) 1 none 0)
    { grid := Lattice.Lattice MPIEnv.single 3 (1 : ℚ) 1 none 0,
      p_real := fun k => if k = 4 then 1 else 0, p_imag := fun _ => 0,
      self_init := false } 1 0 0 5 7 (by decide!)).1

/-- Counterexample to C25 as stated: the single-node lattice of size 3 over the rationals with
unit spacing and the state that is `1` in every cell, normalised by its local squared norm
(`norm2 = 0`).  The loops visit the centre cell only, with weight `1/9`; `results[1]` is `8/81`
for the origin `(0, 0)` and `0` for the origin `(1, 1)`, and so is `results[3]`. -/
theorem mean_position_variance_counterexample :
    calculate_mean_position (Lattice.Lattice MPIEnv.single 3 (1 : ℚ) 1 none 0)
        { grid := Lattice.Lattice MPIEnv.single 3 (1 : ℚ) 1 none 0,
          p_real := fun _ => 1, p_imag := fun _ => 0, self_init := false } 0 0 0 1 = 8 / 81 ∧
      calculate_mean_position (Lattice.Lattice MPIEnv.single 3 (1 : ℚ) 1 none 0)
        { grid := Lattice.Lattice MPIEnv.single 3 (1 : ℚ) 1 none 0,
          p_real := fun _ => 1, p_imag := fun _ => 0, self_init := false } 1 1 0 1 = 0 ∧
      calculate_mean_position (Lattice.Lattice MPIEnv.single 3 (1 : ℚ) 1 none 0)
        { grid := Lattice.Lattice MPIEnv.single 3 (1 : ℚ) 1 none 0,
          p_real := fun _ => 1, p_imag := fun _ => 0, self_init := false } 0 0 0 3 = 8 / 81 ∧
      calculate_mean_position (Lattice.Lattice MPIEnv.single 3 (1 : ℚ) 1 none 0)
        { grid := Lattice.Lattice MPIEnv.single 3 (1 : ℚ) 1 none 0,
          p_real := fun _ => 1, p_imag := fun _ => 0, self_init := false } 1 1 0 3 = 0 ∧
      calculate_mean_position (Lattice.Lattice MPIEnv.single 3 (1 : ℚ) 1 none 0)
        { grid := Lattice.Lattice MPIEnv.single 3 (1 : ℚ) 1 none 0,
          p_real := fun _ => 1, p_imag := fun _ => 0, self_init := false } 0 0 0 1 ≠
        calculate_mean_position (Lattice.Lattice MPIEnv.single 3 (1 : ℚ) 1 none 0)
          { grid := Lattice.Lattice MPIEnv.single 3 (1 : ℚ) 1 none 0,
            p_real := fun _ => 1, p_imag := fun _ => 0, self_init := false } 1 1 0 1 := by
  decide!



/-! ### Orientation of the momentum differences (C29) -/

/-- C29 (code defect): the single-node non-periodic lattice of size 4 over the rationals with
unit spacing, the state `S` with `p_real[k] = k + 1`, `p_imag[k] = k * k` and its transpose `T`
(`T` at row `i`, column `j` is `S` at row `j`, column `i`), `norm2 = 1`.  On `S` the routine
returns `(302, -91688, -1208, -1467008)` and on `T` it returns
`(1208, -1467008, -302, -91688)`: the second moments are exchanged, but the means are
exchanged with the opposite sign, `results[0]` on `T` being `1208` against `results[2] = -1208`
on `S`.  The routine takes `psi_right - psi_left` along x and `psi_up - psi_down` along y, the
row above minus the row below. -/
theorem mean_momentum_axes_opposite :
    (calculate_mean_momentum (Lattice.Lattice MPIEnv.single 4 (1 : ℚ) 1 none 0)
        { grid := Lattice.Lattice MPIEnv.single 4 (1 : ℚ) 1 none 0,
          p_real := fun k => (k : ℚ) + 1, p_imag := fun k => (k : ℚ) * (k : ℚ),
          self_init := false } 1 0 = 302 ∧
      calculate_mean_momentum (Lattice.Lattice MPIEnv.single 4 (1 : ℚ) 1 none 0)
        { grid := Lattice.Lattice MPIEnv.single 4 (1 : ℚ) 1 none 0,
          p_real := fun k => (k : ℚ) + 1, p_imag := fun k => (k : ℚ) * (k : ℚ),
          self_init := false } 1 1 = -91688 ∧
      calculate_mean_momentum (Lattice.Lattice MPIEnv.single 4 (1 : ℚ) 1 none 0)
        { grid := Lattice.Lattice MPIEnv.single 4 (1 : ℚ) 1 none 0,
          p_real := fun k => (k : ℚ) + 1, p_imag := fun k => (k : ℚ) * (k : ℚ),
          self_init := false } 1 2 = -1208 ∧
      calculate_mean_momentum (Lattice.Lattice MPIEnv.single 4 (1 : ℚ) 1 none 0)
        { grid := Lattice.Lattice MPIEnv.single 4 (1 : ℚ) 1 none 0,
          p_real := fun k => (k : ℚ) + 1, p_imag := fun k => (k : ℚ) * (k : ℚ),
          self_init := false } 1 3 = -1467008) ∧
    (calculate_mean_momentum (Lattice.Lattice MPIEnv.single 4 (1 : ℚ) 1 none 0)
        { grid := Lattice.Lattice MPIEnv.single 4 (1 : ℚ) 1 none 0,
          p_real := fun k => ((4 * (k % 4) + k / 4 : Int) : ℚ) + 1,
          p_imag := fun k =>
            ((4 * (k % 4) + k / 4 : Int) : ℚ) * ((4 * (k % 4) + k / 4 : Int) : ℚ),
          self_init := false } 1 0 = 1208 ∧
      calculate_mean_momentum (Lattice.Lattice MPIEnv.single 4 (1 : ℚ) 1 none 0)
        { grid := Lattice.Lattice MPIEnv.single 4 (1 : ℚ) 1 none 0,
          p_real := fun k => ((4 * (k % 4) + k / 4 : Int) : ℚ) + 1,
          p_imag := fun k =>
            ((4 * (k % 4) + k / 4 : Int) : ℚ) * ((4 * (k % 4) + k / 4 : Int) : ℚ),
          self_init := false } 1 1 = -1467008 ∧
      calculate_mean_momentum (Lattice.Lattice MPIEnv.single 4 (1 : ℚ) 1 none 0)
        { grid := Lattice.Lattice MPIEnv.single 4 (1 : ℚ) 1 none 0,
          p_real := fun k => ((4 * (k % 4) + k / 4 : Int) : ℚ) + 1,
          p_imag := fun k =>
            ((4 * (k % 4) + k / 4 : Int) : ℚ) * ((4 * (k % 4) + k / 4 : Int) : ℚ),
          self_init := false } 1 2 = -302 ∧
      calculate_mean_momentum (Lattice.Lattice MPIEnv.single 4 (1 : ℚ) 1 none 0)
        { grid := Lattice.Lattice MPIEnv.single 4 (1 : ℚ) 1 none 0,
          p_real := fun k => ((4 * (k % 4) + k / 4 : Int) : ℚ) + 1,
          p_imag := fun k =>
            ((4 * (k % 4) + k / 4 : Int) : ℚ) * ((4 * (k % 4) + k / 4 : Int) : ℚ),
          self_init := false } 1 3 = -91688) := by
  decide!



/-! ### Two-component total energy (C24) -/

/-- For `norm2 ≠ 0` the two-state `calculate_total_energy` is the sum of the single-state
energy of `state1` under the Hamiltonian it is given, the single-state energy of `state2` under
the Hamiltonian `hamiltonian_b` that the constructor builds, the inter-species energy and the
Rabi energy. -/
theorem calculate_total_energy_two_parts {K : Type} [Field K] [DecidableEq K] (DBL_MAX : K)
    (prior : Hamiltonian K) (fresh : Int → K) (global_default : Bool) (grid : Lattice K)
    (state1 state2 : State K) (hamiltonian : Hamiltonian2Component K)
    (hamilt_pot_a hamilt_pot_b : Int → Int → Lattice K → K) (norm2 : K) (global : Bool)
    (peers1 peers2 : Int → K) (hn : norm2 ≠ 0) :
    calculate_total_energy_two DBL_MAX prior fresh global_default grid state1 state2
        hamiltonian hamilt_pot_a hamilt_pot_b none norm2 global peers1 peers2 =
      calculate_total_energy grid state1 hamiltonian.toHamiltonian hamilt_pot_a none norm2
          global_default peers1 +
        calculate_total_energy grid state2
          (Hamiltonian.Hamiltonian DBL_MAX prior grid hamiltonian.mass_b
            hamiltonian.coupling_b hamiltonian.coupling_ab hamiltonian.angular_velocity
            hamiltonian.rot_coord_x hamiltonian.rot_coord_y hamiltonian.omega
            (some hamiltonian.external_pot) fresh)
          hamilt_pot_b none norm2 global_default peers2 +
        calculate_ab_energy grid state1 state2 hamiltonian.coupling_ab norm2 +
        calculate_rabi_coupling_energy grid state1 state2 hamiltonian.omega_r
          hamiltonian.omega_i norm2 ∧
      (Hamiltonian.Hamiltonian DBL_MAX prior grid hamiltonian.mass_b hamiltonian.coupling_b
          hamiltonian.coupling_ab hamiltonian.angular_velocity hamiltonian.rot_coord_x
          hamiltonian.rot_coord_y hamiltonian.omega (some hamiltonian.external_pot)
          fresh).rot_coord_x =
        (if hamiltonian.rot_coord_x = DBL_MAX then (grid.dim_x : K) * (1 / 2)
          else prior.rot_coord_x) := by
  constructor
  · simp only [calculate_total_energy_two, if_neg hn, zero_add]
  · unfold Hamiltonian.Hamiltonian
    dsimp only
    split_ifs <;> rfl

/-- C24 (code defect): the single-node lattice of size 3 over the rationals with unit spacing,
`state1` with `p_real[k] = k + 1`, `p_imag[k] = k * k`, `state2` with `p_real[k] = 2 k + 1`,
`p_imag[k] = k`, potentials `V(x, y) = x + y`, masses `1` and `2`, couplings `2`, `3`, `5`,
`omega = 1`, rotation centre `(1, 1)`, Rabi amplitude `1 + 2i`, `norm2 = 1`.  The sum of the
four parts the claim names is `371129/2`.  The routine builds `hamiltonian_b` with the
constructor of `Hamiltonian`, which leaves `rot_coord_x` as it finds it in the new object:
the routine returns `371123/2` when that storage holds `0` and `371165/2` when it holds `7`,
for either default of `global`. -/
theorem two_component_energy_stale_rot_coord_x :
    (∀ global_default : Bool,
      calculate_total_energy (Lattice.Lattice MPIEnv.single 3 (1 : ℚ) 1 none 1)
          { grid := Lattice.Lattice MPIEnv.single 3 (1 : ℚ) 1 none 1,
            p_real := fun k => (k : ℚ) + 1, p_imag := fun k => (k : ℚ) * (k : ℚ),
            self_init := false }
          { grid := Lattice.Lattice MPIEnv.single 3 (1 : ℚ) 1 none 1, mass := 1,
            coupling_a := 2, coupling_ab := 3, angular_velocity := 0, rot_coord_x := 1,
            rot_coord_y := 1, omega := 1, external_pot := fun _ => 0, self_init := false }
          (fun x y _ => (x : ℚ) + (y : ℚ)) none 1 global_default (fun _ => 0) +
        calculate_total_energy (Lattice.Lattice MPIEnv.single 3 (1 : ℚ) 1 none 1)
          { grid := Lattice.Lattice MPIEnv.single 3 (1 : ℚ) 1 none 1,
            p_real := fun k => 2 * (k : ℚ) + 1, p_imag := fun k => (k : ℚ),
            self_init := false }
          { grid := Lattice.Lattice MPIEnv.single 3 (1 : ℚ) 1 none 1, mass := 2,
            coupling_a := 5, coupling_ab := 3, angular_velocity := 0, rot_coord_x := 1,
            rot_coord_y := 1, omega := 1, external_pot := fun _ => 0, self_init := false }
          (fun x y _ => (x : ℚ) + (y : ℚ)) none 1 global_default (fun _ => 0) +
        calculate_ab_energy (Lattice.Lattice MPIEnv.single 3 (1 : ℚ) 1 none 1)
          { grid := Lattice.Lattice MPIEnv.single 3 (1 : ℚ) 1 none 1,
            p_real := fun k => (k : ℚ) + 1, p_imag := fun k => (k : ℚ) * (k : ℚ),
            self_init := false }
          { grid := Lattice.Lattice MPIEnv.single 3 (1 : ℚ) 1 none 1,
            p_real := fun k => 2 * (k : ℚ) + 1, p_imag := fun k => (k : ℚ),
            self_init := false } 3 1 +
        calculate_rabi_coupling_energy (Lattice.Lattice MPIEnv.single 3 (1 : ℚ) 1 none 1)
          { grid := Lattice.Lattice MPIEnv.single 3 (1 : ℚ) 1 none 1,
            p_real := fun k => (k : ℚ) + 1, p_imag := fun k => (k : ℚ) * (k : ℚ),
            self_init := false }
          { grid := Lattice.Lattice MPIEnv.single 3 (1 : ℚ) 1 none 1,
            p_real := fun k => 2 * (k : ℚ) + 1, p_imag := fun k => (k : ℚ),
            self_init := false } 1 2 1 = 371129 / 2) ∧
    (∀ global_default : Bool,
      calculate_total_energy_two 1000
          { grid := Lattice.Lattice MPIEnv.single 3 (1 : ℚ) 1 none 1, mass := 0,
            coupling_a := 0, coupling_ab := 0, angular_velocity := 0, rot_coord_x := 0,
            rot_coord_y := 0, omega := 0, external_pot := fun _ => 0, self_init := false }
          (fun _ => 0) global_default (Lattice.Lattice MPIEnv.single 3 (1 : ℚ) 1 none 1)
          { grid := Lattice.Lattice MPIEnv.single 3 (1 : ℚ) 1 none 1,
            p_real := fun k => (k : ℚ) + 1, p_imag := fun k => (k : ℚ) * (k : ℚ),
            self_init := false }
          { grid := Lattice.Lattice MPIEnv.single 3 (1 : ℚ) 1 none 1,
            p_real := fun k => 2 * (k : ℚ) + 1, p_imag := fun k => (k : ℚ),
            self_init := false }
          { grid := Lattice.Lattice MPIEnv.single 3 (1 : ℚ) 1 none 1, mass := 1,
            coupling_a := 2, coupling_ab := 3, angular_velocity := 0, rot_coord_x := 1,
            rot_coord_y := 1, omega := 1, external_pot := fun _ => 0, self_init := false,
            mass_b := 2, coupling_b := 5, omega_r := 1, omega_i := 2,
            external_pot_b := fun _ => 0 }
          (fun x y _ => (x : ℚ) + (y : ℚ)) (fun x y _ => (x : ℚ) + (y : ℚ)) none 1 true
          (fun _ => 0) (fun _ => 0) = 371123 / 2) ∧
    (∀ global_default : Bool,
      calculate_total_energy_two 1000
          { grid := Lattice.Lattice MPIEnv.single 3 (1 : ℚ) 1 none 1, mass := 0,
            coupling_a := 0, coupling_ab := 0, angular_velocity := 0, rot_coord_x := 7,
            rot_coord_y := 0, omega := 0, external_pot := fun _ => 0, self_init := false }
          (fun _ => 0) global_default (Lattice.Lattice MPIEnv.single 3 (1 : ℚ) 1 none 1)
          { grid := Lattice.Lattice MPIEnv.single 3 (1 : ℚ) 1 none 1,
            p_real := fun k => (k : ℚ) + 1, p_imag := fun k => (k : ℚ) * (k : ℚ),
            self_init := false }
          { grid := Lattice.Lattice MPIEnv.single 3 (1 : ℚ) 1 none 1,
            p_real := fun k => 2 * (k : ℚ) + 1, p_imag := fun k => (k : ℚ),
            self_init := false }
          { grid := Lattice.Lattice MPIEnv.single 3 (1 : ℚ) 1 none 1, mass := 1,
            coupling_a := 2, coupling_ab := 3, angular_velocity := 0, rot_coord_x := 1,
            rot_coord_y := 1, omega := 1, external_pot := fun _ => 0, self_init := false,
            mass_b := 2, coupling_b := 5, omega_r := 1, omega_i := 2,
            external_pot_b := fun _ => 0 }
          (fun x y _ => (x : ℚ) + (y : ℚ)) (fun x y _ => (x : ℚ) + (y : ℚ)) none 1 true
          (fun _ => 0) (fun _ => 0) = 371165 / 2) := by
  decide!

/-! ### Rotation centre stored by the constructor (C31) -/

/-- C31 (code defect): the constructor of `Hamiltonian` assigns `rot_coord_y` in both branches
of its test of `_rot_coord_x`; the member `rot_coord_x` receives `dim_x * 0.5` when the
argument is `DBL_MAX` and otherwise keeps what the storage of the object held, whatever the
argument.  The member `rot_coord_y` is as the claim says.  For instance with `DBL_MAX = 1000`,
the arguments `_rot_coord_x = 3`, `_rot_coord_y = 5` and a storage holding `7`, the object ends
with `rot_coord_x = 7` and `rot_coord_y = 5`. -/
theorem Hamiltonian_rot_coord_x_unassigned {K : Type} [Field K] [DecidableEq K] (DBL_MAX : K)
    (prior : Hamiltonian K) (grid : Lattice K)
    (mass coupling_a coupling_ab angular_velocity rot_coord_x rot_coord_y omega : K)
    (external_pot : Option (Int → K)) (fresh : Int → K) :
    (Hamiltonian.Hamiltonian DBL_MAX prior grid mass coupling_a coupling_ab angular_velocity
          rot_coord_x rot_coord_y omega external_pot fresh).rot_coord_x =
        (if rot_coord_x = DBL_MAX then (grid.dim_x : K) * (1 / 2) else prior.rot_coord_x) ∧
      (Hamiltonian.Hamiltonian DBL_MAX prior grid mass coupling_a coupling_ab angular_velocity
          rot_coord_x rot_coord_y omega external_pot fresh).rot_coord_y =
        (if rot_coord_y = DBL_MAX then (grid.dim_y : K) * (1 / 2) else rot_coord_y) ∧
      (Hamiltonian.Hamiltonian (1000 : ℚ)
          { grid := Lattice.Lattice MPIEnv.single 3 (1 : ℚ) 1 none 0, mass := 0,
            coupling_a := 0, coupling_ab := 0, angular_velocity := 0, rot_coord_x := 7,
            rot_coord_y := 0, omega := 0, external_pot := fun _ => 0, self_init := false }
          (Lattice.Lattice MPIEnv.single 3 (1 : ℚ) 1 none 0) 1 0 0 0 3 5 0 none
          (fun _ => 0)).rot_coord_x = 7 ∧
      (Hamiltonian.Hamiltonian (1000 : ℚ)
          { grid := Lattice.Lattice MPIEnv.single 3 (1 : ℚ) 1 none 0, mass := 0,
            coupling_a := 0, coupling_ab := 0, angular_velocity := 0, rot_coord_x := 7,
            rot_coord_y := 0, omega := 0, external_pot := fun _ => 0, self_init := false }
          (Lattice.Lattice MPIEnv.single 3 (1 : ℚ) 1 none 0) 1 0 0 0 3 5 0 none
          (fun _ => 0)).rot_coord_y = 5 := by
  refine ⟨?_, ?_, by decide!, by decide!⟩
  · unfold Hamiltonian.Hamiltonian
    cases external_pot <;> dsimp only <;> split_ifs <;> rfl
  · unfold Hamiltonian.Hamiltonian
    cases external_pot <;> dsimp only <;> split_ifs <;> rfl

/-! ### Tiling when the last block exceeds the halo (C32) -/

/-- When the last block is larger than the halo, no block boundary comes within the halo of
the upper edge. -/
theorem boundary_clear_of_last_block (dim length halo pb : Int) (hd : 1 ≤ dim) (hh : 0 ≤ halo)
    (hlast : halo < length - (dim - 1) * ceil_div length dim) :
    0 < ceil_div length dim ∧ 0 < length ∧ boundary_clear dim length halo pb := by
  have hge := ceil_div_mul_ge length dim hd
  have hlt := ceil_div_mul_lt length dim hd
  have e : ceil_div length dim * dim = (dim - 1) * ceil_div length dim + ceil_div length dim := by
    ring
  have hb : 0 < ceil_div length dim := by omega
  have hl : 0 < length := by
    have : 0 ≤ (ceil_div length dim - 1) * dim := mul_nonneg (by omega) (by omega)
    omega
  refine ⟨hb, hl, ?_⟩
  intro k hk1 hk2 _
  have hmono : k * ceil_div length dim ≤ (dim - 1) * ceil_div length dim :=
    mul_le_mul_of_nonneg_right (by omega) (by omega)
  split_ifs <;> omega

/-- C32: with `b = ceil(length/dim)`, if the last block is larger than the halo
(`length - (dim-1)*b > halo ≥ 0`), then for either periodicity `calculate_borders` gives the
inner range `[coord*b, (coord+1)*b)` for every `coord < dim-1` and `[(dim-1)*b, length)` for
`coord = dim-1`, and the inner ranges of the nodes `0, …, dim-1` are pairwise disjoint with
union `[0, length)`. -/
theorem calculate_borders_tiles_of_last_block (dim length halo periodic_bound coord : Int)
    (hd : 1 ≤ dim) (hh : 0 ≤ halo)
    (hlast : halo < length - (dim - 1) * ceil_div length dim) :
    (coord < dim - 1 →
        (calculate_borders coord dim length halo periodic_bound).inner_start =
            coord * ceil_div length dim ∧
          (calculate_borders coord dim length halo periodic_bound).inner_end =
            (coord + 1) * ceil_div length dim) ∧
      ((calculate_borders (dim - 1) dim length halo periodic_bound).inner_start =
          (dim - 1) * ceil_div length dim ∧
        (calculate_borders (dim - 1) dim length halo periodic_bound).inner_end = length) ∧
      inner_tiles dim length halo periodic_bound := by
  obtain ⟨hb, hl, hclear⟩ := boundary_clear_of_last_block dim length halo periodic_bound hd hh
    hlast
  have hge := ceil_div_mul_ge length dim hd
  have e : ceil_div length dim * dim = (dim - 1) * ceil_div length dim + ceil_div length dim := by
    ring
  refine ⟨?_, ?_, inner_tiles_of_clear dim length halo periodic_bound (by omega) hd hh hclear⟩
  · intro hc
    refine ⟨rfl, ?_⟩
    rw [inner_end_eq]
    have hmono : (coord + 1) * ceil_div length dim ≤ (dim - 1) * ceil_div length dim :=
      mul_le_mul_of_nonneg_right (by omega) (by omega)
    have e1 : (coord + 1) * ceil_div length dim =
        coord * ceil_div length dim + ceil_div length dim := by ring
    rw [e1] at hmono ⊢
    generalize coord * ceil_div length dim = s at hmono ⊢
    generalize (dim - 1) * ceil_div length dim = t at hmono hlast e
    generalize ceil_div length dim = b at hmono hb e ⊢
    split_ifs <;> omega
  · refine ⟨rfl, ?_⟩
    rw [inner_end_eq]
    generalize (dim - 1) * ceil_div length dim = t at hlast e ⊢
    generalize ceil_div length dim * dim = u at hge e
    generalize ceil_div length dim = b at hb e ⊢
    split_ifs <;> omega

/-- Witness of C32: three nodes on a non-periodic axis of length 10 with halo 1; the block
size is 4 and the last block `[8, 10)` has 2 cells. -/
theorem calculate_borders_tiles_of_last_block_witness :
    ((calculate_borders 0 3 10 1 0).inner_start = 0 * ceil_div 10 3 ∧
        (calculate_borders 0 3 10 1 0).inner_end = (0 + 1) * ceil_div 10 3) ∧
      ((calculate_borders (3 - 1) 3 10 1 0).inner_start = (3 - 1) * ceil_div 10 3 ∧
        (calculate_borders (3 - 1) 3 10 1 0).inner_end = 10) ∧
      inner_tiles 3 10 1 0 :=
  ⟨(calculate_borders_tiles_of_last_block 3 10 1 0 0 (by decide) (by decide) (by decide)).1
      (by decide),
    (calculate_borders_tiles_of_last_block 3 10 1 0 0 (by decide) (by decide) (by decide)).2⟩

/-! ### Well-formed ranges (C33) -/

/-- C33 (amended): for `length ≥ 1`, `dim ≥ 1`, `0 ≤ coord < dim`, `halo ≥ 0` and either
periodicity, `calculate_borders` returns `start ≤ inner_start`, `inner_end ≤ end`,
`0 ≤ inner_start` and `inner_end ≤ length`; with `b = ceil(length/dim)`,
`inner_start ≤ inner_end` holds exactly when the block of the node starts inside the axis,
`coord * b ≤ length`, and then `start ≤ end` as well. -/
theorem calculate_borders_well_formed (coord dim length halo periodic_bound : Int)
    (hl : 1 ≤ length) (hd : 1 ≤ dim) (hc0 : 0 ≤ coord) (_hc1 : coord < dim) (hh : 0 ≤ halo) :
    (calculate_borders coord dim length halo periodic_bound).start ≤
        (calculate_borders coord dim length halo periodic_bound).inner_start ∧
      (calculate_borders coord dim length halo periodic_bound).inner_end ≤
        (calculate_borders coord dim length halo periodic_bound).end_ ∧
      0 ≤ (calculate_borders coord dim length halo periodic_bound).inner_start ∧
      (calculate_borders coord dim length halo periodic_bound).inner_end ≤ length ∧
      ((calculate_borders coord dim length halo periodic_bound).inner_start ≤
          (calculate_borders coord dim length halo periodic_bound).inner_end ↔
        coord * ceil_div length dim ≤ length) ∧
      (coord * ceil_div length dim ≤ length →
        (calculate_borders coord dim length halo periodic_bound).start ≤
          (calculate_borders coord dim length halo periodic_bound).end_) := by
  have hb := ceil_div_pos length dim (by omega) hd
  have hs : 0 ≤ coord * ceil_div length dim := mul_nonneg hc0 (by omega)
  rw [inner_start_eq, inner_end_eq, (start_end_eq coord dim length halo periodic_bound).1,
    (start_end_eq coord dim length halo periodic_bound).2]
  have e0 : coord = 0 → coord * ceil_div length dim = 0 := by
    intro h
    rw [h, zero_mul]
  generalize coord * ceil_div length dim = s at hs e0 ⊢
  generalize ceil_div length dim = b at hb ⊢
  refine ⟨?_, ?_, hs, ?_, ?_, ?_⟩
  · split_ifs with h1 h2
    · omega
    · have := e0 h2
      omega
    · omega
  · split_ifs <;> omega
  · split_ifs <;> omega
  · split_ifs <;> constructor <;> intro h <;> omega
  · intro h
    split_ifs <;> omega

/-- Witness of C33 (amended): node 1 of 3 on a non-periodic axis of length 10 with halo 4 has
the tile `[0, 10)` and the inner range `[4, 10)`. -/
theorem calculate_borders_well_formed_witness :
    (calculate_borders 1 3 10 4 0).start ≤ (calculate_borders 1 3 10 4 0).inner_start ∧
      (calculate_borders 1 3 10 4 0).inner_end ≤ (calculate_borders 1 3 10 4 0).end_ ∧
      0 ≤ (calculate_borders 1 3 10 4 0).inner_start ∧
      (calculate_borders 1 3 10 4 0).inner_end ≤ 10 ∧
      ((calculate_borders 1 3 10 4 0).inner_start ≤ (calculate_borders 1 3 10 4 0).inner_end ↔
        1 * ceil_div 10 3 ≤ 10) ∧
      (1 * ceil_div 10 3 ≤ 10 →
        (calculate_borders 1 3 10 4 0).start ≤ (calculate_borders 1 3 10 4 0).end_) :=
  calculate_borders_well_formed 1 3 10 4 0 (by decide) (by decide) (by decide) (by decide)
    (by decide)

/-- Counterexample to C33 as stated: `length = 5`, `dim = 4` (so `dim ≤ length`), `halo = 0`,
non-periodic, `coord = 3`.  The block size is 2, the node gets `inner_start = 6` and
`inner_end = 5`, `start = 6` and `end = 5`: both extents are negative. -/
theorem calculate_borders_well_formed_counterexample :
    ceil_div 5 4 = 2 ∧ calculate_borders 3 4 5 0 0 =
        { start := 6, end_ := 5, inner_start := 6, inner_end := 5 } ∧
      ¬ ((calculate_borders 3 4 5 0 0).inner_start ≤ (calculate_borders 3 4 5 0 0).inner_end) ∧
      ¬ ((calculate_borders 3 4 5 0 0).start ≤ (calculate_borders 3 4 5 0 0).end_) := by
  decide



/-! ### Order of the two states (C37) -/

section TwoStates

variable {K : Type} [Field K]

theorem ab_term_swap (grid : Lattice K) (s1 s2 : State K) (g : K) :
    ab_term grid s1 s2 g = ab_term grid s2 s1 g := by
  funext i j
  apply Cplx.ext <;>
  · simp only [ab_term, State.psi, Cplx.mul_re, Cplx.mul_im, Cplx.conj_re, Cplx.conj_im]
    ring

theorem rabi_term_swap (grid : Lattice K) (s1 s2 : State K) (omega_r omega_i : K) :
    rabi_term grid s1 s2 omega_r omega_i = rabi_term grid s2 s1 omega_r (-omega_i) := by
  funext i j
  apply Cplx.ext <;>
  · simp only [rabi_term, State.psi, Cplx.mul_re, Cplx.mul_im, Cplx.conj_re, Cplx.conj_im,
      Cplx.add_re, Cplx.add_im]
    ring

variable [DecidableEq K]

/-- C37: for every lattice, pair of states, coupling, Rabi amplitude and `norm2` (`norm2 = 0`
included), `calculate_ab_energy(s1, s2, g) = calculate_ab_energy(s2, s1, g)` and
`calculate_rabi_coupling_energy(s1, s2, omega_r, omega_i) =
calculate_rabi_coupling_energy(s2, s1, omega_r, -omega_i)`. -/
theorem inter_species_energy_symmetric (grid : Lattice K) (s1 s2 : State K)
    (g omega_r omega_i norm2 : K) :
    calculate_ab_energy grid s1 s2 g norm2 = calculate_ab_energy grid s2 s1 g norm2 ∧
      calculate_rabi_coupling_energy grid s1 s2 omega_r omega_i norm2 =
        calculate_rabi_coupling_energy grid s2 s1 omega_r (-omega_i) norm2 := by
  constructor
  · unfold calculate_ab_energy
    rw [ab_term_swap grid s1 s2 g,
      add_comm (s1.calculate_squared_norm false fun _ => 0)
        (s2.calculate_squared_norm false fun _ => 0)]
  · unfold calculate_rabi_coupling_energy
    rw [rabi_term_swap grid s1 s2 omega_r omega_i,
      add_comm (s1.calculate_squared_norm false fun _ => 0)
        (s2.calculate_squared_norm false fun _ => 0)]

end TwoStates

/-! ### Real-valued states (C35) -/

section RealStates

variable {K : Type} [Field K]

/-- The stencil sums of two families of summands that agree on the visited cells of a
`calculate_borders` geometry agree. -/
theorem stencil_sum_congr (grid : Lattice K)
    (coord_x ndim_x length_x halo_x pb_x coord_y ndim_y length_y halo_y pb_y : Int)
    (hhx : 0 ≤ halo_x) (hhy : 0 ≤ halo_y)
    (hbx : calculate_borders coord_x ndim_x length_x halo_x pb_x =
      { start := grid.start_x, end_ := grid.end_x, inner_start := grid.inner_start_x,
        inner_end := grid.inner_end_x })
    (hby : calculate_borders coord_y ndim_y length_y halo_y pb_y =
      { start := grid.start_y, end_ := grid.end_y, inner_start := grid.inner_start_y,
        inner_end := grid.inner_end_y })
    (hdx : grid.dim_x = grid.end_x - grid.start_x)
    (hdy : grid.dim_y = grid.end_y - grid.start_y)
    (f g : Int → Int → K)
    (h : ∀ i j, 1 ≤ i → i ≤ grid.dim_y - 2 → 1 ≤ j → j ≤ grid.dim_x - 2 → f i j = g i j) :
    ∑ i ∈ Finset.Ico (stencil_begin_y grid) (stencil_end_y grid),
        ∑ j ∈ Finset.Ico (stencil_begin_x grid) (stencil_end_x grid), f i j =
      ∑ i ∈ Finset.Ico (stencil_begin_y grid) (stencil_end_y grid),
        ∑ j ∈ Finset.Ico (stencil_begin_x grid) (stencil_end_x grid), g i j := by
  refine Finset.sum_congr rfl (fun i hi => Finset.sum_congr rfl (fun j hj => ?_))
  rw [Finset.mem_Ico] at hi hj
  obtain ⟨b1, b2, b3, b4⟩ := stencil_cell_bounds grid coord_x ndim_x length_x halo_x pb_x
    coord_y ndim_y length_y halo_y pb_y hhx hhy hbx hby hdx hdy i j hi.1 hi.2 hj.1 hj.2
  exact h i j b1 b2 b3 b4

variable [DecidableEq K]

end RealStates



theorem cplx_norm_sq_ne_zero {K : Type} [LinearOrderedField K] (c : Cplx K) (hc : c ≠ 0) :
    c.re * c.re + c.im * c.im ≠ 0 := by
  intro h
  apply hc
  obtain ⟨h1, h2⟩ := (mul_self_add_mul_self_eq_zero).mp h
  exact Cplx.ext h1 h2

section Scaling

variable {K : Type} [Field K]

/-- The summand of the kinetic energy of a state scaled by `c` on the tile is `|c|²` times
the summand of the state, at every cell with `1 ≤ i ≤ dim_y - 2`, `1 ≤ j ≤ dim_x - 2`. -/
theorem kinetic_term_scale (grid : Lattice K) (st st' : State K) (hamiltonian : Hamiltonian K)
    (c : Cplx K)
    (hscale : ∀ k : Int, 0 ≤ k → k < grid.dim_y * grid.dim_x → st'.psi k = c * st.psi k)
    (hdx : grid.dim_x = grid.end_x - grid.start_x)
    (i j : Int) (hi1 : 1 ≤ i) (hi2 : i ≤ grid.dim_y - 2) (hj1 : 1 ≤ j)
    (hj2 : j ≤ grid.dim_x - 2) :
    (kinetic_term grid st' hamiltonian i j).re =
      (c.re * c.re + c.im * c.im) * (kinetic_term grid st hamiltonian i j).re := by
  have h := (stencil_indices_inside grid.dim_x grid.dim_y i j hi1 hi2 hj1 hj2).1
  have h1 := hscale (i * grid.dim_x + j) (h _ (by simp)).1 (h _ (by simp)).2
  have h2 := hscale ((i - 1) * grid.dim_x + j) (h _ (by simp)).1 (h _ (by simp)).2
  have h3 := hscale ((i + 1) * grid.dim_x + j) (h _ (by simp)).1 (h _ (by simp)).2
  have h4 := hscale (i * grid.dim_x + j + 1) (h _ (by simp)).1 (h _ (by simp)).2
  have h5 := hscale (i * grid.dim_x + j - 1) (h _ (by simp)).1 (h _ (by simp)).2
  simp only [kinetic_term]
  rw [← hdx, h1, h2, h3, h4, h5]
  simp only [State.psi, Cplx.mul_re, Cplx.mul_im, Cplx.conj_re, Cplx.conj_im, Cplx.add_re,
    Cplx.add_im, Cplx.sub_re, Cplx.sub_im]
  ring

/-- The local squared norm of a state scaled by `c` on the tile is `|c|²` times the local
squared norm of the state. -/
theorem calculate_squared_norm_scale (grid : Lattice K) (st st' : State K) (c : Cplx K)
    (peers : Int → K) (hst : st.grid = grid) (hst' : st'.grid = grid)
    (hscale : ∀ k : Int, 0 ≤ k → k < grid.dim_y * grid.dim_x → st'.psi k = c * st.psi k)
    (hdx : grid.dim_x = grid.end_x - grid.start_x)
    (hdy : grid.dim_y = grid.end_y - grid.start_y)
    (hx0 : grid.start_x ≤ grid.inner_start_x) (hx1 : grid.inner_end_x ≤ grid.end_x)
    (hy0 : grid.start_y ≤ grid.inner_start_y) (hy1 : grid.inner_end_y ≤ grid.end_y) :
    st'.calculate_squared_norm false peers =
      (c.re * c.re + c.im * c.im) * st.calculate_squared_norm false peers := by
  rw [calculate_squared_norm_local, calculate_squared_norm_local, hst, hst', Finset.mul_sum]
  refine Finset.sum_congr rfl (fun i hi => ?_)
  rw [Finset.mul_sum]
  refine Finset.sum_congr rfl (fun j hj => ?_)
  rw [Finset.mem_Ico] at hi hj
  rw [← hdx]
  have hW : 0 ≤ grid.dim_x := by omega
  have p1 : 0 ≤ i * grid.dim_x := mul_nonneg (by omega) hW
  have p2 : i * grid.dim_x ≤ (grid.dim_y - 1) * grid.dim_x :=
    mul_le_mul_of_nonneg_right (by omega) hW
  have e3 : (grid.dim_y - 1) * grid.dim_x = grid.dim_y * grid.dim_x - grid.dim_x := by ring
  rw [e3] at p2
  have h := hscale (j + i * grid.dim_x) (by omega) (by omega)
  have hre : st'.p_real (j + i * grid.dim_x) =
      c.re * st.p_real (j + i * grid.dim_x) - c.im * st.p_imag (j + i * grid.dim_x) :=
    congrArg Cplx.re h
  have him : st'.p_imag (j + i * grid.dim_x) =
      c.re * st.p_imag (j + i * grid.dim_x) + c.im * st.p_real (j + i * grid.dim_x) :=
    congrArg Cplx.im h
  rw [hre, him]
  ring

end Scaling

/-- C36: on every lattice whose axis geometry comes from `calculate_borders` with `halo ≥ 0`,
for every state `ψ` and nonzero complex constant `c`, `calculate_kinetic_energy` with
`norm2 = 0` and `global = false` returns for a state that is `c ψ` in every cell of the tile
what it returns for `ψ` (exact arithmetic in an ordered field). -/
theorem kinetic_energy_scale_invariant {K : Type} [LinearOrderedField K] (grid : Lattice K)
    (coord_x ndim_x length_x halo_x pb_x coord_y ndim_y length_y halo_y pb_y : Int)
    (hhx : 0 ≤ halo_x) (hhy : 0 ≤ halo_y)
    (hbx : calculate_borders coord_x ndim_x length_x halo_x pb_x =
      { start := grid.start_x, end_ := grid.end_x, inner_start := grid.inner_start_x,
        inner_end := grid.inner_end_x })
    (hby : calculate_borders coord_y ndim_y length_y halo_y pb_y =
      { start := grid.start_y, end_ := grid.end_y, inner_start := grid.inner_start_y,
        inner_end := grid.inner_end_y })
    (hdx : grid.dim_x = grid.end_x - grid.start_x)
    (hdy : grid.dim_y = grid.end_y - grid.start_y)
    (st st' : State K) (hamiltonian : Hamiltonian K) (c : Cplx K) (peers : Int → K)
    (hst : st.grid = grid) (hst' : st'.grid = grid) (hc : c ≠ 0)
    (hscale : ∀ k : Int, 0 ≤ k → k < grid.dim_y * grid.dim_x → st'.psi k = c * st.psi k) :
    calculate_kinetic_energy grid st' hamiltonian 0 false peers =
      calculate_kinetic_energy grid st hamiltonian 0 false peers := by
  have ix := inner_inside_tile coord_x ndim_x length_x halo_x pb_x hhx
  have iy := inner_inside_tile coord_y ndim_y length_y halo_y pb_y hhy
  rw [hbx] at ix
  rw [hby] at iy
  have hn := calculate_squared_norm_scale grid st st' c peers hst hst' hscale hdx hdy ix.1
    ix.2 iy.1 iy.2
  have hk : ∑ i ∈ Finset.Ico (stencil_begin_y grid) (stencil_end_y grid),
      ∑ j ∈ Finset.Ico (stencil_begin_x grid) (stencil_end_x grid),
        (kinetic_term grid st' hamiltonian i j).re =
      (c.re * c.re + c.im * c.im) *
        ∑ i ∈ Finset.Ico (stencil_begin_y grid) (stencil_end_y grid),
          ∑ j ∈ Finset.Ico (stencil_begin_x grid) (stencil_end_x grid),
            (kinetic_term grid st hamiltonian i j).re := by
    rw [stencil_sum_congr grid coord_x ndim_x length_x halo_x pb_x coord_y ndim_y length_y
      halo_y pb_y hhx hhy hbx hby hdx hdy _
      (fun i j => (c.re * c.re + c.im * c.im) * (kinetic_term grid st hamiltonian i j).re)
      (fun i j hi1 hi2 hj1 hj2 =>
        kinetic_term_scale grid st st' hamiltonian c hscale hdx i j hi1 hi2 hj1 hj2)]
    rw [Finset.mul_sum]
    refine Finset.sum_congr rfl (fun i _ => ?_)
    rw [Finset.mul_sum]
  simp only [calculate_kinetic_energy, if_true, Bool.false_eq_true, if_false,
    Cplx.div_real_re, for_range2_re, hk, hn]
  rw [mul_div_mul_left _ _ (cplx_norm_sq_ne_zero c hc)]

/-- Witness of C36: the single-node lattice of size 4 over the rationals, the state with
`p_real[k] = k + 1`, `p_imag[k] = k * k` and the same state multiplied by `c = 2 + 3i`. -/
theorem kinetic_energy_scale_invariant_witness :
    calculate_kinetic_energy (Lattice.Lattice MPIEnv.single 4 (1 : ℚ) 1 none 0)
        { grid := Lattice.Lattice MPIEnv.single 4 (1 : ℚ) 1 none 0,
          p_real := fun k => 2 * ((k : ℚ) + 1) - 3 * ((k : ℚ) * (k : ℚ)),
          p_imag := fun k => 2 * ((k : ℚ) * (k : ℚ)) + 3 * ((k : ℚ) + 1),
          self_init := false }
        { grid := Lattice.Lattice MPIEnv.single 4 (1 : ℚ) 1 none 0, mass := 1,
          coupling_a := 0, coupling_ab := 0, angular_velocity := 0, rot_coord_x := 0,
          rot_coord_y := 0, omega := 0, external_pot := fun _ => 0, self_init := false }
        0 false (fun _ => 0) =
      calculate_kinetic_energy (Lattice.Lattice MPIEnv.single 4 (1 : ℚ) 1 none 0)
        { grid := Lattice.Lattice MPIEnv.single 4 (1 : ℚ) 1 none 0,
          p_real := fun k => (k : ℚ) + 1, p_imag := fun k => (k : ℚ) * (k : ℚ),
          self_init := false }
        { grid := Lattice.Lattice MPIEnv.single 4 (1 : ℚ) 1 none 0, mass := 1,
          coupling_a := 0, coupling_ab := 0, angular_velocity := 0, rot_coord_x := 0,
          rot_coord_y := 0, omega := 0, external_pot := fun _ => 0, self_init := false }
        0 false (fun _ => 0) :=
  kinetic_energy_scale_invariant (Lattice.Lattice MPIEnv.single 4 (1 : ℚ) 1 none 0)
    0 1 4 4 0 0 1 4 4 0 (by decide) (by decide) (by decide!) (by decide!) (by decide!)
    (by decide!)
    { grid := Lattice.Lattice MPIEnv.single 4 (1 : ℚ) 1 none 0,
      p_real := fun k => (k : ℚ) + 1, p_imag := fun k => (k : ℚ) * (k : ℚ),
      self_init := false }
    { grid := Lattice.Lattice MPIEnv.single 4 (1 : ℚ) 1 none 0,
      p_real := fun k => 2 * ((k : ℚ) + 1) - 3 * ((k : ℚ) * (k : ℚ)),
      p_imag := fun k => 2 * ((k : ℚ) * (k : ℚ)) + 3 * ((k : ℚ) + 1),
      self_init := false }
    { grid := Lattice.Lattice MPIEnv.single 4 (1 : ℚ) 1 none 0, mass := 1,
      coupling_a := 0, coupling_ab := 0, angular_velocity := 0, rot_coord_x := 0,
      rot_coord_y := 0, omega := 0, external_pot := fun _ => 0, self_init := false }
    ⟨2, 3⟩ (fun _ => 0) rfl rfl (by intro h; exact absurd (congrArg Cplx.re h) (by decide!))
    (fun _ _ _ => rfl)



/-! ### Potential buffer against callback (C34) -/

/-- C34 (code defect): single-node lattices of size 3 over the rationals with unit spacing, the
state `p_real[k] = k + 1`, `p_imag[k] = k * k`, unit mass, `norm2 = 1`, the potential
`f(x, y) = x + 10 y + 1` and a zeroed buffer filled by `initialize_potential(f)`.  On the
non-periodic lattice the energy computed from the buffer and the energy computed from the
callback are both `3212`.  On the lattice periodic along y only (`dim_x = 3`, `dim_y = 11`) the
buffer gives `49654` and the callback `3715416`; on the lattice periodic along x only
(`dim_x = 11`, `dim_y = 3`) the buffer gives `5353901` and the callback `2345636`: the buffer is
filled with the stride `dim_y` and read with the stride `global_dim_x = dim_x`. -/
theorem potential_buffer_disagrees_with_callback :
    (calculate_total_energy (Lattice.Lattice MPIEnv.single 3 (1 : ℚ) 1 none 0)
        { grid := Lattice.Lattice MPIEnv.single 3 (1 : ℚ) 1 none 0,
          p_real := fun k => (k : ℚ) + 1, p_imag := fun k => (k : ℚ) * (k : ℚ),
          self_init := false }
        { grid := Lattice.Lattice MPIEnv.single 3 (1 : ℚ) 1 none 0, mass := 1,
          coupling_a := 0, coupling_ab := 0, angular_velocity := 0, rot_coord_x := 0,
          rot_coord_y := 0, omega := 0, external_pot := fun _ => 0, self_init := true }
        (fun x y _ => (x : ℚ) + 10 * (y : ℚ) + 1)
        (some (Hamiltonian.initialize_potential
          ({ grid := Lattice.Lattice MPIEnv.single 3 (1 : ℚ) 1 none 0, mass := 1,
             coupling_a := 0, coupling_ab := 0, angular_velocity := 0, rot_coord_x := 0,
             rot_coord_y := 0, omega := 0, external_pot := fun _ => 0, self_init := true } :
            Hamiltonian ℚ)
          (fun x y _ => (x : ℚ) + 10 * (y : ℚ) + 1)).external_pot)
        1 false (fun _ => 0) = 3212 ∧
      calculate_total_energy (Lattice.Lattice MPIEnv.single 3 (1 : ℚ) 1 none 0)
        { grid := Lattice.Lattice MPIEnv.single 3 (1 : ℚ) 1 none 0,
          p_real := fun k => (k : ℚ) + 1, p_imag := fun k => (k : ℚ) * (k : ℚ),
          self_init := false }
        { grid := Lattice.Lattice MPIEnv.single 3 (1 : ℚ) 1 none 0, mass := 1,
          coupling_a := 0, coupling_ab := 0, angular_velocity := 0, rot_coord_x := 0,
          rot_coord_y := 0, omega := 0, external_pot := fun _ => 0, self_init := true }
        (fun x y _ => (x : ℚ) + 10 * (y : ℚ) + 1) none 1 false (fun _ => 0) = 3212) ∧
    (calculate_total_energy (Lattice.Lattice MPIEnv.single 3 (1 : ℚ) 1 (some (1, 0)) 0)
        { grid := Lattice.Lattice MPIEnv.single 3 (1 : ℚ) 1 (some (1, 0)) 0,
          p_real := fun k => (k : ℚ) + 1, p_imag := fun k => (k : ℚ) * (k : ℚ),
          self_init := false }
        { grid := Lattice.Lattice MPIEnv.single 3 (1 : ℚ) 1 (some (1, 0)) 0, mass := 1,
          coupling_a := 0, coupling_ab := 0, angular_velocity := 0, rot_coord_x := 0,
          rot_coord_y := 0, omega := 0, external_pot := fun _ => 0, self_init := true }
        (fun x y _ => (x : ℚ) + 10 * (y : ℚ) + 1)
        (some (Hamiltonian.initialize_potential
          ({ grid := Lattice.Lattice MPIEnv.single 3 (1 : ℚ) 1 (some (1, 0)) 0, mass := 1,
             coupling_a := 0, coupling_ab := 0, angular_velocity := 0, rot_coord_x := 0,
             rot_coord_y := 0, omega := 0, external_pot := fun _ => 0, self_init := true } :
            Hamiltonian ℚ)
          (fun x y _ => (x : ℚ) + 10 * (y : ℚ) + 1)).external_pot)
        1 false (fun _ => 0) = 49654 ∧
      calculate_total_energy (Lattice.Lattice MPIEnv.single 3 (1 : ℚ) 1 (some (1, 0)) 0)
        { grid := Lattice.Lattice MPIEnv.single 3 (1 : ℚ) 1 (some (1, 0)) 0,
          p_real := fun k => (k : ℚ) + 1, p_imag := fun k => (k : ℚ) * (k : ℚ),
          self_init := false }
        { grid := Lattice.Lattice MPIEnv.single 3 (1 : ℚ) 1 (some (1, 0)) 0, mass := 1,
          coupling_a := 0, coupling_ab := 0, angular_velocity := 0, rot_coord_x := 0,
          rot_coord_y := 0, omega := 0, external_pot := fun _ => 0, self_init := true }
        (fun x y _ => (x : ℚ) + 10 * (y : ℚ) + 1) none 1 false (fun _ => 0) = 3715416) ∧
    (calculate_total_energy (Lattice.Lattice MPIEnv.single 3 (1 : ℚ) 1 (some (0, 1)) 0)
        { grid := Lattice.Lattice MPIEnv.single 3 (1 : ℚ) 1 (some (0, 1)) 0,
          p_real := fun k => (k : ℚ) + 1, p_imag := fun k => (k : ℚ) * (k : ℚ),
          self_init := false }
        { grid := Lattice.Lattice MPIEnv.single 3 (1 : ℚ) 1 (some (0, 1)) 0, mass := 1,
          coupling_a := 0, coupling_ab := 0, angular_velocity := 0, rot_coord_x := 0,
          rot_coord_y := 0, omega := 0, external_pot := fun _ => 0, self_init := true }
        (fun x y _ => (x : ℚ) + 10 * (y : ℚ) + 1)
        (some (Hamiltonian.initialize_potential
          ({ grid := Lattice.Lattice MPIEnv.single 3 (1 : ℚ) 1 (some (0, 1)) 0, mass := 1,
             coupling_a := 0, coupling_ab := 0, angular_velocity := 0, rot_coord_x := 0,
             rot_coord_y := 0, omega := 0, external_pot := fun _ => 0, self_init := true } :
            Hamiltonian ℚ)
          (fun x y _ => (x : ℚ) + 10 * (y : ℚ) + 1)).external_pot)
        1 false (fun _ => 0) = 5353901 ∧
      calculate_total_energy (Lattice.Lattice MPIEnv.single 3 (1 : ℚ) 1 (some (0, 1)) 0)
        { grid := Lattice.Lattice MPIEnv.single 3 (1 : ℚ) 1 (some (0, 1)) 0,
          p_real := fun k => (k : ℚ) + 1, p_imag := fun k => (k : ℚ) * (k : ℚ),
          self_init := false }
        { grid := Lattice.Lattice MPIEnv.single 3 (1 : ℚ) 1 (some (0, 1)) 0, mass := 1,
          coupling_a := 0, coupling_ab := 0, angular_velocity := 0, rot_coord_x := 0,
          rot_coord_y := 0, omega := 0, external_pot := fun _ => 0, self_init := true }
        (fun x y _ => (x : ℚ) + 10 * (y : ℚ) + 1) none 1 false (fun _ => 0) = 2345636) := by
  decide!

end TrotterSuzuki
